import Mathlib

/-!
# WuKongIM: conversation API, shallow embedding

Embedding of `internal/server/api_conversation.go`.

Conventions of the embedding.

* Go strings are Lean `String`s; byte slices are `List Nat`.
* Machine integers are `Nat` / `Int`; every conversion and every unsigned
  subtraction of the source is written out with its modulus.
* The store, the cluster and the conversation cache are collaborators of the
  handlers, declared in other packages.  They are the fields of `Env`: each
  call of the source is a field applied to the same arguments.  No handler reads the store after it has written to it, so the
  answers do not depend on earlier calls of the same handler.
* A handler returns the list of the effects it performed, in program order;
  the last effect of a handler is the HTTP response (or the forward).
-/

namespace WuKongIM

/-! ## Machine integers -/

/-- Conversion of a Go `int` / `int64` to `uint64`. -/
def toUint64 (x : Int) : Nat := (x % (2 ^ 64 : Int)).toNat

/-- Conversion of a Go `int` to `uint32`. -/
def toUint32 (x : Int) : Nat := (x % (2 ^ 32 : Int)).toNat

/-- Conversion of a `uint64` to `uint32`. -/
def uint64ToUint32 (x : Nat) : Nat := x % 2 ^ 32

/-- Conversion of a `uint64` to a Go `int` (64 bits, two's complement). -/
def uint64ToInt (x : Nat) : Int :=
  if x % 2 ^ 64 < 2 ^ 63 then ((x % 2 ^ 64 : Nat) : Int) else ((x % 2 ^ 64 : Nat) : Int) - 2 ^ 64

/-- Subtraction of two `uint64` values, which wraps around. -/
def subUint64 (a b : Nat) : Nat := (a + 2 ^ 64 - b % 2 ^ 64) % 2 ^ 64

/-! ## Data model -/

/-- Go `error` values the handlers tell apart: `wkdb.ErrNotFound` and the rest. -/
inductive GoError where
  | ErrNotFound
  | other (msg : String)
  deriving DecidableEq, Repr

/-- The fields of `wkdb.Conversation` that `api_conversation.go` reads or writes.
`ChannelType` is a `uint8`, `UnreadCount` a `uint32`, `ReadedToMsgSeq` a `uint64`. -/
structure Conversation where
  Uid : String
  ChannelId : String
  ChannelType : Nat
  UnreadCount : Nat
  ReadedToMsgSeq : Nat
  deriving DecidableEq, Repr

/-- The fields of the cluster's node record used by the handlers. -/
structure NodeInfo where
  Id : Nat
  ApiServerAddr : String
  deriving DecidableEq, Repr

/-- The part of `wkhttp.Context` the handlers use: the request path and body. -/
structure Context where
  Path : String
  Body : List Nat
  deriving DecidableEq, Repr

/-- The constant `wkproto.ChannelTypePerson`. -/
def ChannelTypePerson : Nat := 1

/-- Request body of `clearConversationUnread` (`clearConversationUnreadReq`). -/
structure clearConversationUnreadReq where
  UID : String
  ChannelID : String
  ChannelType : Nat
  deriving DecidableEq, Repr

/-- Request body of `setConversationUnread`; `Unread` is a Go `int`. -/
structure setConversationUnreadReq where
  UID : String
  ChannelID : String
  ChannelType : Nat
  Unread : Int
  MessageSeq : Nat
  deriving DecidableEq, Repr

/-- Request body of `deleteConversation` (`deleteChannelReq`). -/
structure deleteChannelReq where
  UID : String
  ChannelID : String
  ChannelType : Nat
  deriving DecidableEq, Repr

/-- The fields of `wkdb.Message` and of `MessageResp` used by the handlers. -/
structure MessageResp where
  MessageSeq : Nat
  ClientMsgNo : String
  Timestamp : Int
  deriving DecidableEq, Repr

/-- One entry of the `channels` field of a recent-message request. -/
structure channelRecentMessageReq where
  ChannelId : String
  ChannelType : Nat
  LastMsgSeq : Nat
  deriving DecidableEq, Repr

/-- Recent messages of one channel. -/
structure channelRecentMessage where
  ChannelId : String
  ChannelType : Nat
  Messages : List MessageResp
  deriving DecidableEq, Repr

/-- The fields of `syncUserConversationResp` that `syncUserConversation` reads
or writes.  `LastMsgSeq` is a `uint32` and `Unread` a Go `int`. -/
structure syncUserConversationResp where
  ChannelID : String
  ChannelType : Nat
  Unread : Int
  Timestamp : Int
  LastMsgSeq : Nat
  LastClientMsgNo : String
  ReadedToMsgSeq : Nat
  Recents : List MessageResp
  deriving DecidableEq, Repr

/-- Request body of `syncUserConversation`. -/
structure syncUserConversationReq where
  UID : String
  Version : Int
  LastMsgSeqs : String
  MsgCount : Int
  deriving DecidableEq, Repr

/-- Request body of `syncRecentMessages`. -/
structure syncRecentMessagesReq where
  UID : String
  Channels : List channelRecentMessageReq
  MsgCount : Int
  deriving DecidableEq, Repr

/-- What a handler does to the outside world, one constructor per call. -/
inductive Effect where
  | slotLeaderOfChannel (channelId : String) (channelType : Nat)
  | leaderOfChannelForRead (channelId : String) (channelType : Nat)
  | storeGetConversation (uid channelId : String) (channelType : Nat)
  | storeGetLastMsgSeq (channelId : String) (channelType : Nat)
  | storeAddOrUpdateConversations (uid : String) (conversations : List Conversation)
  | storeDeleteConversation (uid channelId : String) (channelType : Nat)
  | storeGetLastConversations (uid : String) (version : Nat) (limit : Int)
  | storeLoadLastMsgsWithEnd (channelId : String) (channelType : Nat) (endSeq : Nat) (limit : Int)
  | storeLoadNextRangeMsgs (channelId : String) (channelType : Nat) (startSeq endSeq : Nat)
      (limit : Int)
  | cacheGet (uid : String)
  | cacheDelete (uid channelId : String) (channelType : Nat)
  | requestSyncMessage (nodeId : Nat) (reqs : List channelRecentMessageReq) (uid : String)
      (msgCount : Int)
  | forwardWithBody (url : String) (body : List Nat)
  | responseError (err : GoError)
  | responseOK
  | responseConversations (resps : List syncUserConversationResp)
  | responseRecentMessages (msgs : List channelRecentMessage)
  deriving DecidableEq, Repr

/-- The collaborators of the handlers: options, cluster, store, cache and the
helpers of the package that are declared in other files. -/
structure Env where
  /-- Result of `opts.ClusterOn()`. -/
  ClusterOn : Bool
  /-- The option `opts.Cluster.NodeId`. -/
  NodeId : Nat
  /-- The option `opts.Conversation.UserMaxCount`. -/
  UserMaxCount : Int
  SlotLeaderOfChannel : String → Nat → Except GoError NodeInfo
  LeaderOfChannelForRead : String → Nat → Except GoError NodeInfo
  GetFakeChannelIDWith : String → String → String
  GetFromUIDAndToUIDWith : String → String × String
  IsEmptyConversation : Conversation → Bool
  /-- Go returns the pair `(conversation, err)`. -/
  GetConversation : String → String → Nat → Conversation × Option GoError
  GetLastMsgSeq : String → Nat → Except GoError Nat
  AddOrUpdateConversations : String → List Conversation → Option GoError
  DeleteConversation : String → String → Nat → Option GoError
  /-- Called with `wkdb.ConversationTypeChat`. -/
  GetLastConversations : String → Nat → Int → Except GoError (List Conversation)
  /-- Called with `wkdb.ConversationTypeChat`. -/
  GetUserConversationFromCache : String → List Conversation
  LoadLastMsgsWithEnd : String → Nat → Nat → Int → Except GoError (List MessageResp)
  LoadNextRangeMsgs : String → Nat → Nat → Nat → Int → Except GoError (List MessageResp)
  /-- Result of `sort.Sort(sort.Reverse(messageResps))`. -/
  sortReverse : List MessageResp → List MessageResp
  /-- The HTTP round trip of `Server.requestSyncMessage`. -/
  requestSyncMessage :
    Nat → List channelRecentMessageReq → String → Int → Except GoError (List channelRecentMessage)
  /-- The order in which the Go scheduler runs the goroutines that
  `getRecentMessagesForCluster` starts: each entry is the position of a
  goroutine, which then takes its next step. -/
  schedule : List Nat

/-! ## Helpers shared by the handlers -/

/-- Go `BindJSON(&req, c)`: decodes the body into the request and also returns
the bytes of the body. -/
def BindJSON {α : Type} (decode : List Nat → Except GoError α) (c : Context) :
    Except GoError (α × List Nat) :=
  match decode c.Body with
  | .error err => .error err
  | .ok req => .ok (req, c.Body)

/-- The block `if s.s.opts.ClusterOn() { ... }` that opens
`clearConversationUnread`, `setConversationUnread`, `deleteConversation` and
`syncUserConversation` (the four copies are identical).  The result is
`some effects` when the handler returns inside the block and `none` when it
goes on; in both cases the first component lists the effects performed. -/
def slotLeaderGate (env : Env) (c : Context) (uid : String) (bodyBytes : List Nat) :
    List Effect × Bool :=
  if env.ClusterOn then
    match env.SlotLeaderOfChannel uid ChannelTypePerson with
    | .error _ =>
      ([.slotLeaderOfChannel uid ChannelTypePerson,
        .responseError (.other "获取频道所在节点失败！")], true)
    | .ok leaderInfo =>
      let leaderIsSelf := leaderInfo.Id == env.NodeId
      if !leaderIsSelf then
        ([.slotLeaderOfChannel uid ChannelTypePerson,
          .forwardWithBody (leaderInfo.ApiServerAddr ++ c.Path) bodyBytes], true)
      else ([.slotLeaderOfChannel uid ChannelTypePerson], false)
  else ([], false)

/-- The local `fakeChannelId` of the handlers. -/
def fakeChannelIdOf (env : Env) (uid channelId : String) (channelType : Nat) : String :=
  if channelType = ChannelTypePerson then env.GetFakeChannelIDWith uid channelId else channelId

/-- A `wkdb.Conversation` literal with the three fields the handlers set; the
other fields have their zero value. -/
def newConversation (uid channelId : String) (channelType : Nat) : Conversation :=
  { Uid := uid, ChannelId := channelId, ChannelType := channelType,
    UnreadCount := 0, ReadedToMsgSeq := 0 }

/-- Lines 125-131 and 217-224: a conversation that `wkdb.IsEmptyConversation`
finds empty is replaced by a new one of the channel. -/
def conversationOrNew (env : Env) (conversation : Conversation) (uid fakeChannelId : String)
    (channelType : Nat) : Conversation :=
  if env.IsEmptyConversation conversation then newConversation uid fakeChannelId channelType
  else conversation

/-- Lines 146-155 and 240-249, the same in both handlers: the conversation is
written, the cache entry of the channel is dropped and the handler answers;
`t` are the effects before the write. -/
def storeConversation (env : Env) (uid fakeChannelId : String) (channelType : Nat)
    (t : List Effect) (conversation : Conversation) : List Effect :=
  match env.AddOrUpdateConversations uid [conversation] with
  | some err => t ++ [.storeAddOrUpdateConversations uid [conversation], .responseError err]
  | none =>
    t ++ [.storeAddOrUpdateConversations uid [conversation],
      .cacheDelete uid fakeChannelId channelType, .responseOK]

/-- Lines 141-144: the read position moves up to the last message sequence and
never down. -/
def raiseReaded (conversation : Conversation) (msgSeq : Nat) : Conversation :=
  if conversation.ReadedToMsgSeq < msgSeq then { conversation with ReadedToMsgSeq := msgSeq }
  else conversation

/-! ## clearConversationUnread -/

/-- The `Check` method of `clearConversationUnreadReq` is declared in another
file; its verdict is an argument. -/
def clearConversationUnread (env : Env) (c : Context)
    (decode : List Nat → Except GoError clearConversationUnreadReq)
    (check : clearConversationUnreadReq → Option GoError) : List Effect :=
  match BindJSON decode c with
  | .error err => [.responseError err]
  | .ok (req, bodyBytes) =>
    match check req with
    | some err => [.responseError err]
    | none =>
      let gate := slotLeaderGate env c req.UID bodyBytes
      if gate.2 then gate.1
      else
        let fakeChannelId := fakeChannelIdOf env req.UID req.ChannelID req.ChannelType
        let got := env.GetConversation req.UID fakeChannelId req.ChannelType
        let t1 := gate.1 ++ [.storeGetConversation req.UID fakeChannelId req.ChannelType]
        match got.2 with
        | some (.other msg) => t1 ++ [.responseError (.other msg)]
        | _ =>
          let conversation := conversationOrNew env got.1 req.UID fakeChannelId req.ChannelType
          let t2 := t1 ++ [.storeGetLastMsgSeq fakeChannelId req.ChannelType]
          match env.GetLastMsgSeq fakeChannelId req.ChannelType with
          | .error err => t2 ++ [.responseError err]
          | .ok msgSeq =>
            let conversation := raiseReaded conversation msgSeq
            storeConversation env req.UID fakeChannelId req.ChannelType t2 conversation

/-! ## setConversationUnread -/

/-- Lines 226-235: the pair `(unread, readedMsgSeq)` computed from the request's
`unread` (a Go `int`) and the channel's last message sequence (a `uint64`). -/
def unreadAndReaded (reqUnread : Int) (msgSeq : Nat) : Nat × Nat :=
  if toUint64 reqUnread > msgSeq then (1, subUint64 msgSeq 1)
  else if reqUnread > 0 then (toUint32 reqUnread, subUint64 msgSeq (toUint64 reqUnread))
  else (0, msgSeq)

def setConversationUnread (env : Env) (c : Context)
    (decode : List Nat → Except GoError setConversationUnreadReq) : List Effect :=
  match BindJSON decode c with
  | .error err => [.responseError err]
  | .ok (req, bodyBytes) =>
    if req.UID = "" then [.responseError (.other "UID cannot be empty")]
    else if req.ChannelID = "" ∨ req.ChannelType = 0 then
      [.responseError (.other "channel_id or channel_type cannot be empty")]
    else
      let gate := slotLeaderGate env c req.UID bodyBytes
      if gate.2 then gate.1
      else
        let fakeChannelId := fakeChannelIdOf env req.UID req.ChannelID req.ChannelType
        let t1 := gate.1 ++ [.storeGetLastMsgSeq fakeChannelId req.ChannelType]
        match env.GetLastMsgSeq fakeChannelId req.ChannelType with
        | .error err => t1 ++ [.responseError err]
        | .ok msgSeq =>
          let got := env.GetConversation req.UID fakeChannelId req.ChannelType
          let t2 := t1 ++ [.storeGetConversation req.UID fakeChannelId req.ChannelType]
          match got.2 with
          | some (.other msg) => t2 ++ [.responseError (.other msg)]
          | _ =>
            let conversation := conversationOrNew env got.1 req.UID fakeChannelId req.ChannelType
            let ur := unreadAndReaded req.Unread msgSeq
            let conversation :=
              { conversation with ReadedToMsgSeq := ur.2, UnreadCount := ur.1 }
            storeConversation env req.UID fakeChannelId req.ChannelType t2 conversation

/-! ## deleteConversation -/

def deleteConversation (env : Env) (c : Context)
    (decode : List Nat → Except GoError deleteChannelReq)
    (check : deleteChannelReq → Option GoError) : List Effect :=
  match BindJSON decode c with
  | .error err => [.responseError err]
  | .ok (req, bodyBytes) =>
    match check req with
    | some err => [.responseError err]
    | none =>
      let gate := slotLeaderGate env c req.UID bodyBytes
      if gate.2 then gate.1
      else
        let fakeChannelId := fakeChannelIdOf env req.UID req.ChannelID req.ChannelType
        let t1 := gate.1 ++ [.storeDeleteConversation req.UID fakeChannelId req.ChannelType]
        match env.DeleteConversation req.UID fakeChannelId req.ChannelType with
        | some err => t1 ++ [.responseError err]
        | none => t1 ++ [.cacheDelete req.UID fakeChannelId req.ChannelType, .responseOK]

/-! ## Go library functions used by `getChannelLastMsgSeqMap` -/

/-- Go `strings.Split(s, sep)` for a separator of one character. -/
def stringsSplit (s : List Char) (sep : Char) : List (List Char) := s.splitOn sep

/-- The two error kinds of `strconv.NumError`. -/
inductive NumError where
  | ErrSyntax
  | ErrRange
  deriving DecidableEq, Repr

/-- Value of a decimal digit character. -/
def digitValue (c : Char) : Nat := c.toNat - 48

/-- The loop of `strconv.ParseUint(s, 10, 64)` over the characters still to be
read, `n` being the value read so far. -/
def parseUintLoop : List Char → Nat → Nat × Option NumError
  | [], n => (n, none)
  | c :: cs, n =>
    if !c.isDigit then (0, some .ErrSyntax)
    else if n ≥ (2 ^ 64 - 1) / 10 + 1 then (2 ^ 64 - 1, some .ErrRange)
    else
      let n1 := n * 10 + digitValue c
      if n1 > 2 ^ 64 - 1 then (2 ^ 64 - 1, some .ErrRange)
      else parseUintLoop cs n1

/-- The number a list of decimal digits stands for, read after `acc`. -/
def decimalValue (cs : List Char) (acc : Nat) : Nat :=
  cs.foldl (fun a c => a * 10 + digitValue c) acc

/-- Go `strconv.ParseUint(s, 10, 64)`: the value and the error kind, if any. -/
def ParseUint (s : List Char) : Nat × Option NumError :=
  if s = [] then (0, some .ErrSyntax) else parseUintLoop s 0

/-- Go `strconv.ParseInt(s, 10, 0)` on a 64-bit platform. -/
def ParseInt (s : List Char) : Int × Option NumError :=
  match s with
  | [] => (0, some .ErrSyntax)
  | c :: cs =>
    let neg := c == '-'
    let digits := if c == '+' || c == '-' then cs else c :: cs
    let r := ParseUint digits
    if r.2 = some .ErrSyntax then (0, some .ErrSyntax)
    else if !neg && r.1 ≥ 2 ^ 63 then (2 ^ 63 - 1, some .ErrRange)
    else if neg && r.1 > 2 ^ 63 then (-(2 ^ 63), some .ErrRange)
    else if neg then (-(r.1 : Int), none) else ((r.1 : Int), none)

/-- Go `strconv.Atoi(s)`, which the library documents as `ParseInt(s, 10, 0)`
converted to `int`. -/
def Atoi (s : List Char) : Int × Option NumError := ParseInt s

/-- Go `fmt.Sprintf("%s-%d", channelId, channelType)`. -/
def channelKey (channelId : String) (channelType : Int) : String :=
  channelId ++ "-" ++ toString channelType

/-! ## Go maps from string to `uint64` -/

/-- A `map[string]uint64`; the first pair with a key is the live one. -/
abbrev SeqMap := List (String × Nat)

/-- The assignment `m[k] = v`. -/
def SeqMap.set (m : SeqMap) (k : String) (v : Nat) : SeqMap := (k, v) :: m

/-- The lookup `v, ok := m[k]`. -/
def SeqMap.get? (m : SeqMap) (k : String) : Option Nat := m.lookup k

/-- The lookup `m[k]`, which is the zero value for a missing key. -/
def SeqMap.get (m : SeqMap) (k : String) : Nat := (m.get? k).getD 0

/-! ## getChannelLastMsgSeqMap -/

/-- One round of the loop of `getChannelLastMsgSeqMap`. -/
def lastMsgSeqStep (channelLastMsgMap : SeqMap) (channelLastMsgSeqStr : List Char) : SeqMap :=
  match stringsSplit channelLastMsgSeqStr ':' with
  | [channelID, channelType, lastMsgSeq] =>
    channelLastMsgMap.set (channelKey (String.mk channelID) (Atoi channelType).1)
      (ParseUint lastMsgSeq).1
  | _ => channelLastMsgMap

def getChannelLastMsgSeqMap (lastMsgSeqs : String) : SeqMap :=
  (stringsSplit lastMsgSeqs.data '|').foldl lastMsgSeqStep []

/-! ## getRecentMessages and getRecentMessagesForCluster -/

/-- The loop of `getRecentMessages` over the channels still to be read; `t` are
the effects so far and `acc` is `channelRecentMessages`.  The messages of the
store are given as the `MessageResp` that `messageResp.from` makes of them. -/
def getRecentMessagesLoop (env : Env) (uid : String) (msgCount : Int) (orderByLast : Bool) :
    List channelRecentMessageReq → List Effect → List channelRecentMessage →
    List Effect × Except GoError (List channelRecentMessage)
  | [], t, acc => (t, .ok acc)
  | channel :: rest, t, acc =>
    let fakeChannelID := fakeChannelIdOf env uid channel.ChannelId channel.ChannelType
    let msgSeq := if channel.LastMsgSeq > 0 then channel.LastMsgSeq - 1 else channel.LastMsgSeq
    if orderByLast then
      let t1 := t ++ [.storeLoadLastMsgsWithEnd fakeChannelID channel.ChannelType msgSeq msgCount]
      match env.LoadLastMsgsWithEnd fakeChannelID channel.ChannelType msgSeq msgCount with
      | .error err => (t1, .error err)
      | .ok recentMessages =>
        getRecentMessagesLoop env uid msgCount orderByLast rest t1
          (acc ++ [{ ChannelId := channel.ChannelId, ChannelType := channel.ChannelType,
                     Messages := env.sortReverse recentMessages }])
    else
      let t1 := t ++ [.storeLoadNextRangeMsgs uid channel.ChannelType msgSeq 0 msgCount]
      match env.LoadNextRangeMsgs uid channel.ChannelType msgSeq 0 msgCount with
      | .error err => (t1, .error err)
      | .ok recentMessages =>
        getRecentMessagesLoop env uid msgCount orderByLast rest t1
          (acc ++ [{ ChannelId := channel.ChannelId, ChannelType := channel.ChannelType,
                     Messages := recentMessages }])

def getRecentMessages (env : Env) (uid : String) (msgCount : Int)
    (channels : List channelRecentMessageReq) (orderByLast : Bool) :
    List Effect × Except GoError (List channelRecentMessage) :=
  getRecentMessagesLoop env uid msgCount orderByLast channels [] []

/-- The requests of the peers, `peerChannelRecentMessageReqsMap`, as the list
of its keys with their requests, a key standing where it first came up. -/
abbrev PeerReqs := List (Nat × List channelRecentMessageReq)

/-- The update `m[id] = append(m[id], req)`. -/
def PeerReqs.add : PeerReqs → Nat → channelRecentMessageReq → PeerReqs
  | [], id, req => [(id, [req])]
  | (k, reqs) :: rest, id, req =>
    if k = id then (k, reqs ++ [req]) :: rest else (k, reqs) :: PeerReqs.add rest id req

/-- The first loop of `getRecentMessagesForCluster`: the channels are split
between this node and the leaders of the other nodes. -/
def groupByLeader (env : Env) (uid : String) :
    List channelRecentMessageReq → List Effect → List channelRecentMessageReq → PeerReqs →
    List Effect × Except GoError (List channelRecentMessageReq × PeerReqs)
  | [], t, localReqs, peers => (t, .ok (localReqs, peers))
  | channelRecentMsgReq :: rest, t, localReqs, peers =>
    let fakeChannelId :=
      fakeChannelIdOf env uid channelRecentMsgReq.ChannelId channelRecentMsgReq.ChannelType
    let t1 := t ++ [.leaderOfChannelForRead fakeChannelId channelRecentMsgReq.ChannelType]
    match env.LeaderOfChannelForRead fakeChannelId channelRecentMsgReq.ChannelType with
    | .error err => (t1, .error err)
    | .ok leaderInfo =>
      if leaderInfo.Id == env.NodeId then
        groupByLeader env uid rest t1 (localReqs ++ [channelRecentMsgReq]) peers
      else
        groupByLeader env uid rest t1 localReqs (peers.add leaderInfo.Id channelRecentMsgReq)

/-- Where a goroutine of lines 524-536 stands: before its request, after a
request that failed (the write of `reqErr` is next), after a request that
succeeded (the read of `channelRecentMessages` for the `append` of line 532 is
next), after that read (the write is next), or at its end. -/
inductive peerPc where
  | waiting
  | failed (err : GoError)
  | received (results : List channelRecentMessage)
  | appending (snapshot results : List channelRecentMessage)
  | finished
  deriving DecidableEq, Repr

/-- A goroutine of lines 524-536: its arguments `pID` and `reqs`, and where it
stands. -/
structure peerGoroutine where
  pID : Nat
  reqs : List channelRecentMessageReq
  pc : peerPc
  deriving DecidableEq, Repr

/-- The variables the goroutines share, `channelRecentMessages` and `reqErr`,
and the effects so far.  The goroutines read and write them without a lock. -/
structure peerShared where
  trace : List Effect
  channelRecentMessages : List channelRecentMessage
  reqErr : Option GoError
  deriving DecidableEq, Repr

/-- The goroutine has made its request. -/
def peerGoroutine.started (g : peerGoroutine) : Bool :=
  match g.pc with
  | .waiting => false
  | _ => true

/-- One step of a goroutine: the request of line 526; the write of line 529;
the read and the write of the assignment of line 532, which are two steps. -/
def peerGoroutine.step (env : Env) (uid : String) (msgCount : Int) (g : peerGoroutine)
    (sh : peerShared) : peerGoroutine × peerShared :=
  match g.pc with
  | .waiting =>
    match env.requestSyncMessage g.pID g.reqs uid msgCount with
    | .error err =>
      ({ g with pc := .failed err },
        { sh with trace := sh.trace ++ [.requestSyncMessage g.pID g.reqs uid msgCount] })
    | .ok results =>
      ({ g with pc := .received results },
        { sh with trace := sh.trace ++ [.requestSyncMessage g.pID g.reqs uid msgCount] })
  | .failed err => ({ g with pc := .finished }, { sh with reqErr := some err })
  | .received results => ({ g with pc := .appending sh.channelRecentMessages results }, sh)
  | .appending snapshot results =>
    ({ g with pc := .finished }, { sh with channelRecentMessages := snapshot ++ results })
  | .finished => (g, sh)

/-- The goroutine at position `i` takes a step; nothing happens when there is
no such goroutine. -/
def peerStepAt (env : Env) (uid : String) (msgCount : Int) :
    Nat → List peerGoroutine → peerShared → List peerGoroutine × peerShared
  | _, [], sh => ([], sh)
  | 0, g :: gs, sh => ((g.step env uid msgCount sh).1 :: gs, (g.step env uid msgCount sh).2)
  | i + 1, g :: gs, sh =>
    (g :: (peerStepAt env uid msgCount i gs sh).1, (peerStepAt env uid msgCount i gs sh).2)

/-- The goroutines take their steps in the order of the schedule. -/
def runSchedule (env : Env) (uid : String) (msgCount : Int) :
    List Nat → List peerGoroutine → peerShared → List peerGoroutine × peerShared
  | [], gs, sh => (gs, sh)
  | i :: rest, gs, sh =>
    runSchedule env uid msgCount rest (peerStepAt env uid msgCount i gs sh).1
      (peerStepAt env uid msgCount i gs sh).2

/-- Line 538, `wg.Wait()`: every goroutine reaches its end; those that have
steps left when the schedule is used up take them one goroutine after the
other (a goroutine has at most three steps). -/
def finishAll (env : Env) (uid : String) (msgCount : Int) :
    List peerGoroutine → peerShared → peerShared
  | [], sh => sh
  | g :: gs, sh =>
    let r1 := g.step env uid msgCount sh
    let r2 := r1.1.step env uid msgCount r1.2
    let r3 := r2.1.step env uid msgCount r2.2
    finishAll env uid msgCount gs r3.2

/-- Lines 521-538: one goroutine per key of the map is started and all of them
are waited for; they run in the order `env.schedule` gives to their steps.
The result is the effects, `channelRecentMessages` and `reqErr`. -/
def requestPeers (env : Env) (uid : String) (msgCount : Int) (peers : PeerReqs)
    (t : List Effect) : List Effect × List channelRecentMessage × Option GoError :=
  let goroutines : List peerGoroutine :=
    peers.map fun p => { pID := p.1, reqs := p.2, pc := .waiting }
  let run := runSchedule env uid msgCount env.schedule goroutines
    { trace := t, channelRecentMessages := [], reqErr := none }
  let sh := finishAll env uid msgCount run.1 run.2
  (sh.trace, sh.channelRecentMessages, sh.reqErr)

/-- The request of a goroutine, as an effect. -/
def peerGoroutine.request (uid : String) (msgCount : Int) (g : peerGoroutine) : Effect :=
  .requestSyncMessage g.pID g.reqs uid msgCount

/-- The requests of the goroutines that have made theirs. -/
def startedRequests (uid : String) (msgCount : Int) (gs : List peerGoroutine) : List Effect :=
  (gs.filter peerGoroutine.started).map (peerGoroutine.request uid msgCount)

def getRecentMessagesForCluster (env : Env) (uid : String) (msgCount : Int)
    (channels : List channelRecentMessageReq) (orderByLast : Bool) :
    List Effect × Except GoError (List channelRecentMessage) :=
  if channels.length = 0 then ([], .ok [])
  else
    match groupByLeader env uid channels [] [] [] with
    | (t, .error err) => (t, .error err)
    | (t, .ok (localReqs, peers)) =>
      match requestPeers env uid msgCount peers t with
      | (t1, _, some reqErr) => (t1, .error reqErr)
      | (t1, channelRecentMessages, none) =>
        if localReqs.length > 0 then
          match getRecentMessages env uid msgCount localReqs orderByLast with
          | (t2, .error err) => (t1 ++ t2, .error err)
          | (t2, .ok results) => (t1 ++ t2, .ok (channelRecentMessages ++ results))
        else (t1, .ok channelRecentMessages)

/-! ## syncUserConversation -/

/-- Lines 354-359: `cacheConversationMap`, the readed sequence of the cached
conversations that have one, under the key of their channel. -/
def cacheConversationMapOf (cacheConversations : List Conversation) : SeqMap :=
  cacheConversations.foldl
    (fun m cacheConversation =>
      if cacheConversation.ReadedToMsgSeq > 0 then
        m.set (channelKey cacheConversation.ChannelId cacheConversation.ChannelType)
          cacheConversation.ReadedToMsgSeq
      else m)
    []

/-- Whether the inner loop of lines 362-368 finds a conversation of the channel
of `cacheConversation`. -/
def existsIn (conversations : List Conversation) (cacheConversation : Conversation) : Bool :=
  conversations.any fun conversation =>
    cacheConversation.ChannelId == conversation.ChannelId &&
      cacheConversation.ChannelType == conversation.ChannelType

/-- Lines 361-371: one round of the outer loop.  A cached conversation is
appended when the inner loop finds no conversation of its channel. -/
def mergeStep (conversations : List Conversation) (cacheConversation : Conversation) :
    List Conversation :=
  if existsIn conversations cacheConversation then conversations
  else conversations ++ [cacheConversation]

/-- Lines 360-372: the cached conversations are merged into the persisted
ones.  The elements of `conversations` are `wkdb.Conversation` values, as in
`AddOrUpdateConversations(uid, []wkdb.Conversation{conversation})`, so the
assignment to the loop variable at line 364 changes a copy and leaves the
slice as it is; the inner loop ranges over the slice as it stands at that
round, the conversations appended by earlier rounds included. -/
def mergeCacheConversations (conversations cacheConversations : List Conversation) :
    List Conversation :=
  cacheConversations.foldl mergeStep conversations

/-- Lines 375-383: the channel id the client knows the conversation by. -/
def realChannelIdOf (env : Env) (uid : String) (conversation : Conversation) : String :=
  if conversation.ChannelType = ChannelTypePerson then
    let fromTo := env.GetFromUIDAndToUIDWith conversation.ChannelId
    if uid = fromTo.1 then fromTo.2 else fromTo.1
  else conversation.ChannelId

/-- Lines 384-392: the value of `msgSeq` after the two comparisons. -/
def effectiveMsgSeq (env : Env) (uid : String) (channelLastMsgMap cacheConversationMap : SeqMap)
    (conversation : Conversation) : Nat :=
  let msgSeq :=
    channelLastMsgMap.get
      (channelKey (realChannelIdOf env uid conversation) conversation.ChannelType)
  let cacheMsgSeq :=
    cacheConversationMap.get (channelKey conversation.ChannelId conversation.ChannelType)
  let msgSeq := if cacheMsgSeq > msgSeq then cacheMsgSeq else msgSeq
  if conversation.ReadedToMsgSeq > msgSeq then conversation.ReadedToMsgSeq else msgSeq

/-- Lines 393-397: the recent-message request of a conversation. -/
def recentMessageReqOf (env : Env) (uid : String) (channelLastMsgMap cacheConversationMap : SeqMap)
    (conversation : Conversation) : channelRecentMessageReq :=
  { ChannelId := realChannelIdOf env uid conversation,
    ChannelType := conversation.ChannelType,
    LastMsgSeq := effectiveMsgSeq env uid channelLastMsgMap cacheConversationMap conversation }

/-- Modelled from the spec: `newSyncUserConversationResp` is declared in
another file of the package.  The response of a conversation row
carries the row's channel type, unread count and readed_to_msg_seq; a person
channel goes on the wire under the uid of the peer (section 4.3), the other
fields are filled in when the recent messages are attached. -/
def newSyncUserConversationResp (env : Env) (conversation : Conversation) :
    syncUserConversationResp :=
  { ChannelID := realChannelIdOf env conversation.Uid conversation,
    ChannelType := conversation.ChannelType,
    Unread := (conversation.UnreadCount : Int),
    Timestamp := 0,
    LastMsgSeq := 0,
    LastClientMsgNo := "",
    ReadedToMsgSeq := conversation.ReadedToMsgSeq,
    Recents := [] }

/-- Lines 398-400: the response of a conversation before the recent messages
are attached. -/
def conversationRespOf (env : Env) (uid : String) (channelLastMsgMap cacheConversationMap : SeqMap)
    (conversation : Conversation) : syncUserConversationResp :=
  newSyncUserConversationResp env
    { conversation with
      ReadedToMsgSeq := effectiveMsgSeq env uid channelLastMsgMap cacheConversationMap conversation }

/-- Lines 426-438: the body of the inner loop, for one response and one
`channelRecentMessage`. -/
def attachRecent (resp : syncUserConversationResp) (channelRecentMessage : channelRecentMessage) :
    syncUserConversationResp :=
  if resp.ChannelID = channelRecentMessage.ChannelId ∧
      resp.ChannelType = channelRecentMessage.ChannelType then
    let resp :=
      match channelRecentMessage.Messages.getLast? with
      | some lastMsg =>
        let resp :=
          { resp with
            LastMsgSeq := uint64ToUint32 lastMsg.MessageSeq,
            LastClientMsgNo := lastMsg.ClientMsgNo,
            Timestamp := lastMsg.Timestamp }
        if lastMsg.MessageSeq > resp.ReadedToMsgSeq then
          { resp with Unread := uint64ToInt (subUint64 lastMsg.MessageSeq resp.ReadedToMsgSeq) }
        else resp
      | none => resp
    { resp with Recents := channelRecentMessage.Messages }
  else resp

/-- Lines 422-441: every response goes through all the recent messages. -/
def attachRecents (resps : List syncUserConversationResp)
    (channelRecentMessages : List channelRecentMessage) : List syncUserConversationResp :=
  resps.map fun resp => channelRecentMessages.foldl attachRecent resp

/-- Lines 406-420: the recent messages are read through the cluster when
cluster mode is on and from the local store otherwise. -/
def fetchRecent (env : Env) (uid : String) (msgCount : Int)
    (channelRecentMessageReqs : List channelRecentMessageReq) :
    List Effect × Except GoError (List channelRecentMessage) :=
  if env.ClusterOn then
    getRecentMessagesForCluster env uid msgCount channelRecentMessageReqs true
  else getRecentMessages env uid msgCount channelRecentMessageReqs true

def syncUserConversation (env : Env) (c : Context)
    (decode : List Nat → Except GoError syncUserConversationReq) : List Effect :=
  match BindJSON decode c with
  | .error err => [.responseError err]
  | .ok (req, bodyBytes) =>
    let gate := slotLeaderGate env c req.UID bodyBytes
    if gate.2 then gate.1
    else
      let channelLastMsgMap := getChannelLastMsgSeqMap req.LastMsgSeqs
      let t1 := gate.1 ++
        [.storeGetLastConversations req.UID (toUint64 req.Version) env.UserMaxCount]
      match env.GetLastConversations req.UID (toUint64 req.Version) env.UserMaxCount with
      | .error _ => t1 ++ [.responseError (.other "获取conversation失败！")]
      | .ok conversations =>
        let cacheConversations := env.GetUserConversationFromCache req.UID
        let t2 := t1 ++ [.cacheGet req.UID]
        let cacheConversationMap := cacheConversationMapOf cacheConversations
        let conversations := mergeCacheConversations conversations cacheConversations
        let channelRecentMessageReqs :=
          conversations.map (recentMessageReqOf env req.UID channelLastMsgMap cacheConversationMap)
        let resps :=
          conversations.map (conversationRespOf env req.UID channelLastMsgMap cacheConversationMap)
        if req.MsgCount > 0 then
          let fetched := fetchRecent env req.UID req.MsgCount channelRecentMessageReqs
          match fetched.2 with
          | .error _ => t2 ++ fetched.1 ++ [.responseError (.other "获取最近消息失败！")]
          | .ok channelRecentMessages =>
            t2 ++ fetched.1 ++ [.responseConversations (attachRecents resps channelRecentMessages)]
        else t2 ++ [.responseConversations resps]

/-! ## syncRecentMessages -/

/-- The handler binds the body with `c.BindJSON`, which returns the error only. -/
def syncRecentMessages (env : Env) (c : Context)
    (decode : List Nat → Except GoError syncRecentMessagesReq) : List Effect :=
  match decode c.Body with
  | .error _ => [.responseError (.other "数据格式有误！")]
  | .ok req =>
    let msgCount := if req.MsgCount ≤ 0 then 15 else req.MsgCount
    let fetched := getRecentMessages env req.UID msgCount req.Channels true
    match fetched.2 with
    | .error _ => fetched.1 ++ [.responseError (.other "获取最近消息失败！")]
    | .ok channelRecentMessages =>
      fetched.1 ++ [.responseRecentMessages channelRecentMessages]

/-! ## The merge of `syncUserConversation`, as the spec words it -/

/-- The cached conversations that open a channel of their own: those whose
`(channel_id, channel_type)` is that of no persisted row and of no earlier
cached conversation, in cache order.  Every cached conversation is paired
with the cached conversations before it. -/
def newCacheEntries (persisted cacheConversations : List Conversation) : List Conversation :=
  ((cacheConversations.inits.zip cacheConversations).filter
    fun p => !existsIn (persisted ++ p.1) p.2).map Prod.snd

/-- The merged list in the words of the spec: the persisted rows in their
order, followed by the cached conversations of new channels. -/
def mergeReference (persisted cacheConversations : List Conversation) : List Conversation :=
  persisted ++ newCacheEntries persisted cacheConversations

/-- Two conversations of different channels. -/
def distinctChannel (a b : Conversation) : Prop :=
  ¬ (a.ChannelId = b.ChannelId ∧ a.ChannelType = b.ChannelType)

/-- The entry `cacheConversationMap` gets from a cached conversation. -/
def cacheEntryOf (cacheConversation : Conversation) : Option (String × Nat) :=
  if cacheConversation.ReadedToMsgSeq > 0 then
    some (channelKey cacheConversation.ChannelId cacheConversation.ChannelType,
      cacheConversation.ReadedToMsgSeq)
  else none

/-- The `readed_to_msg_seq` the cache holds for a channel: that of the last
cached conversation of the channel with a positive read position, and 0 when
there is none. -/
def cachedReaded (cacheConversations : List Conversation) (channelId : String)
    (channelType : Nat) : Nat :=
  match cacheConversations.reverse.find? fun cacheConversation =>
      cacheConversation.ChannelId == channelId && cacheConversation.ChannelType == channelType &&
        decide (cacheConversation.ReadedToMsgSeq > 0) with
  | some cacheConversation => cacheConversation.ReadedToMsgSeq
  | none => 0

/-! ## `getChannelLastMsgSeqMap`, as the spec words it -/

/-- What a segment of `last_msg_seqs` stands for: nothing unless it splits on
`:` into exactly three fields `cid:ctype:seq`, and then the key `cid-ctype`
with `seq` read as an unsigned 64-bit decimal. -/
def segmentEntry (segment : List Char) : Option (String × Nat) :=
  match stringsSplit segment ':' with
  | [cid, ctype, seq] => some (channelKey (String.mk cid) (Atoi ctype).1, (ParseUint seq).1)
  | _ => none

/-- The sequence `last_msg_seqs` gives for a key: that of the last segment, of
those split on `|`, that stands for the key. -/
def lastMsgSeqReference (lastMsgSeqs key : String) : Option Nat :=
  (((stringsSplit lastMsgSeqs.data '|').filterMap segmentEntry).reverse.find?
    fun e => e.1 == key).map (·.2)

/-- A triple `cid:ctype:seq` of a client. -/
structure Triple where
  cid : String
  ctype : Int
  seq : Nat
  deriving DecidableEq, Repr

/-- A triple is well formed when its channel id holds neither separator, its
channel type is a Go `int` and its sequence a `uint64`. -/
def Triple.wellFormed (t : Triple) : Prop :=
  ':' ∉ t.cid.data ∧ '|' ∉ t.cid.data ∧ -(2 ^ 63) ≤ t.ctype ∧ t.ctype < 2 ^ 63 ∧ t.seq < 2 ^ 64

/-- The key of a triple in the map. -/
def Triple.key (t : Triple) : String := channelKey t.cid t.ctype

/-- The segment `cid:ctype:seq` of a triple. -/
def Triple.render (t : Triple) : List Char :=
  t.cid.data ++ ':' :: ((toString t.ctype).data ++ ':' :: (toString t.seq).data)

/-- The field `last_msg_seqs` of a list of triples: the segments joined by `|`. -/
def renderTriples (ts : List Triple) : String :=
  String.mk (['|'].intercalate (ts.map Triple.render))

/-! ## A sample node

A single node whose store holds one conversation row and whose channels all
have the same last message sequence; the inputs of the examples below. -/

/-- A node out of cluster mode: the store answers every `GetConversation` with
`row`, every `GetLastMsgSeq` with `lastMsgSeq`, and every write succeeds. -/
def sampleEnv (lastMsgSeq : Nat) (row : Conversation) : Env :=
  { ClusterOn := false
    NodeId := 1
    UserMaxCount := 100
    SlotLeaderOfChannel := fun _ _ => .ok { Id := 1, ApiServerAddr := "http://n1" }
    LeaderOfChannelForRead := fun _ _ => .ok { Id := 1, ApiServerAddr := "http://n1" }
    GetFakeChannelIDWith := fun uid channelId => uid ++ "@" ++ channelId
    GetFromUIDAndToUIDWith := fun _ => ("alice", "bob")
    IsEmptyConversation := fun conversation => conversation.Uid == ""
    GetConversation := fun _ _ _ =>
      (row, if row.Uid == "" then some GoError.ErrNotFound else none)
    GetLastMsgSeq := fun _ _ => .ok lastMsgSeq
    AddOrUpdateConversations := fun _ _ => none
    DeleteConversation := fun _ _ _ => none
    GetLastConversations := fun _ _ _ => .ok (if row.Uid == "" then [] else [row])
    GetUserConversationFromCache := fun _ => []
    LoadLastMsgsWithEnd := fun _ _ _ _ => .ok []
    LoadNextRangeMsgs := fun _ _ _ _ _ => .ok []
    sortReverse := fun msgs => msgs.insertionSort fun a b => b.MessageSeq ≤ a.MessageSeq
    requestSyncMessage := fun _ _ _ _ => .ok []
    schedule := [] }

/-- The zero value of `wkdb.Conversation`, which the store returns with
`ErrNotFound`. -/
def emptyConversation : Conversation :=
  { Uid := "", ChannelId := "", ChannelType := 0, UnreadCount := 0, ReadedToMsgSeq := 0 }

/-- A request to `/conversations/setUnread` of alice for her channel with bob. -/
def sampleSetUnread (unread : Int) : List Nat → Except GoError setConversationUnreadReq :=
  fun _ => .ok { UID := "alice", ChannelID := "bob", ChannelType := 1, Unread := unread,
                 MessageSeq := 0 }

/-- A request to `/conversations/clearUnread` of alice for her channel with bob. -/
def sampleClearUnread : List Nat → Except GoError clearConversationUnreadReq :=
  fun _ => .ok { UID := "alice", ChannelID := "bob", ChannelType := 1 }

/-- The row of alice for her channel with bob. -/
def aliceRow (unread readed : Nat) : Conversation :=
  { Uid := "alice", ChannelId := "alice@bob", ChannelType := 1, UnreadCount := unread,
    ReadedToMsgSeq := readed }

/-- A node out of cluster mode whose store lists the rows `persisted` for every
user and whose cache holds `cacheConversations`. -/
def sampleSyncEnv (persisted cacheConversations : List Conversation) : Env :=
  { sampleEnv 0 emptyConversation with
    GetLastConversations := fun _ _ _ => .ok persisted
    GetUserConversationFromCache := fun _ => cacheConversations }

/-- A request to `/conversation/sync` of alice. -/
def sampleSync (lastMsgSeqs : String) (msgCount : Int) :
    List Nat → Except GoError syncUserConversationReq :=
  fun _ => .ok { UID := "alice", Version := 100, LastMsgSeqs := lastMsgSeqs, MsgCount := msgCount }

/-- A row of alice for the group `g1`. -/
def groupRow (readed : Nat) : Conversation :=
  { Uid := "alice", ChannelId := "g1", ChannelType := 2, UnreadCount := 0,
    ReadedToMsgSeq := readed }

/-- Node 2 of a cluster in which node 1 is the slot leader of every user and
the leader of every channel; its store holds no message. -/
def peerEnv : Env :=
  { sampleEnv 0 emptyConversation with
    ClusterOn := true
    NodeId := 2
    SlotLeaderOfChannel := fun _ _ => .ok { Id := 1, ApiServerAddr := "http://n1:5001" }
    LeaderOfChannelForRead := fun _ _ => .ok { Id := 1, ApiServerAddr := "http://n1:5001" } }

/-- A request to `/conversations/delete` of alice for her channel with bob. -/
def sampleDelete : List Nat → Except GoError deleteChannelReq :=
  fun _ => .ok { UID := "alice", ChannelID := "bob", ChannelType := 1 }

/-- A request to `/conversation/syncMessages` for alice's channel with bob. -/
def sampleSyncMessages : List Nat → Except GoError syncRecentMessagesReq :=
  fun _ => .ok { UID := "alice",
                 Channels := [{ ChannelId := "bob", ChannelType := 1, LastMsgSeq := 0 }],
                 MsgCount := 0 }

/-! ## Reading a trace -/

/-- The handler answered with `ResponseOK`. -/
def succeeded (trace : List Effect) : Prop := Effect.responseOK ∈ trace

instance (trace : List Effect) : Decidable (succeeded trace) := by
  unfold succeeded; infer_instance

/-- The rows handed to `AddOrUpdateConversations`, in program order. -/
def storedRows : List Effect → List Conversation
  | [] => []
  | .storeAddOrUpdateConversations _ conversations :: rest => conversations ++ storedRows rest
  | _ :: rest => storedRows rest

/-- The effects that answer the request: a response or a forward. -/
def Effect.isAnswer : Effect → Bool
  | .forwardWithBody _ _ => true
  | .responseError _ => true
  | .responseOK => true
  | .responseConversations _ => true
  | .responseRecentMessages _ => true
  | _ => false

/-- The effects that read or write the local store. -/
def Effect.isStoreAccess : Effect → Bool
  | .storeGetConversation _ _ _ => true
  | .storeGetLastMsgSeq _ _ => true
  | .storeAddOrUpdateConversations _ _ => true
  | .storeDeleteConversation _ _ _ => true
  | .storeGetLastConversations _ _ _ => true
  | .storeLoadLastMsgsWithEnd _ _ _ _ => true
  | .storeLoadNextRangeMsgs _ _ _ _ _ => true
  | _ => false

/-- A message with a sequence. -/
def sampleMsg (seq : Nat) : MessageResp :=
  { MessageSeq := seq, ClientMsgNo := "", Timestamp := 0 }

/-- A node out of cluster mode as `sampleSyncEnv`, every channel of which holds
the messages `msgs`. -/
def sampleRecentEnv (persisted cacheConversations : List Conversation)
    (msgs : List MessageResp) : Env :=
  { sampleSyncEnv persisted cacheConversations with
    LoadLastMsgsWithEnd := fun _ _ _ _ => .ok msgs }

/-- The response `syncUserConversation` sends, if it sends one. -/
def conversationsSent : List Effect → Option (List syncUserConversationResp)
  | [] => none
  | .responseConversations resps :: _ => some resps
  | _ :: rest => conversationsSent rest

/-- The response of alice's conversation with bob. -/
def bobResp (unread : Int) (lastMsgSeq readed : Nat) (recents : List MessageResp) :
    syncUserConversationResp :=
  { ChannelID := "bob"
    ChannelType := 1
    Unread := unread
    Timestamp := 0
    LastMsgSeq := lastMsgSeq
    LastClientMsgNo := ""
    ReadedToMsgSeq := readed
    Recents := recents }

/-- The merged conversations of a sync request, given the persisted rows. -/
def syncMerged (env : Env) (req : syncUserConversationReq) (persisted : List Conversation) :
    List Conversation :=
  mergeCacheConversations persisted (env.GetUserConversationFromCache req.UID)

/-- The recent-message requests of a sync request, `channelRecentMessageReqs`. -/
def syncReqs (env : Env) (req : syncUserConversationReq) (persisted : List Conversation) :
    List channelRecentMessageReq :=
  (syncMerged env req persisted).map
    (recentMessageReqOf env req.UID (getChannelLastMsgSeqMap req.LastMsgSeqs)
      (cacheConversationMapOf (env.GetUserConversationFromCache req.UID)))

/-- The response of a merged conversation before the recent messages are
attached, line 399. -/
def syncBuilt (env : Env) (req : syncUserConversationReq) (conversation : Conversation) :
    syncUserConversationResp :=
  conversationRespOf env req.UID (getChannelLastMsgSeqMap req.LastMsgSeqs)
    (cacheConversationMapOf (env.GetUserConversationFromCache req.UID)) conversation

/-- The response matches the recent messages, line 426. -/
def matchesRecent (resp : syncUserConversationResp) (crm : channelRecentMessage) : Prop :=
  resp.ChannelID = crm.ChannelId ∧ resp.ChannelType = crm.ChannelType

/-! ## The groups of `getRecentMessagesForCluster` -/

/-- The node id of the leader of the channel of a request, as
`LeaderOfChannelForRead` gives it for the fake channel id; `none` when the
lookup fails. -/
def leaderIdOf (env : Env) (uid : String) (r : channelRecentMessageReq) : Option Nat :=
  match env.LeaderOfChannelForRead (fakeChannelIdOf env uid r.ChannelId r.ChannelType)
      r.ChannelType with
  | .ok leaderInfo => some leaderInfo.Id
  | .error _ => none

/-- The lookup `m[id]` in the requests of the peers; a missing key gives the
empty list. -/
def PeerReqs.get (peers : PeerReqs) (id : Nat) : List channelRecentMessageReq :=
  (peers.lookup id).getD []

/-- The results of the peers whose request succeeds, in the order of the list. -/
def peerResultsOf (env : Env) (uid : String) (msgCount : Int) (peers : PeerReqs) :
    List channelRecentMessage :=
  peers.flatMap fun p =>
    match env.requestSyncMessage p.1 p.2 uid msgCount with
    | .ok results => results
    | .error _ => []

/-- Every request to a peer succeeds. -/
def allPeersOk (env : Env) (uid : String) (msgCount : Int) (peers : PeerReqs) : Prop :=
  ∀ p ∈ peers, ∃ results, env.requestSyncMessage p.1 p.2 uid msgCount = .ok results

/-- Node 2 of a cluster of three: node 1 leads the channels of bob, node 3 the
group `g3`, and node 2 itself every other channel; peer 3 does not answer
when `peer3Fails` is set. -/
def fanoutEnv (peer3Fails : Bool) : Env :=
  { peerEnv with
    GetFakeChannelIDWith := fun _ channelId => channelId
    LeaderOfChannelForRead := fun channelId _ =>
      if channelId == "bob" then .ok { Id := 1, ApiServerAddr := "http://n1:5001" }
      else if channelId == "g3" then .ok { Id := 3, ApiServerAddr := "http://n3:5001" }
      else if channelId == "lost" then .error (.other "no leader")
      else .ok { Id := 2, ApiServerAddr := "http://n2:5001" }
    requestSyncMessage := fun nodeId reqs _ _ =>
      if nodeId == 3 && peer3Fails then .error (.other "peer down")
      else .ok (reqs.map fun r =>
        { ChannelId := r.ChannelId, ChannelType := r.ChannelType, Messages := [] }) }

/-- The node of `fanoutEnv` with both peers answering, on a run in which the
first goroutine makes its request and reads `channelRecentMessages`, the
second makes its request, reads and writes, and the first writes last. -/
def racyEnv : Env :=
  { fanoutEnv false with schedule := [0, 0, 1, 1, 1, 0] }

/-- A recent-message request for a channel, from the start of the channel. -/
def sampleReq (channelId : String) (channelType : Nat) : channelRecentMessageReq :=
  { ChannelId := channelId, ChannelType := channelType, LastMsgSeq := 0 }

/-- One round of the first loop of `getRecentMessagesForCluster` on the two
groups, for a request whose leader is known. -/
def groupStep (env : Env) (uid : String)
    (groups : List channelRecentMessageReq × PeerReqs) (r : channelRecentMessageReq) :
    List channelRecentMessageReq × PeerReqs :=
  match leaderIdOf env uid r with
  | some id =>
    if id == env.NodeId then (groups.1 ++ [r], groups.2) else (groups.1, groups.2.add id r)
  | none => groups

/-- The leader of the request's channel is this node. -/
def ledBySelf (env : Env) (uid : String) (r : channelRecentMessageReq) : Bool :=
  leaderIdOf env uid r == some env.NodeId

/-- The leader of the request's channel is the node `id`, another node. -/
def ledByPeer (env : Env) (uid : String) (id : Nat) (r : channelRecentMessageReq) : Bool :=
  leaderIdOf env uid r == some id && id != env.NodeId

/-- The value of `reqErr` after the requests to the peers: the error of the
last request that fails, else the value before. -/
def peerError (env : Env) (uid : String) (msgCount : Int) :
    PeerReqs → Option GoError → Option GoError
  | [], reqErr => reqErr
  | p :: rest, reqErr =>
    match env.requestSyncMessage p.1 p.2 uid msgCount with
    | .error err => peerError env uid msgCount rest (some err)
    | .ok _ => peerError env uid msgCount rest reqErr

/-! ## The cluster's event handler

Embedding of `pkg/cluster/cluster/event_handler.go`.  The handler drives an
object behind the interface `replicaAction` (a slot or a channel of the
cluster); its state is the type `ρ` and its methods are the fields of
`ReplicaAction`.  The queues are lists, first element first.  A method of the
handler returns, with its result, the calls it made, in program order. -/

/-- The values of `replica.MsgType` named in the sources. -/
inductive MsgType where
  | MsgUnknown
  | MsgPropose
  | MsgSync
  | MsgSyncResp
  | MsgSyncGet
  | MsgSyncGetResp
  | MsgStoreAppend
  | MsgStoreAppendResp
  | MsgApplyLogsReq
  | MsgApplyLogsResp
  | MsgPing
  | MsgPong
  deriving DecidableEq, Repr

/-- The fields of `replica.Log`: `MessageId` and `Index` are `uint64`, `Term`
is a `uint32`. -/
structure Log where
  MessageId : Nat
  Index : Nat
  Term : Nat
  Data : List Nat
  deriving DecidableEq, Repr

/-- The fields of `replica.Message` the sources read. -/
structure Message where
  MsgType : MsgType
  From : Nat
  To : Nat
  Term : Nat
  Index : Nat
  ApplyingIndex : Nat
  CommittedIndex : Nat
  AppliedIndex : Nat
  Logs : List Log
  deriving DecidableEq, Repr

/-- The constant `replica.EmptyMessage`. -/
def EmptyMessage : Message :=
  { MsgType := .MsgUnknown, From := 0, To := 0, Term := 0, Index := 0, ApplyingIndex := 0,
    CommittedIndex := 0, AppliedIndex := 0, Logs := [] }

/-- A request of the propose queue (`proposeReq`). -/
structure proposeReq where
  key : String
  logs : List Log
  deriving DecidableEq, Repr

/-- What a task runs when it is executed. -/
inductive taskExec where
  | none
  | applyLogs (msg : Message) (committedIndex : Nat)
  deriving DecidableEq, Repr

/-- A task of a task queue, as the handler sees it: `isTaskFinished()`, `err()`
(`hasErr()` is `err() != nil`) and `resp()`. -/
structure task where
  finished : Bool
  err : Option GoError
  resp : Message
  exec : taskExec
  deriving DecidableEq, Repr

/-- The methods of the interface `replicaAction` the handler calls, on a state
`ρ`.  `stepPropose logs` is `step(newProposeMessageWithLogs(logs))`. -/
structure ReplicaAction (ρ : Type) where
  lastLogIndexNoLock : ρ → Nat
  termNoLock : ρ → Nat
  isLeader : ρ → Bool
  stepPropose : ρ → List Log → Except GoError ρ
  step : ρ → Message → Except GoError ρ
  setLastIndex : ρ → Nat → Except GoError ρ
  setAppliedIndex : ρ → Nat → Except GoError ρ
  newMsgApplyLogsRespMessage : ρ → Nat → Message

/-- The calls a method of the handler makes. -/
inductive HandlerCall where
  | didPropose (key : String) (messageId index : Nat)
  | didCommit (startIndex endIndex : Nat)
  | stepPropose (logs : List Log)
  | step (msg : Message)
  | setLastIndex (index : Nat)
  | setAppliedIndex (index : Nat)
  deriving DecidableEq, Repr

/-- The fields of `eventHandler` the methods below use; `MaxProposeLogCount` is
the option `opts.MaxProposeLogCount`, a Go `int`. -/
structure eventHandler (ρ : Type) where
  replicaAction : ρ
  proposeQueue : List proposeReq
  appendLogStoreQueue : List task
  applyLogStoreQueue : List task
  MaxProposeLogCount : Int

/-- A Go call either returns or panics; `e.Panic` logs and panics. -/
inductive Outcome (α : Type) where
  | returned (value : α)
  | panicked (msg : String) (value : α)

/-- The result `(bool, error)` of a method of the handler, the handler after
the call and the calls made. -/
structure HandlerResult (ρ : Type) where
  hasEvent : Bool
  err : Option GoError
  handler : eventHandler ρ
  calls : List HandlerCall

/-- One round of the loop of `handleProposes`, for the record: the object
before the round, the request popped and the logs stepped. -/
structure ProposeRound (ρ : Type) where
  before : ρ
  req : proposeReq
  logs : List Log

/-- Lines 265-270: the log at position `i` gets the index
`lastLogIndexNoLock() + 1 + uint64(i)` and the term `termNoLock()`. -/
def assignLogs (lastLogIndex term : Nat) (logs : List Log) : List Log :=
  logs.enum.map fun p => { p.2 with Index := (lastLogIndex + 1 + p.1) % 2 ^ 64, Term := term }

/-- The loop of `handleProposes` over the requests still in the queue;
`proposeLogCount` and `hasEvent` are the variables of the source, `calls` and
`rounds` the calls and rounds so far. -/
def handleProposesLoop {ρ : Type} (ra : ReplicaAction ρ) :
    List proposeReq → eventHandler ρ → Int → Bool → List HandlerCall → List (ProposeRound ρ) →
    HandlerResult ρ × List (ProposeRound ρ)
  | [], e, _, hasEvent, calls, rounds =>
    ({ hasEvent := hasEvent, err := none, handler := { e with proposeQueue := [] },
       calls := calls }, rounds)
  | req :: rest, e, proposeLogCount, hasEvent, calls, rounds =>
    if req.logs.length = 0 then
      handleProposesLoop ra rest e proposeLogCount hasEvent calls rounds
    else
      let proposeLogCount := proposeLogCount + req.logs.length
      let logs := assignLogs (ra.lastLogIndexNoLock e.replicaAction)
        (ra.termNoLock e.replicaAction) req.logs
      let calls := calls ++
        logs.map (fun lg => HandlerCall.didPropose req.key lg.MessageId lg.Index) ++
        [.stepPropose logs]
      let rounds := rounds ++ [{ before := e.replicaAction, req := req, logs := logs }]
      match ra.stepPropose e.replicaAction logs with
      | .error err =>
        ({ hasEvent := false, err := some err, handler := { e with proposeQueue := rest },
           calls := calls }, rounds)
      | .ok r =>
        if e.MaxProposeLogCount > 0 ∧ proposeLogCount > e.MaxProposeLogCount then
          ({ hasEvent := true, err := none,
             handler := { e with replicaAction := r, proposeQueue := rest },
             calls := calls }, rounds)
        else
          handleProposesLoop ra rest { e with replicaAction := r } proposeLogCount true calls
            rounds

def handleProposes {ρ : Type} (ra : ReplicaAction ρ) (e : eventHandler ρ) :
    HandlerResult ρ × List (ProposeRound ρ) :=
  handleProposesLoop ra e.proposeQueue e 0 false [] []

/-- The loop of `handleAppendLogTask` over the tasks still in the queue. -/
def handleAppendLogTaskLoop {ρ : Type} (ra : ReplicaAction ρ) :
    List task → eventHandler ρ → Bool → List HandlerCall → Outcome (HandlerResult ρ)
  | [], e, hasEvent, calls =>
    .returned { hasEvent := hasEvent, err := none,
                handler := { e with appendLogStoreQueue := [] }, calls := calls }
  | firstTask :: rest, e, hasEvent, calls =>
    if !firstTask.finished then
      .returned { hasEvent := hasEvent, err := none,
                  handler := { e with appendLogStoreQueue := firstTask :: rest },
                  calls := calls }
    else
      match firstTask.err with
      | some err =>
        .panicked "append log store message failed"
          { hasEvent := false, err := some err,
            handler := { e with appendLogStoreQueue := firstTask :: rest }, calls := calls }
      | none =>
        match ra.step e.replicaAction firstTask.resp with
        | .error err =>
          .panicked "step local store message failed"
            { hasEvent := false, err := some err,
              handler := { e with appendLogStoreQueue := firstTask :: rest },
              calls := calls ++ [.step firstTask.resp] }
        | .ok r1 =>
          match ra.setLastIndex r1 firstTask.resp.Index with
          | .error err =>
            .panicked "set last index failed"
              { hasEvent := false, err := some err,
                handler := { e with replicaAction := r1,
                                    appendLogStoreQueue := firstTask :: rest },
                calls := calls ++ [.step firstTask.resp, .setLastIndex firstTask.resp.Index] }
          | .ok r2 =>
            handleAppendLogTaskLoop ra rest { e with replicaAction := r2 } true
              (calls ++ [.step firstTask.resp, .setLastIndex firstTask.resp.Index])

def handleAppendLogTask {ρ : Type} (ra : ReplicaAction ρ) (e : eventHandler ρ) :
    Outcome (HandlerResult ρ) :=
  handleAppendLogTaskLoop ra e.appendLogStoreQueue e false []

/-- The loop of `handleApplyLogTask` over the tasks still in the queue. -/
def handleApplyLogTaskLoop {ρ : Type} (ra : ReplicaAction ρ) :
    List task → eventHandler ρ → Bool → List HandlerCall → Outcome (HandlerResult ρ)
  | [], e, hasEvent, calls =>
    .returned { hasEvent := hasEvent, err := none,
                handler := { e with applyLogStoreQueue := [] }, calls := calls }
  | firstTask :: rest, e, hasEvent, calls =>
    if !firstTask.finished then
      .returned { hasEvent := hasEvent, err := none,
                  handler := { e with applyLogStoreQueue := firstTask :: rest },
                  calls := calls }
    else
      match firstTask.err with
      | some err =>
        .panicked "apply log store message failed"
          { hasEvent := false, err := some err,
            handler := { e with applyLogStoreQueue := firstTask :: rest }, calls := calls }
      | none =>
        match ra.step e.replicaAction firstTask.resp with
        | .error err =>
          .panicked "step apply store message failed"
            { hasEvent := false, err := some err,
              handler := { e with applyLogStoreQueue := firstTask :: rest },
              calls := calls ++ [.step firstTask.resp] }
        | .ok r1 =>
          match ra.setAppliedIndex r1 firstTask.resp.AppliedIndex with
          | .error err =>
            .panicked "set applied index failed"
              { hasEvent := false, err := some err,
                handler := { e with replicaAction := r1,
                                    applyLogStoreQueue := firstTask :: rest },
                calls := calls ++
                  [.step firstTask.resp, .setAppliedIndex firstTask.resp.AppliedIndex] }
          | .ok r2 =>
            handleApplyLogTaskLoop ra rest { e with replicaAction := r2 } true
              (calls ++ [.step firstTask.resp, .setAppliedIndex firstTask.resp.AppliedIndex])

def handleApplyLogTask {ρ : Type} (ra : ReplicaAction ρ) (e : eventHandler ρ) :
    Outcome (HandlerResult ρ) :=
  handleApplyLogTaskLoop ra e.applyLogStoreQueue e false []

/-- The task `newApplyLogsTask(committedIndex)` with the function of lines
547-557 set as what it runs: not finished, no error and no response yet. -/
def newApplyLogsTask (committedIndex : Nat) (msg : Message) : task :=
  { finished := false, err := none, resp := EmptyMessage,
    exec := .applyLogs msg committedIndex }

/-- Lines 527-561.  The result is the handler after the call and the calls
made; `e.Debug` only logs. -/
def handleApplyLogsReq {ρ : Type} (ra : ReplicaAction ρ) (e : eventHandler ρ) (msg : Message) :
    Outcome (eventHandler ρ × List HandlerCall) :=
  let applyingIndex := msg.ApplyingIndex
  let committedIndex := msg.CommittedIndex
  if applyingIndex > committedIndex then .returned (e, [])
  else if msg.CommittedIndex = 0 then .panicked "committedIndex is 0" (e, [])
  else
    let calls :=
      if ra.isLeader e.replicaAction then
        [HandlerCall.didCommit ((msg.ApplyingIndex + 1) % 2 ^ 64)
          ((msg.CommittedIndex + 1) % 2 ^ 64)]
      else []
    .returned
      ({ e with applyLogStoreQueue :=
          e.applyLogStoreQueue ++ [newApplyLogsTask committedIndex msg] }, calls)

/-- Lines 248-277 of `slot.go`, `slot.applyLogs`.  `OnSlotApply` is the option
of that name, if set, and `getLogs` the method of the slot; the result is the
error returned. -/
def slot.applyLogs (OnSlotApply : Option (List Log → Option GoError))
    (getLogs : Nat → Nat → Nat → Except GoError (List Log)) (msg : Message) :
    Outcome (Option GoError) :=
  if msg.ApplyingIndex > msg.CommittedIndex then
    .returned (some (.other ("applyingIndex > committedIndex, applyingIndex: " ++
      toString msg.ApplyingIndex ++ ", committedIndex: " ++ toString msg.CommittedIndex)))
  else
    match OnSlotApply with
    | none => .returned none
    | some onSlotApply =>
      match getLogs ((msg.ApplyingIndex + 1) % 2 ^ 64) ((msg.CommittedIndex + 1) % 2 ^ 64) 0 with
      | .error err => .panicked "get logs error" (some err)
      | .ok logs =>
        if logs.length = 0 then .panicked "logs is empty" none
        else
          match onSlotApply logs with
          | some err => .panicked "on slot apply error" (some err)
          | none => .returned none

/-- Lines 251-273 of `channel.go` of the cluster, `channel.applyLogs`: the error
returned and the calls made (the spans only trace). -/
def clusterChannel.applyLogs (msg : Message) : Option GoError × List HandlerCall :=
  if msg.ApplyingIndex > msg.CommittedIndex then
    (some (.other ("ApplyingIndex > CommittedIndex, applyingIndex: " ++
      toString msg.ApplyingIndex ++ ", committedIndex: " ++ toString msg.CommittedIndex)), [])
  else
    (none, [.didCommit ((msg.ApplyingIndex + 1) % 2 ^ 64) ((msg.CommittedIndex + 1) % 2 ^ 64)])

/-- Lines 547-557: what the apply task runs, given the outcome of
`replicaAction.applyLogs(msg)`; the result is the task afterwards. -/
def execApplyLogsTask {ρ : Type} (ra : ReplicaAction ρ) (r : ρ) (tk : task)
    (committedIndex : Nat) (applied : Outcome (Option GoError)) : Outcome task :=
  match applied with
  | .panicked m _ => .panicked m tk
  | .returned (some _) => .panicked "apply logs error" tk
  | .returned none =>
    .returned { tk with resp := ra.newMsgApplyLogsRespMessage r committedIndex, finished := true }

/-! ## The slot of the cluster: sending a message

Embedding of `slot.sendMessage` of `pkg/cluster/cluster/slot.go`.  Times are
integers (nanoseconds); `now` is what `time.Now()` returns during the call. -/

/-- The values of `syncStatus`. -/
inductive syncStatus where
  | syncStatusNone
  | syncStatusSyncing
  | syncStatusSynced
  deriving DecidableEq, Repr

/-- The field `sync` of a slot. -/
structure slotSync where
  syncingLogIndex : Nat
  syncStatus : syncStatus
  startSyncTime : Int
  syncTimeout : Int
  resp : Message
  deriving DecidableEq, Repr

/-- The fields of `slot` used by the methods below; `lastIndex` is what
`s.lastIndex.Load()` returns. -/
structure slot where
  slotId : Nat
  lastIndex : Nat
  sync : slotSync
  deriving DecidableEq, Repr

/-- Lines 181-219.  `newMessageOk` tells whether `NewMessage` succeeds; the
second component is the message handed to `Transport.Send`, if any (an error
of `Send` is only logged). -/
def slot.sendMessage (newMessageOk : Bool) (now : Int) (s : slot) (msg : Message) :
    slot × Option Message :=
  if !newMessageOk then (s, none)
  else if msg.MsgType = .MsgSync then
    match s.sync.syncStatus with
    | .syncStatusNone =>
      ({ s with sync := { s.sync with startSyncTime := now, syncingLogIndex := msg.Index,
                                      syncStatus := .syncStatusSyncing } }, some msg)
    | .syncStatusSyncing =>
      if msg.Index > s.sync.syncingLogIndex ∨ now - s.sync.startSyncTime > s.sync.syncTimeout then
        ({ s with sync := { s.sync with syncingLogIndex := msg.Index, startSyncTime := now } },
          some msg)
      else (s, none)
    | .syncStatusSynced => (s, none)
  else (s, some msg)

/-! ## The channel of the server: roles

Embedding of `becomeLeader`, `becomeProxy` and `resetIndex` of
`internal/server/channel.go`. -/

/-- The values of `channelStatus`. -/
inductive channelStatus where
  | channelStatusUninitialized
  | channelStatusInitializing
  | channelStatusInitialized
  deriving DecidableEq, Repr

/-- The values of `channelRole`. -/
inductive channelRole where
  | channelRoleUnknown
  | channelRoleLeader
  | channelRoleProxy
  deriving DecidableEq, Repr

/-- The cursors of `channelMsgQueue`, all `uint64`. -/
structure channelMsgQueue where
  lastIndex : Nat
  payloadDecryptingIndex : Nat
  permissionCheckingIndex : Nat
  storagingIndex : Nat
  sendackingIndex : Nat
  deliveringIndex : Nat
  forwardingIndex : Nat
  deriving DecidableEq, Repr

/-- The action types that `channel.go` names. -/
inductive ChannelActionType where
  | ChannelActionInit
  | ChannelActionSend
  | ChannelActionPayloadDecrypt
  | ChannelActionPermissionCheck
  | ChannelActionStorage
  | ChannelActionSendack
  | ChannelActionDeliver
  | ChannelActionForward
  deriving DecidableEq, Repr

/-- The fields of `ReactorChannelMessage` that identify a message. -/
structure ReactorChannelMessage where
  FromUid : String
  MessageId : Int
  deriving DecidableEq, Repr

/-- The fields of `ChannelAction` that `channel.go` sets. -/
structure ChannelAction where
  ActionType : ChannelActionType
  LeaderId : Nat
  Messages : List ReactorChannelMessage
  deriving DecidableEq, Repr

/-- The fields of `channel` that hold its state; `stepFnc` follows `role`. -/
structure channel where
  key : String
  channelId : String
  channelType : Nat
  msgQueue : channelMsgQueue
  actions : List ChannelAction
  stroageMaxSize : Nat
  deliverMaxSize : Nat
  forwardMaxSize : Nat
  status : channelStatus
  role : channelRole
  leaderId : Nat
  payloadDecrypting : Bool
  permissionChecking : Bool
  storaging : Bool
  sendacking : Bool
  delivering : Bool
  forwarding : Bool
  deriving DecidableEq, Repr

def channel.resetIndex (c : channel) : channel :=
  { c with
    msgQueue := { c.msgQueue with
      forwardingIndex := 0
      deliveringIndex := 0
      storagingIndex := 0
      permissionCheckingIndex := 0 }
    permissionChecking := false
    storaging := false
    delivering := false
    forwarding := false }

def channel.becomeLeader (c : channel) : channel :=
  { c.resetIndex with leaderId := 0, role := .channelRoleLeader }

def channel.becomeProxy (c : channel) (leaderId : Nat) : channel :=
  { c.resetIndex with role := .channelRoleProxy, leaderId := leaderId }

/-- The relations between the cursors of the pipeline. -/
def cursorsOrdered (q : channelMsgQueue) : Prop :=
  q.forwardingIndex ≤ q.payloadDecryptingIndex ∧
  q.permissionCheckingIndex ≤ q.payloadDecryptingIndex ∧
  q.storagingIndex ≤ q.permissionCheckingIndex ∧
  q.sendackingIndex ≤ q.storagingIndex ∧
  q.deliveringIndex ≤ q.storagingIndex

instance (q : channelMsgQueue) : Decidable (cursorsOrdered q) := by
  unfold cursorsOrdered; infer_instance

/-! ## Sample objects of the cluster and of the server -/

/-- A replica whose state is its last log index: a proposal adds its logs, the
term is 1 and no call fails. -/
def sampleReplica : ReplicaAction Nat :=
  { lastLogIndexNoLock := fun r => r
    termNoLock := fun _ => 1
    isLeader := fun _ => true
    stepPropose := fun r logs => .ok (r + logs.length)
    step := fun r _ => .ok r
    setLastIndex := fun r _ => .ok r
    setAppliedIndex := fun r _ => .ok r
    newMsgApplyLogsRespMessage := fun _ index =>
      { EmptyMessage with MsgType := .MsgApplyLogsResp, Index := index } }

/-- A log to propose, with a message id; index and term are not yet set. -/
def sampleLog (messageId : Nat) : Log :=
  { MessageId := messageId, Index := 0, Term := 0, Data := [] }

/-- A request of `n` logs with the message ids `first, first + 1, ...`. -/
def sampleProposeReq (key : String) (first n : Nat) : proposeReq :=
  { key := key, logs := (List.range n).map fun i => sampleLog (first + i) }

/-- A handler on `sampleReplica` at last log index `lastLogIndex`. -/
def sampleHandler (lastLogIndex : Nat) (proposeQueue : List proposeReq)
    (appendQueue applyQueue : List task) (maxProposeLogCount : Int) : eventHandler Nat :=
  { replicaAction := lastLogIndex
    proposeQueue := proposeQueue
    appendLogStoreQueue := appendQueue
    applyLogStoreQueue := applyQueue
    MaxProposeLogCount := maxProposeLogCount }

/-- A finished task with the response of index `index`, and with `err`. -/
def doneTask (index : Nat) (err : Option GoError) : task :=
  { finished := true, err := err,
    resp := { EmptyMessage with MsgType := .MsgStoreAppendResp, Index := index,
                                AppliedIndex := index },
    exec := .none }

/-- A task that has not finished. -/
def pendingTask : task :=
  { finished := false, err := none, resp := EmptyMessage, exec := .none }

/-- The responses stepped, of the calls made. -/
def steppedOf : List HandlerCall → List Message
  | [] => []
  | .step msg :: rest => msg :: steppedOf rest
  | _ :: rest => steppedOf rest

/-- A `Sync` message for the log index `index`. -/
def syncMsg (index : Nat) : Message :=
  { EmptyMessage with MsgType := .MsgSync, To := 1, Index := index }

/-- A slot whose sync for index 5 was sent at time 0, with the time-out of
five seconds. -/
def syncingSlot : slot :=
  { slotId := 7
    lastIndex := 0
    sync := { syncingLogIndex := 5, syncStatus := .syncStatusSyncing, startSyncTime := 0,
              syncTimeout := 5000000000, resp := EmptyMessage } }

/-- A leader channel that has decrypted, checked and stored five messages,
acknowledged three and delivered two. -/
def sampleChannel : channel :=
  { key := "2:g1"
    channelId := "g1"
    channelType := 2
    msgQueue := { lastIndex := 5, payloadDecryptingIndex := 5, permissionCheckingIndex := 5,
                  storagingIndex := 5, sendackingIndex := 3, deliveringIndex := 2,
                  forwardingIndex := 0 }
    actions := []
    stroageMaxSize := 2097152
    deliverMaxSize := 2097152
    forwardMaxSize := 2097152
    status := .channelStatusInitialized
    role := .channelRoleLeader
    leaderId := 0
    payloadDecrypting := false
    permissionChecking := false
    storaging := false
    sendacking := false
    delivering := false
    forwarding := false }

/-- The log lists stepped as proposals, of the calls made. -/
def proposedOf : List HandlerCall → List (List Log)
  | [] => []
  | .stepPropose logs :: rest => logs :: proposedOf rest
  | _ :: rest => proposedOf rest

/-- An `ApplyLogsReq` asking to apply above what is committed. -/
def applyAboveCommitted : Message :=
  { EmptyMessage with MsgType := .MsgApplyLogsReq, ApplyingIndex := 5, CommittedIndex := 3 }

/-- The calls of one round of `handleProposes`: `didPropose` for each log, in
order, then the step of the proposal. -/
def roundCalls {ρ : Type} (rd : ProposeRound ρ) : List HandlerCall :=
  rd.logs.map (fun lg => HandlerCall.didPropose rd.req.key lg.MessageId lg.Index) ++
    [.stepPropose rd.logs]

/-- The rounds follow one another from the object `r`: the first starts at `r`
and each further one at the object the step of the round before produced. -/
def roundsFrom {ρ : Type} (ra : ReplicaAction ρ) : ρ → List (ProposeRound ρ) → Prop
  | _, [] => True
  | r, rd :: rest =>
    rd.before = r ∧
      (rest = [] ∨ ∃ r1, ra.stepPropose r rd.logs = .ok r1 ∧ roundsFrom ra r1 rest)

/-- A handler at last log index 10 with the batches "a" (two logs), "b" (none)
and "c" (one log) in its propose queue and no budget. -/
def proposeHandler : eventHandler Nat :=
  sampleHandler 10
    [sampleProposeReq "a" 100 2, sampleProposeReq "b" 0 0, sampleProposeReq "c" 200 1] [] [] 0

/-- A handler with `MaxProposeLogCount = 10` and batches of 6, 6 and 1 logs in
its propose queue. -/
def budgetHandler : eventHandler Nat :=
  sampleHandler 0
    [sampleProposeReq "a" 100 6, sampleProposeReq "b" 200 6, sampleProposeReq "c" 300 1] [] [] 10

/-- The value an outcome carries. -/
def Outcome.value {α : Type} : Outcome α → α
  | .returned v => v
  | .panicked _ v => v

/-- Whether the call panicked. -/
def Outcome.isPanicked {α : Type} : Outcome α → Bool
  | .returned _ => false
  | .panicked _ _ => true

/-- Three finished tasks, the second with an error. -/
def failedQueue : List task :=
  [doneTask 1 none, doneTask 2 (some (.other "disk full")), doneTask 3 none]

/-- Two finished tasks, a task that has not finished and a finished one. -/
def waitingQueue : List task :=
  [doneTask 1 none, doneTask 2 none, pendingTask, doneTask 3 none]

/-! ## The slot of the cluster: the sync hand-off and the shard number

Embedding of `newSlot`, `getAndResetMsgSyncResp`, `setMsgSyncResp`,
`GetSlotShardNo` and `GetSlotId` of `pkg/cluster/cluster/slot.go`. -/

/-- Go `time.Second`, in nanoseconds. -/
def timeSecond : Int := 1000000000

/-- Lines 54-78, for the fields of the model: the slot `newSlot` builds for the
slot id `st.Id`.  The fields of `sync` other than `syncTimeout` are not set and
have the zero value of Go. -/
def newSlot (slotId : Nat) : slot :=
  { slotId := slotId
    lastIndex := 0
    sync := { syncingLogIndex := 0, syncStatus := .syncStatusNone, startSyncTime := 0,
              syncTimeout := 5 * timeSecond, resp := EmptyMessage } }

/-- Lines 150-160: the slot afterwards, the message and the boolean returned. -/
def slot.getAndResetMsgSyncResp (s : slot) : slot × Message × Bool :=
  match s.sync.syncStatus with
  | .syncStatusSynced =>
    ({ s with sync := { s.sync with syncStatus := .syncStatusNone } }, s.sync.resp, true)
  | _ => (s, EmptyMessage, false)

/-- Lines 162-179; the warnings only log. -/
def slot.setMsgSyncResp (s : slot) (msg : Message) : slot :=
  if s.sync.syncStatus ≠ .syncStatusSyncing then s
  else if msg.MsgType ≠ .MsgSyncResp then s
  else if msg.Index ≠ s.sync.syncingLogIndex then s
  else { s with sync := { s.sync with resp := msg, syncStatus := .syncStatusSynced } }

/-- Lines 402-404: Go `fmt.Sprintf("slot-%d", slotID)`. -/
def GetSlotShardNo (slotID : Nat) : String := "slot-" ++ toString slotID

/-- The loop of `strconv.ParseUint(s, 10, bitSize)`, `maxVal` being
`1<<bitSize - 1`; the value read so far is kept in a `uint64`. -/
def parseUintBitsLoop (maxVal : Nat) : List Char → Nat → Nat × Option NumError
  | [], n => (n, none)
  | c :: cs, n =>
    if !c.isDigit then (0, some .ErrSyntax)
    else if n ≥ (2 ^ 64 - 1) / 10 + 1 then (maxVal, some .ErrRange)
    else
      let n1 := n * 10 + digitValue c
      if n1 > maxVal then (maxVal, some .ErrRange)
      else parseUintBitsLoop maxVal cs n1

/-- Go `strconv.ParseUint(s, 10, bitSize)` for `1 <= bitSize <= 64`. -/
def ParseUintBits (bitSize : Nat) (s : List Char) : Nat × Option NumError :=
  if s = [] then (0, some .ErrSyntax) else parseUintBitsLoop (2 ^ bitSize - 1) s 0

/-- Lines 406-420; `lg.Panic` logs and panics. -/
def GetSlotId (shardNo : String) : Outcome Nat :=
  let strs := stringsSplit shardNo.data '-'
  if strs.length = 2 then
    let r := ParseUintBits 32 (strs.getD 1 [])
    match r.2 with
    | some _ => .panicked "parse slotID error" 0
    | none => .returned (uint64ToUint32 r.1)
  else .panicked "parse slotID error" 0

/-- A `SyncResp` message for the log index `index`. -/
def syncRespMsg (index : Nat) : Message :=
  { EmptyMessage with MsgType := .MsgSyncResp, From := 1, Index := index }

/-! ## The log storage of messages

Embedding of `AppendLogBatch`, `Logs`, `LastIndex` and `LastIndexAndTerm` of
`pkg/cluster/clusterstore/store_message.go`.  The database `wkdb.DB`, the
codec of `wkdb.Message` and `cluster.ChannelFromlKey` are not under `src` and
are fields of `clusterstore.DB`. -/

/-- The fields of `replica.Log` as `store_message.go` names them: `Id` and
`Index` are `uint64`, `Term` is a `uint32`. -/
structure clusterstore.Log where
  Id : Nat
  Index : Nat
  Term : Nat
  Data : List Nat
  deriving DecidableEq, Repr

/-- The fields of `wkdb.Message` the storage reads or writes: `MessageID` is an
`int64`, `MessageSeq` a `uint32`, `Term` a `uint64`; `Payload` stands for the
other fields. -/
structure clusterstore.Message where
  MessageID : Int
  MessageSeq : Nat
  Term : Nat
  Payload : List Nat
  deriving DecidableEq, Repr

/-- The zero value `wkdb.Message{}`. -/
def clusterstore.emptyMessage : clusterstore.Message :=
  { MessageID := 0, MessageSeq := 0, Term := 0, Payload := [] }

/-- The fields of `reactor.AppendLogReq` the storage reads. -/
structure clusterstore.AppendLogReq where
  HandleKey : String
  Logs : List clusterstore.Log
  deriving DecidableEq, Repr

/-- The fields of `wkdb.AppendMessagesReq`. -/
structure clusterstore.AppendMessagesReq where
  ChannelId : String
  ChannelType : Nat
  Messages : List clusterstore.Message
  deriving DecidableEq, Repr

/-- What the storage calls: `Unmarshal` and `Marshal` of `wkdb.Message`,
`cluster.ChannelFromlKey` and the methods of `wkdb.DB`.  `LoadMsg` returns the
message and the error, as in Go. -/
structure clusterstore.DB where
  Unmarshal : List Nat → Except GoError clusterstore.Message
  Marshal : clusterstore.Message → Except GoError (List Nat)
  ChannelFromlKey : String → String × Nat
  AppendMessagesBatch : List clusterstore.AppendMessagesReq → Option GoError
  GetChannelLastMessageSeq : String → Nat → Except GoError (Nat × Nat)
  LoadNextRangeMsgsForSize : String → Nat → Nat → Nat → Nat →
    Except GoError (List clusterstore.Message)
  LoadMsg : String → Nat → Nat → clusterstore.Message × Option GoError

/-- Lines 186-187: the message decoded from a log gets `uint32(log.Index)` as
its sequence and `uint64(log.Term)` as its term. -/
def clusterstore.messageOfLog (msg : clusterstore.Message) (log : clusterstore.Log) :
    clusterstore.Message :=
  { msg with MessageSeq := uint64ToUint32 log.Index, Term := log.Term }

/-- Lines 180-189: the messages of the logs of one request, or the error of the
first log that does not decode. -/
def clusterstore.messagesOfLogs (db : clusterstore.DB) :
    List clusterstore.Log → Except GoError (List clusterstore.Message)
  | [] => .ok []
  | log :: rest =>
    match db.Unmarshal log.Data with
    | .error err => .error err
    | .ok msg =>
      match clusterstore.messagesOfLogs db rest with
      | .error err => .error err
      | .ok msgs => .ok (clusterstore.messageOfLog msg log :: msgs)

/-- Lines 177-195: the requests for the database. -/
def clusterstore.dbReqsOf (db : clusterstore.DB) :
    List clusterstore.AppendLogReq → Except GoError (List clusterstore.AppendMessagesReq)
  | [] => .ok []
  | req :: rest =>
    match clusterstore.messagesOfLogs db req.Logs with
    | .error err => .error err
    | .ok msgs =>
      match clusterstore.dbReqsOf db rest with
      | .error err => .error err
      | .ok dbReqs =>
        .ok ({ ChannelId := (db.ChannelFromlKey req.HandleKey).1,
               ChannelType := (db.ChannelFromlKey req.HandleKey).2,
               Messages := msgs } :: dbReqs)

/-- Lines 175-200: the error returned and the requests handed to
`AppendMessagesBatch`, if it is called. -/
def clusterstore.AppendLogBatch (db : clusterstore.DB) (reqs : List clusterstore.AppendLogReq) :
    Option GoError × Option (List clusterstore.AppendMessagesReq) :=
  match clusterstore.dbReqsOf db reqs with
  | .error err => (some err, none)
  | .ok dbReqs =>
    if dbReqs.length = 0 then (none, none)
    else (db.AppendMessagesBatch dbReqs, some dbReqs)

/-- Lines 250-259. -/
def clusterstore.LastIndex (db : clusterstore.DB) (shardNo : String) : Except GoError Nat :=
  match db.GetChannelLastMessageSeq (db.ChannelFromlKey shardNo).1
      (db.ChannelFromlKey shardNo).2 with
  | .error err => .error err
  | .ok (lastMsgSeq, _) => .ok lastMsgSeq

/-- Lines 234-239: the log of a message, `data` being its encoding. -/
def clusterstore.logOfMessage (msg : clusterstore.Message) (data : List Nat) :
    clusterstore.Log :=
  { Id := toUint64 msg.MessageID, Index := msg.MessageSeq, Term := uint64ToUint32 msg.Term,
    Data := data }

/-- Lines 228-240: the logs of the messages loaded, or the error of the first
message that does not encode. -/
def clusterstore.logsOfMessages (db : clusterstore.DB) :
    List clusterstore.Message → Except GoError (List clusterstore.Log)
  | [] => .ok []
  | msg :: rest =>
    match db.Marshal msg with
    | .error err => .error err
    | .ok data =>
      match clusterstore.logsOfMessages db rest with
      | .error err => .error err
      | .ok logs => .ok (clusterstore.logOfMessage msg data :: logs)

/-- Lines 203-242. -/
def clusterstore.Logs (db : clusterstore.DB) (shardNo : String)
    (startLogIndex endLogIndex limitSize : Nat) : Except GoError (List clusterstore.Log) :=
  match clusterstore.LastIndex db shardNo with
  | .error err => .error err
  | .ok lastIdx =>
    let endLogIndex :=
      if endLogIndex = 0 ∨ endLogIndex > (lastIdx + 1) % 2 ^ 64 then (lastIdx + 1) % 2 ^ 64
      else endLogIndex
    match db.LoadNextRangeMsgsForSize (db.ChannelFromlKey shardNo).1
        (db.ChannelFromlKey shardNo).2 startLogIndex endLogIndex limitSize with
    | .error err => .error err
    | .ok messages =>
      if messages.length = 0 then .ok []
      else clusterstore.logsOfMessages db messages

/-- The loop of lines 273-286 from `queryIndex` on, `lastMsg` being the variable
of the source: the last message loaded and the error the loop returns with, if
any. -/
def clusterstore.lastIndexAndTermLoop (db : clusterstore.DB) (channelId : String)
    (channelType : Nat) : Nat → clusterstore.Message → clusterstore.Message × Option GoError
  | 0, lastMsg => (lastMsg, none)
  | queryIndex + 1, _ =>
    match db.LoadMsg channelId channelType (queryIndex + 1) with
    | (lastMsg, some err) =>
      if err = .ErrNotFound then
        clusterstore.lastIndexAndTermLoop db channelId channelType queryIndex lastMsg
      else (lastMsg, some err)
    | (lastMsg, none) => (lastMsg, none)

/-- Lines 261-289: the index, the term and the error returned. -/
def clusterstore.LastIndexAndTerm (db : clusterstore.DB) (shardNo : String) :
    Nat × Nat × Option GoError :=
  match clusterstore.LastIndex db shardNo with
  | .error err => (0, 0, some err)
  | .ok lastIndex =>
    if lastIndex = 0 then (0, 0, none)
    else
      match clusterstore.lastIndexAndTermLoop db (db.ChannelFromlKey shardNo).1
          (db.ChannelFromlKey shardNo).2 lastIndex clusterstore.emptyMessage with
      | (_, some err) => (0, 0, some err)
      | (lastMsg, none) => (lastMsg.MessageSeq, uint64ToUint32 lastMsg.Term, none)

/-- A database in memory whose last message sequence is `lastMsgSeq` and that
holds the messages `stored` of one channel: a message is encoded as its
payload, with its id in front; `loadError` makes the load of one sequence
fail. -/
def memoryDB (lastMsgSeq : Nat) (stored : List clusterstore.Message)
    (loadError : Option (Nat × GoError)) : clusterstore.DB :=
  { Unmarshal := fun data =>
      .ok { MessageID := (data.headD 0 : Nat), MessageSeq := 0, Term := 0, Payload := data.tail }
    Marshal := fun msg => .ok (msg.MessageID.toNat :: msg.Payload)
    ChannelFromlKey := fun key => (key, 2)
    AppendMessagesBatch := fun _ => none
    GetChannelLastMessageSeq := fun _ _ => .ok (lastMsgSeq, 0)
    LoadNextRangeMsgsForSize := fun _ _ startSeq endSeq _ =>
      .ok (stored.filter fun m => decide (startSeq ≤ m.MessageSeq ∧ m.MessageSeq < endSeq))
    LoadMsg := fun _ _ seq =>
      match loadError with
      | some (failing, err) =>
        if seq = failing then (clusterstore.emptyMessage, some err)
        else
          match stored.find? fun m => m.MessageSeq == seq with
          | some m => (m, none)
          | none => (clusterstore.emptyMessage, some .ErrNotFound)
      | none =>
        match stored.find? fun m => m.MessageSeq == seq with
        | some m => (m, none)
        | none => (clusterstore.emptyMessage, some .ErrNotFound) }

/-- A request to append one log with the index `index` and the term 2. -/
def appendReqAt (index : Nat) : clusterstore.AppendLogReq :=
  { HandleKey := "g1", Logs := [{ Id := 7, Index := index, Term := 2, Data := [7, 1] }] }

/-- The message of sequence `seq` and term `term`. -/
def storedMsg (seq term : Nat) : clusterstore.Message :=
  { MessageID := 7, MessageSeq := seq, Term := term, Payload := [1] }

/-! ## The leader terms of a shard

Embedding of `SetLeaderTermStartIndex`, `LeaderLastTerm` and
`DeleteLeaderTermStartIndexGreaterThanTerm` of
`pkg/wkdb/leader_term_sequence.go`.  The package `key` is not under `src`; the
iterator is the one of the pebble library. -/

/-- Go `math.MaxUint32`. -/
def MaxUint32 : Nat := 4294967295

/-- Modelled from the spec: the table `leader_term_start_index[term]` of the
shards, one entry `(shardNo, term, index)` per key
`key.NewLeaderTermSequenceTermKey(shardNo, term)`; the keys of a shard are
ordered by term. -/
structure wukongDB where
  leaderTerms : List (String × Nat × Nat)
  deriving DecidableEq, Repr

/-- Lines 10-14: pebble `Set` writes the value of the key, replacing the one it
had. -/
def wukongDB.SetLeaderTermStartIndex (wk : wukongDB) (shardNo : String) (term index : Nat) :
    wukongDB :=
  { leaderTerms := (shardNo, term, index) ::
      wk.leaderTerms.filter fun e => !(e.1 == shardNo && e.2.1 == term) }

/-- Lines 46-49: pebble `DeleteRange` removes the keys from the one of
`term + 1` (a `uint32`) up to, and without, the one of `math.MaxUint32`. -/
def wukongDB.DeleteLeaderTermStartIndexGreaterThanTerm (wk : wukongDB) (shardNo : String)
    (term : Nat) : wukongDB :=
  { leaderTerms := wk.leaderTerms.filter fun e =>
      !(e.1 == shardNo && decide ((term + 1) % 2 ^ 32 ≤ e.2.1) && decide (e.2.1 < MaxUint32)) }

/-- A pebble iterator over the terms of the keys within its bounds, in
ascending order; it is valid when `pos` is the position of a key. -/
structure termIter where
  keys : List Nat
  pos : Int
  deriving DecidableEq, Repr

/-- Pebble `NewIter` with `LowerBound` (included) and `UpperBound` (not
included) the keys of the terms `lower` and `upper` of the shard. -/
def wukongDB.NewIter (wk : wukongDB) (shardNo : String) (lower upper : Nat) : termIter :=
  { keys := ((wk.leaderTerms.filter fun e =>
        e.1 == shardNo && decide (lower ≤ e.2.1) && decide (e.2.1 < upper)).map
        fun e => e.2.1).insertionSort (fun a b => a ≤ b)
    pos := -1 }

/-- Pebble `Valid`. -/
def termIter.Valid (it : termIter) : Bool := decide (0 ≤ it.pos ∧ it.pos < it.keys.length)

/-- Pebble `Last`: moves to the last key and tells whether there is one. -/
def termIter.Last (it : termIter) : termIter × Bool :=
  ({ it with pos := (it.keys.length : Int) - 1 },
    termIter.Valid { it with pos := (it.keys.length : Int) - 1 })

/-- Pebble `Prev`: moves to the key before and tells whether there is one. -/
def termIter.Prev (it : termIter) : termIter × Bool :=
  ({ it with pos := it.pos - 1 }, termIter.Valid { it with pos := it.pos - 1 })

/-- Pebble `Key`, read with `key.ParseLeaderTermSequenceTermKey`. -/
def termIter.Key (it : termIter) : Nat := it.keys.getD it.pos.toNat 0

/-- Lines 16-32: the term and the error returned. -/
def wukongDB.LeaderLastTerm (wk : wukongDB) (shardNo : String) : Nat × Option GoError :=
  let iter := wk.NewIter shardNo 0 MaxUint32
  let last := iter.Last
  if last.2 && last.1.Valid then
    let prev := last.1.Prev
    if prev.2 then (prev.1.Key, none) else (0, none)
  else (0, none)

/-- A database with no leader term. -/
def emptyWukongDB : wukongDB := { leaderTerms := [] }

/-! ## The logs of a `SyncGet`

Embedding of `getAndMergeLogs`, `getLogs` and `extend` of
`pkg/cluster/cluster/slot.go` and `pkg/cluster/cluster/channel.go`. -/

/-- The methods of the log storage of a shard that `getAndMergeLogs` calls. -/
structure ShardLogStorage where
  LastIndex : String → Except GoError Nat
  Logs : String → Nat → Nat → Nat → Except GoError (List Log)

/-- Lines 203-212 of `channel.go`: in both branches the result is `dst`
followed by `vals`. -/
def extend (dst vals : List Log) : List Log := dst ++ vals

/-- Lines 328-336 of `slot.go`. -/
def slot.getLogs (storage : ShardLogStorage) (s : slot)
    (startLogIndex endLogIndex limitSize : Nat) : Except GoError (List Log) :=
  storage.Logs (GetSlotShardNo s.slotId) startLogIndex endLogIndex limitSize

/-- The start index of lines 281-285: the index of the message or, with
unstable logs, the index after the last of them. -/
def mergeStartIndex (msg : Message) : Nat :=
  match msg.Logs.getLast? with
  | some lg => (lg.Index + 1) % 2 ^ 64
  | none => msg.Index

/-- Lines 279-326 of `slot.go`; `LogSyncLimitSizeOfEach` is the option of that
name, a Go `int`; the spans only trace. -/
def slot.getAndMergeLogs (storage : ShardLogStorage) (LogSyncLimitSizeOfEach : Int) (s : slot)
    (msg : Message) : Except GoError (List Log) :=
  let unstableLogs := msg.Logs
  let startIndex := mergeStartIndex msg
  let lastIndex : Except GoError Nat :=
    if s.lastIndex = 0 then storage.LastIndex (GetSlotShardNo s.slotId) else .ok s.lastIndex
  match lastIndex with
  | .error err => .error err
  | .ok lastIndex =>
    if startIndex ≤ lastIndex then
      match s.getLogs storage startIndex ((lastIndex + 1) % 2 ^ 64)
          (toUint64 LogSyncLimitSizeOfEach) with
      | .error err => .error err
      | .ok logs => .ok (extend logs unstableLogs)
    else .ok []

/-- Lines 161-201 of `channel.go`, `channel.getAndMergeLogs`, with
`channelKey` for `ChannelKey(c.channelID, c.channelType)`. -/
def clusterChannel.getAndMergeLogs (storage : ShardLogStorage) (LogSyncLimitSizeOfEach : Int)
    (channelKey : String) (msg : Message) : Except GoError (List Log) :=
  let unstableLogs := msg.Logs
  let startIndex := mergeStartIndex msg
  match storage.LastIndex channelKey with
  | .error err => .error err
  | .ok lastIndex =>
    if startIndex ≤ lastIndex then
      match storage.Logs channelKey startIndex ((lastIndex + 1) % 2 ^ 64)
          (toUint64 LogSyncLimitSizeOfEach) with
      | .error err => .error err
      | .ok logs => .ok (extend logs unstableLogs)
    else .ok []

/-- The log of index `index`, of term 1. -/
def logAt (index : Nat) : Log :=
  { MessageId := 100 + index, Index := index, Term := 1, Data := [] }

/-- A storage that holds the logs of the indexes 1 to `lastIndex`. -/
def filledStorage (lastIndex : Nat) : ShardLogStorage :=
  { LastIndex := fun _ => .ok lastIndex
    Logs := fun _ startLogIndex endLogIndex _ =>
      .ok (((List.range (lastIndex + 1)).filter fun i =>
        decide (1 ≤ i ∧ startLogIndex ≤ i ∧ i < endLogIndex)).map logAt) }

/-- A `SyncGet` message for the index `index` that carries `logs`. -/
def syncGetMsg (index : Nat) (logs : List Log) : Message :=
  { EmptyMessage with MsgType := .MsgSyncGet, From := 2, Index := index, Logs := logs }

/-- The indexes of the logs of a result, or none for an error. -/
def indexesOf : Except GoError (List Log) → Option (List Nat)
  | .ok logs => some (logs.map fun lg => lg.Index)
  | .error _ => none

/-! ## The channel of the server: `hasReady` and `ready`

Embedding of `newChannel`, `hasReady`, `ready` and the tests of lines 186-237
of `internal/server/channel.go`.  The method `sliceWithSize` of the message
queue is not under `src` and is a parameter. -/

/-- Modelled from the spec: `newChannelMsgQueue` is not under `src`; the queue
of a new channel is empty, with every cursor at 0. -/
def newChannelMsgQueue : channelMsgQueue :=
  { lastIndex := 0, payloadDecryptingIndex := 0, permissionCheckingIndex := 0,
    storagingIndex := 0, sendackingIndex := 0, deliveringIndex := 0, forwardingIndex := 0 }

/-- Lines 59-75, with `ChannelToKey` as a parameter; the fields that are not
set have the zero value of Go. -/
def newChannel (ChannelToKey : String → Nat → String) (channelId : String)
    (channelType : Nat) : channel :=
  { key := ChannelToKey channelId channelType
    channelId := channelId
    channelType := channelType
    msgQueue := newChannelMsgQueue
    actions := []
    stroageMaxSize := 1024 * 1024 * 2
    deliverMaxSize := 1024 * 1024 * 2
    forwardMaxSize := 1024 * 1024 * 2
    status := .channelStatusUninitialized
    role := .channelRoleUnknown
    leaderId := 0
    payloadDecrypting := false
    permissionChecking := false
    storaging := false
    sendacking := false
    delivering := false
    forwarding := false }

/-- Modelled from the spec: `exec` is not under `src`; the action joins the
pending actions of the channel, which `ready` hands out. -/
def channel.exec (c : channel) (action : ChannelAction) : channel :=
  { c with actions := c.actions ++ [action] }

def channel.isInitialized (c : channel) : Bool :=
  decide (c.status = .channelStatusInitialized)

def channel.hasPayloadUnDecrypt (c : channel) : Bool :=
  if c.payloadDecrypting then false
  else decide (c.msgQueue.payloadDecryptingIndex < c.msgQueue.lastIndex)

def channel.hasPermissionUnCheck (c : channel) : Bool :=
  if c.permissionChecking then false
  else decide (c.msgQueue.permissionCheckingIndex < c.msgQueue.payloadDecryptingIndex)

def channel.hasUnstorage (c : channel) : Bool :=
  if c.storaging then false
  else decide (c.msgQueue.storagingIndex < c.msgQueue.permissionCheckingIndex)

def channel.hasSendack (c : channel) : Bool :=
  if c.sendacking then false
  else decide (c.msgQueue.sendackingIndex < c.msgQueue.storagingIndex)

def channel.hasUnDeliver (c : channel) : Bool :=
  if c.delivering then false
  else decide (c.msgQueue.deliveringIndex < c.msgQueue.storagingIndex)

def channel.hasUnforward (c : channel) : Bool :=
  if c.forwarding then false
  else decide (c.msgQueue.forwardingIndex < c.msgQueue.payloadDecryptingIndex)

/-- Lines 77-103. -/
def channel.hasReady (c : channel) : Bool :=
  if !c.isInitialized then decide (c.status ≠ .channelStatusInitializing)
  else if c.hasPayloadUnDecrypt then true
  else if c.role = .channelRoleLeader then
    if c.hasPermissionUnCheck then true
    else if c.hasUnstorage then true
    else if c.hasUnDeliver then true
    else decide (c.actions.length > 0)
  else if c.role = .channelRoleProxy then
    if c.hasUnforward then true
    else decide (c.actions.length > 0)
  else decide (c.actions.length > 0)

/-- Lines 115-121. -/
def channel.readyPayloadDecrypt (sliceWithSize : Nat → Nat → Nat → List ReactorChannelMessage)
    (c : channel) : channel :=
  if c.hasPayloadUnDecrypt then
    let c1 := { c with payloadDecrypting := true }
    let msgs := sliceWithSize ((c1.msgQueue.payloadDecryptingIndex + 1) % 2 ^ 64)
      ((c1.msgQueue.lastIndex + 1) % 2 ^ 64) 0
    if msgs.length > 0 then
      c1.exec { ActionType := .ChannelActionPayloadDecrypt, LeaderId := 0, Messages := msgs }
    else c1
  else c

/-- Lines 126-133. -/
def channel.readyPermissionCheck (sliceWithSize : Nat → Nat → Nat → List ReactorChannelMessage)
    (c : channel) : channel :=
  if c.hasPermissionUnCheck then
    let c1 := { c with permissionChecking := true }
    let msgs := sliceWithSize ((c1.msgQueue.permissionCheckingIndex + 1) % 2 ^ 64)
      ((c1.msgQueue.payloadDecryptingIndex + 1) % 2 ^ 64) 0
    if msgs.length > 0 then
      c1.exec { ActionType := .ChannelActionPermissionCheck, LeaderId := 0, Messages := msgs }
    else c1
  else c

/-- Lines 136-144. -/
def channel.readyStorage (sliceWithSize : Nat → Nat → Nat → List ReactorChannelMessage)
    (c : channel) : channel :=
  if c.hasUnstorage then
    let c1 := { c with storaging := true }
    let msgs := sliceWithSize ((c1.msgQueue.storagingIndex + 1) % 2 ^ 64)
      ((c1.msgQueue.permissionCheckingIndex + 1) % 2 ^ 64) c1.stroageMaxSize
    if msgs.length > 0 then
      c1.exec { ActionType := .ChannelActionStorage, LeaderId := 0, Messages := msgs }
    else c1
  else c

/-- Lines 147-153. -/
def channel.readySendack (sliceWithSize : Nat → Nat → Nat → List ReactorChannelMessage)
    (c : channel) : channel :=
  if c.hasSendack then
    let c1 := { c with sendacking := true }
    let msgs := sliceWithSize ((c1.msgQueue.sendackingIndex + 1) % 2 ^ 64)
      ((c1.msgQueue.storagingIndex + 1) % 2 ^ 64) 0
    if msgs.length > 0 then
      c1.exec { ActionType := .ChannelActionSendack, LeaderId := 0, Messages := msgs }
    else c1
  else c

/-- Lines 156-164. -/
def channel.readyDeliver (sliceWithSize : Nat → Nat → Nat → List ReactorChannelMessage)
    (c : channel) : channel :=
  if c.hasUnDeliver then
    let c1 := { c with delivering := true }
    let msgs := sliceWithSize ((c1.msgQueue.deliveringIndex + 1) % 2 ^ 64)
      ((c1.msgQueue.storagingIndex + 1) % 2 ^ 64) c1.deliverMaxSize
    if msgs.length > 0 then
      c1.exec { ActionType := .ChannelActionDeliver, LeaderId := 0, Messages := msgs }
    else c1
  else c

/-- Lines 167-174. -/
def channel.readyForward (sliceWithSize : Nat → Nat → Nat → List ReactorChannelMessage)
    (c : channel) : channel :=
  if c.hasUnforward then
    let c1 := { c with forwarding := true }
    let msgs := sliceWithSize ((c1.msgQueue.forwardingIndex + 1) % 2 ^ 64)
      ((c1.msgQueue.payloadDecryptingIndex + 1) % 2 ^ 64) c1.deliverMaxSize
    if msgs.length > 0 then
      c1.exec { ActionType := .ChannelActionForward, LeaderId := c1.leaderId, Messages := msgs }
    else c1
  else c

/-- Lines 105-184: the channel afterwards and the actions of the `ready`
returned. -/
def channel.ready (sliceWithSize : Nat → Nat → Nat → List ReactorChannelMessage)
    (c : channel) : channel × List ChannelAction :=
  if !c.isInitialized then
    if c.status = .channelStatusInitializing then (c, [])
    else
      let c1 := ({ c with status := .channelStatusInitializing }).exec
        { ActionType := .ChannelActionInit, LeaderId := 0, Messages := [] }
      ({ c1 with actions := [] }, c1.actions)
  else
    let c1 := c.readyPayloadDecrypt sliceWithSize
    let c2 :=
      if c1.role = .channelRoleLeader then
        (((c1.readyPermissionCheck sliceWithSize).readyStorage sliceWithSize).readySendack
          sliceWithSize).readyDeliver sliceWithSize
      else if c1.role = .channelRoleProxy then c1.readyForward sliceWithSize
      else c1
    ({ c2 with actions := [] }, c2.actions)

/-- The in-flight flag of the stage of an action type; none for a type that is
not the action of a stage. -/
def channel.stageFlag (c : channel) : ChannelActionType → Option Bool
  | .ChannelActionPayloadDecrypt => some c.payloadDecrypting
  | .ChannelActionPermissionCheck => some c.permissionChecking
  | .ChannelActionStorage => some c.storaging
  | .ChannelActionSendack => some c.sendacking
  | .ChannelActionDeliver => some c.delivering
  | .ChannelActionForward => some c.forwarding
  | .ChannelActionInit => none
  | .ChannelActionSend => none

/-- The channel `c` comes from `c0` by the blocks of the stages `done`: it has
the pending actions of `c0` followed by at most one action per stage of
`done`, each for a stage whose flag was false in `c0` and is true in `c`; the
flags of the other stages, the role and the status are those of `c0`. -/
def emitsStages (c0 c : channel) (done : List ChannelActionType) : Prop :=
  ∃ emitted : List ChannelAction,
    c.actions = c0.actions ++ emitted ∧
    (emitted.map fun a => a.ActionType).Nodup ∧
    (∀ a ∈ emitted, a.ActionType ∈ done ∧ c0.stageFlag a.ActionType = some false ∧
      c.stageFlag a.ActionType = some true) ∧
    (∀ t, t ∉ done → c.stageFlag t = c0.stageFlag t) ∧
    c.role = c0.role ∧ c.status = c0.status

/-- What a block of `ready` for the stage `t` does to a channel. -/
def stageBlock (t : ChannelActionType) (f : channel → channel) : Prop :=
  ∀ c : channel,
    (∀ t1, t1 ≠ t → (f c).stageFlag t1 = c.stageFlag t1) ∧
    (f c).role = c.role ∧ (f c).status = c.status ∧
    ((f c).actions = c.actions ∨
      ∃ a, (f c).actions = c.actions ++ [a] ∧ a.ActionType = t ∧
        c.stageFlag t = some false ∧ (f c).stageFlag t = some true)

/-- Messages of 40 bytes each at the positions from `startIndex` up to, and
without, `endIndex`, as many as fit in `maxSize` bytes (0 for no bound). -/
def sizedSlice (startIndex endIndex maxSize : Nat) : List ReactorChannelMessage :=
  ((List.range (endIndex - startIndex)).take
    (if maxSize = 0 then endIndex - startIndex else maxSize / 40)).map
    fun i => { FromUid := "alice", MessageId := ((startIndex + i : Nat) : Int) }

/-- An initialized leader channel with five messages decrypted, checked,
stored and delivered, three of them acknowledged, and no pending action. -/
def unackedChannel : channel :=
  { sampleChannel with
    msgQueue := { lastIndex := 5, payloadDecryptingIndex := 5, permissionCheckingIndex := 5,
                  storagingIndex := 5, sendackingIndex := 3, deliveringIndex := 5,
                  forwardingIndex := 0 } }

/-- An initialized proxy channel of leader 2 with five messages decrypted and
none forwarded, whose forward budget is 40 bytes and whose deliver budget is
100 bytes. -/
def proxyChannel : channel :=
  { sampleChannel with
    role := .channelRoleProxy
    leaderId := 2
    msgQueue := { lastIndex := 5, payloadDecryptingIndex := 5, permissionCheckingIndex := 0,
                  storagingIndex := 0, sendackingIndex := 0, deliveringIndex := 0,
                  forwardingIndex := 0 }
    forwardMaxSize := 40
    deliverMaxSize := 100 }

/-- An initialized leader channel with six messages queued, five of them
decrypted, four checked, three stored, two acknowledged and one delivered. -/
def busyChannel : channel :=
  { sampleChannel with
    msgQueue := { lastIndex := 6, payloadDecryptingIndex := 5, permissionCheckingIndex := 4,
                  storagingIndex := 3, sendackingIndex := 2, deliveringIndex := 1,
                  forwardingIndex := 0 } }

/-! ## The merged list and the sequences of `syncUserConversation`, in the words of the spec -/

/-- The merged list in the words of the spec: the persisted rows in their
order, followed by the cached conversations whose `(channel_id, channel_type)`
is that of no row already in the list, that is of no persisted row and of no
cached conversation before them, each once and in cache order. -/
def mergedRows (persisted cacheConversations : List Conversation) : List Conversation :=
  persisted ++
    ((cacheConversations.inits.zip cacheConversations).filter fun p =>
      decide (∀ row ∈ persisted ++ p.1,
        ¬ (row.ChannelId = p.2.ChannelId ∧ row.ChannelType = p.2.ChannelType))).map Prod.snd

/-- The sequence of a conversation in the words of the spec, `max(c, k, p)`:
`c` the client-supplied sequence of the conversation's real channel, `k` the
`readed_to_msg_seq` the cache holds for the channel, both 0 if absent, and `p`
the `readed_to_msg_seq` of the row. -/
def maxReadSeq (env : Env) (req : syncUserConversationReq) (conversation : Conversation) : Nat :=
  max
    (max
      ((getChannelLastMsgSeqMap req.LastMsgSeqs).get
        (channelKey (realChannelIdOf env req.UID conversation) conversation.ChannelType))
      (cachedReaded (env.GetUserConversationFromCache req.UID) conversation.ChannelId
        conversation.ChannelType))
    conversation.ReadedToMsgSeq

/-- The recent-message requests in the words of the spec: one for every
conversation of the merged list, in its order, for the real channel of the
conversation and from the sequence `max(c, k, p)`. -/
def mergedRecentReqs (env : Env) (req : syncUserConversationReq)
    (persisted : List Conversation) : List channelRecentMessageReq :=
  (mergedRows persisted (env.GetUserConversationFromCache req.UID)).map fun conversation =>
    { ChannelId := realChannelIdOf env req.UID conversation,
      ChannelType := conversation.ChannelType,
      LastMsgSeq := maxReadSeq env req conversation }

/-- The responses in the words of the spec, before the recent messages are
attached: one for every conversation of the merged list, in its order, made
of the conversation with `max(c, k, p)` for its `readed_to_msg_seq`. -/
def mergedResps (env : Env) (req : syncUserConversationReq)
    (persisted : List Conversation) : List syncUserConversationResp :=
  (mergedRows persisted (env.GetUserConversationFromCache req.UID)).map fun conversation =>
    newSyncUserConversationResp env
      { conversation with ReadedToMsgSeq := maxReadSeq env req conversation }

/-! ## Lemmas on traces -/

theorem storedRows_append (s t : List Effect) :
    storedRows (s ++ t) = storedRows s ++ storedRows t := by
  induction s with
  | nil => rfl
  | cons e s ih => cases e <;> simp [storedRows, ih]

theorem storedRows_gate (env : Env) (c : Context) (uid : String) (body : List Nat) :
    storedRows (slotLeaderGate env c uid body).1 = [] := by
  unfold slotLeaderGate
  split
  · split
    · rfl
    · dsimp only
      split <;> rfl
  · rfl

theorem not_succeeded_gate (env : Env) (c : Context) (uid : String) (body : List Nat) :
    ¬ succeeded (slotLeaderGate env c uid body).1 := by
  unfold slotLeaderGate succeeded
  split
  · split
    · simp
    · dsimp only
      split <;> simp
  · simp

theorem succeeded_append (s t : List Effect) :
    succeeded (s ++ t) ↔ succeeded s ∨ succeeded t := by
  simp [succeeded]

/-- A successful `storeConversation` has written the conversation it was given. -/
theorem storeConversation_stored (env : Env) (uid fakeChannelId : String) (channelType : Nat)
    (t : List Effect) (conversation : Conversation)
    (hok : succeeded (storeConversation env uid fakeChannelId channelType t conversation))
    (ht : ¬ succeeded t) :
    storedRows (storeConversation env uid fakeChannelId channelType t conversation) =
      storedRows t ++ [conversation] := by
  unfold storeConversation at *
  split at hok
  · rw [succeeded_append] at hok
    rcases hok with h | h
    · exact absurd h ht
    · simp [succeeded] at h
  · simp [storedRows_append, storedRows]

/-- The row a successful `setConversationUnread` stores. -/
theorem setConversationUnread_stored (env : Env) (c : Context)
    (decode : List Nat → Except GoError setConversationUnreadReq)
    (hok : succeeded (setConversationUnread env c decode)) :
    ∃ (req : setConversationUnreadReq) (msgSeq : Nat) (base : Conversation),
      decode c.Body = .ok req ∧
      env.GetLastMsgSeq (fakeChannelIdOf env req.UID req.ChannelID req.ChannelType)
        req.ChannelType = .ok msgSeq ∧
      storedRows (setConversationUnread env c decode) =
        [{ base with
            ReadedToMsgSeq := (unreadAndReaded req.Unread msgSeq).2,
            UnreadCount := (unreadAndReaded req.Unread msgSeq).1 }] := by
  unfold setConversationUnread BindJSON at *
  cases hd : decode c.Body with
  | error err => simp [hd, succeeded] at hok
  | ok req =>
    simp only [hd] at hok ⊢
    by_cases h1 : req.UID = ""
    · simp [h1, succeeded] at hok
    · by_cases h2 : req.ChannelID = "" ∨ req.ChannelType = 0
      · simp [h1, h2, succeeded] at hok
      · simp only [h1, h2, if_false] at hok ⊢
        by_cases hg : (slotLeaderGate env c req.UID c.Body).2 = true
        · simp only [hg, if_true] at hok
          exact absurd hok (not_succeeded_gate _ _ _ _)
        · have hg2 : (slotLeaderGate env c req.UID c.Body).2 = false := by simpa using hg
          simp only [hg2, Bool.false_eq_true, if_false] at hok ⊢
          cases hs : env.GetLastMsgSeq
              (fakeChannelIdOf env req.UID req.ChannelID req.ChannelType) req.ChannelType with
          | error err =>
            simp [hs, succeeded] at hok
            exact absurd hok (not_succeeded_gate _ _ _ _)
          | ok msgSeq =>
            simp only [hs] at hok ⊢
            refine ⟨req, msgSeq, conversationOrNew env (env.GetConversation req.UID
                  (fakeChannelIdOf env req.UID req.ChannelID req.ChannelType) req.ChannelType).1
                req.UID (fakeChannelIdOf env req.UID req.ChannelID req.ChannelType)
                req.ChannelType, rfl, hs, ?_⟩
            have hpre : ¬ succeeded ((slotLeaderGate env c req.UID c.Body).1 ++
                [Effect.storeGetLastMsgSeq
                  (fakeChannelIdOf env req.UID req.ChannelID req.ChannelType) req.ChannelType] ++
                [Effect.storeGetConversation req.UID
                  (fakeChannelIdOf env req.UID req.ChannelID req.ChannelType)
                  req.ChannelType]) := by
              simp only [succeeded_append, not_or]
              exact ⟨⟨not_succeeded_gate _ _ _ _, by simp [succeeded]⟩, by simp [succeeded]⟩
            split at hok
            · rw [succeeded_append] at hok
              rcases hok with h | h
              · exact absurd h hpre
              · simp [succeeded] at h
            · rw [storeConversation_stored _ _ _ _ _ _ hok hpre]
              simp [storedRows_append, storedRows_gate, storedRows]

/-! ## setConversationUnread: the stored unread count and read position -/

theorem toUint64_of_nonneg (x : Int) (h0 : 0 ≤ x) (h1 : x < 2 ^ 64) :
    toUint64 x = x.toNat := by
  unfold toUint64
  rw [Int.emod_eq_of_lt h0 h1]

theorem toUint32_of_nonneg (x : Int) (h0 : 0 ≤ x) (h1 : x < 2 ^ 32) :
    toUint32 x = x.toNat := by
  unfold toUint32
  rw [Int.emod_eq_of_lt h0 h1]

theorem unreadAndReaded_overflow (u : Int) (m : Nat) (hm : m < 2 ^ 64) (h1 : 1 ≤ m)
    (hu : (m : Int) < u) (hi : u < 2 ^ 63) : unreadAndReaded u m = (1, m - 1) := by
  have h64 : toUint64 u = u.toNat := toUint64_of_nonneg u (by omega) (by omega)
  unfold unreadAndReaded subUint64
  rw [h64]
  have hgt : u.toNat > m := by omega
  simp only [hgt, if_true, Prod.mk.injEq, true_and]
  norm_num at hm ⊢
  omega

theorem unreadAndReaded_inRange (u : Int) (m : Nat) (hm : m < 2 ^ 64) (h0 : 0 ≤ u)
    (hu : u ≤ (m : Int)) (h32 : u < 2 ^ 32) : unreadAndReaded u m = (u.toNat, m - u.toNat) := by
  have h64 : toUint64 u = u.toNat := toUint64_of_nonneg u h0 (by omega)
  have h32b : toUint32 u = u.toNat := toUint32_of_nonneg u h0 h32
  unfold unreadAndReaded subUint64
  rw [h64, h32b]
  have hle : ¬ u.toNat > m := by omega
  simp only [hle, if_false]
  by_cases hpos : u > 0
  · simp only [hpos, if_true, Prod.mk.injEq, true_and]
    norm_num at hm ⊢
    omega
  · have hz : u = 0 := by omega
    subst hz
    simp

/-- C1: in `setConversationUnread`, a request whose `unread` is greater than the
channel's `last_msg_seq`, with `last_msg_seq >= 1`, stores a row with
`unread_count = 1` and `readed_to_msg_seq = last_msg_seq - 1`. -/
theorem setConversationUnread_overflow (env : Env) (c : Context)
    (decode : List Nat → Except GoError setConversationUnreadReq)
    (req : setConversationUnreadReq) (msgSeq : Nat)
    (hdec : decode c.Body = .ok req)
    (hseq : env.GetLastMsgSeq (fakeChannelIdOf env req.UID req.ChannelID req.ChannelType)
      req.ChannelType = .ok msgSeq)
    (hok : succeeded (setConversationUnread env c decode))
    (hm : msgSeq < 2 ^ 64) (h1 : 1 ≤ msgSeq)
    (hu : (msgSeq : Int) < req.Unread) (hi : req.Unread < 2 ^ 63) :
    ∃ row : Conversation, storedRows (setConversationUnread env c decode) = [row] ∧
      row.UnreadCount = 1 ∧ row.ReadedToMsgSeq = msgSeq - 1 := by
  obtain ⟨req1, msgSeq1, base, hd1, hs1, hrows⟩ := setConversationUnread_stored env c decode hok
  rw [hdec] at hd1
  cases hd1
  rw [hseq] at hs1
  cases hs1
  rw [unreadAndReaded_overflow req.Unread msgSeq hm h1 hu hi] at hrows
  exact ⟨_, hrows, rfl, rfl⟩

/-- C1, on the input of the spec: `last_msg_seq = 10` and `unread = 100` store
`unread = 1` and `readed_to_msg_seq = 9`. -/
theorem setConversationUnread_overflow_witness :
    ∃ row : Conversation,
      storedRows (setConversationUnread (sampleEnv 10 emptyConversation) ⟨"/conversations/setUnread", []⟩
        (sampleSetUnread 100)) = [row] ∧
      row.UnreadCount = 1 ∧ row.ReadedToMsgSeq = 10 - 1 :=
  setConversationUnread_overflow (sampleEnv 10 emptyConversation) ⟨"/conversations/setUnread", []⟩
    (sampleSetUnread 100)
    { UID := "alice", ChannelID := "bob", ChannelType := 1, Unread := 100, MessageSeq := 0 } 10
    rfl rfl (by decide) (by decide) (by decide) (by decide) (by decide)

/-- C2: in `setConversationUnread`, a request with `0 <= unread <= last_msg_seq`
and `unread < 2^32` stores a row with `unread_count = unread` and
`readed_to_msg_seq = last_msg_seq - unread`. -/
theorem setConversationUnread_inRange (env : Env) (c : Context)
    (decode : List Nat → Except GoError setConversationUnreadReq)
    (req : setConversationUnreadReq) (msgSeq : Nat)
    (hdec : decode c.Body = .ok req)
    (hseq : env.GetLastMsgSeq (fakeChannelIdOf env req.UID req.ChannelID req.ChannelType)
      req.ChannelType = .ok msgSeq)
    (hok : succeeded (setConversationUnread env c decode))
    (hm : msgSeq < 2 ^ 64) (h0 : 0 ≤ req.Unread)
    (hu : req.Unread ≤ (msgSeq : Int)) (h32 : req.Unread < 2 ^ 32) :
    ∃ row : Conversation, storedRows (setConversationUnread env c decode) = [row] ∧
      (row.UnreadCount : Int) = req.Unread ∧
      (row.ReadedToMsgSeq : Int) = (msgSeq : Int) - req.Unread := by
  obtain ⟨req1, msgSeq1, base, hd1, hs1, hrows⟩ := setConversationUnread_stored env c decode hok
  rw [hdec] at hd1
  cases hd1
  rw [hseq] at hs1
  cases hs1
  rw [unreadAndReaded_inRange req.Unread msgSeq hm h0 hu h32] at hrows
  refine ⟨_, hrows, ?_, ?_⟩
  · simp only
    omega
  · simp only
    omega

/-- C2, on an input: `last_msg_seq = 10` and `unread = 3` store `unread = 3`
and `readed_to_msg_seq = 7`. -/
theorem setConversationUnread_inRange_witness :
    ∃ row : Conversation,
      storedRows (setConversationUnread (sampleEnv 10 (aliceRow 0 2)) ⟨"/conversations/setUnread", []⟩
        (sampleSetUnread 3)) = [row] ∧
      (row.UnreadCount : Int) = 3 ∧ (row.ReadedToMsgSeq : Int) = ((10 : Nat) : Int) - 3 :=
  setConversationUnread_inRange (sampleEnv 10 (aliceRow 0 2)) ⟨"/conversations/setUnread", []⟩
    (sampleSetUnread 3)
    { UID := "alice", ChannelID := "bob", ChannelType := 1, Unread := 3, MessageSeq := 0 } 10
    rfl rfl (by decide) (by decide) (by decide) (by decide) (by decide)

/-- C3, the code at `last_msg_seq = 0` and `unread = 1`: the handler succeeds
and stores `readed_to_msg_seq = 2^64 - 1`, which is above `last_msg_seq`; the
subtraction `msgSeq - 1` of line 231 wraps around. -/
theorem setConversationUnread_underflow :
    succeeded (setConversationUnread (sampleEnv 0 emptyConversation)
      ⟨"/conversations/setUnread", []⟩ (sampleSetUnread 1)) ∧
    storedRows (setConversationUnread (sampleEnv 0 emptyConversation)
      ⟨"/conversations/setUnread", []⟩ (sampleSetUnread 1)) =
      [aliceRow 1 18446744073709551615] ∧
    ¬ (aliceRow 1 18446744073709551615).ReadedToMsgSeq ≤ 0 := by
  decide

/-- For every `last_msg_seq >= 1` the read position stored by
`setConversationUnread` is at most `last_msg_seq`. -/
theorem unreadAndReaded_le (u : Int) (m : Nat) (hm : m < 2 ^ 64) (h1 : 1 ≤ m)
    (hlo : -(2 ^ 63) ≤ u) (hhi : u < 2 ^ 63) : (unreadAndReaded u m).2 ≤ m := by
  unfold unreadAndReaded
  split
  · simp only [subUint64]
    norm_num at hm ⊢
    omega
  · split
    · rename_i hle hpos
      have h64 : toUint64 u = u.toNat := toUint64_of_nonneg u (by omega) (by omega)
      rw [h64] at hle ⊢
      simp only [subUint64]
      norm_num at hm ⊢
      omega
    · exact le_refl m

/-! ## clearConversationUnread: the stored row -/

/-- The row a successful `clearConversationUnread` stores. -/
theorem clearConversationUnread_stored (env : Env) (c : Context)
    (decode : List Nat → Except GoError clearConversationUnreadReq)
    (check : clearConversationUnreadReq → Option GoError)
    (hok : succeeded (clearConversationUnread env c decode check)) :
    ∃ (req : clearConversationUnreadReq) (msgSeq : Nat),
      decode c.Body = .ok req ∧
      env.GetLastMsgSeq (fakeChannelIdOf env req.UID req.ChannelID req.ChannelType)
        req.ChannelType = .ok msgSeq ∧
      storedRows (clearConversationUnread env c decode check) =
        [raiseReaded
          (conversationOrNew env
            (env.GetConversation req.UID
              (fakeChannelIdOf env req.UID req.ChannelID req.ChannelType) req.ChannelType).1
            req.UID (fakeChannelIdOf env req.UID req.ChannelID req.ChannelType) req.ChannelType)
          msgSeq] := by
  unfold clearConversationUnread BindJSON at *
  cases hd : decode c.Body with
  | error err => simp [hd, succeeded] at hok
  | ok req =>
    simp only [hd] at hok ⊢
    cases hc : check req with
    | some err => simp [hc, succeeded] at hok
    | none =>
      simp only [hc] at hok ⊢
      by_cases hg : (slotLeaderGate env c req.UID c.Body).2 = true
      · simp only [hg, if_true] at hok
        exact absurd hok (not_succeeded_gate _ _ _ _)
      · have hg2 : (slotLeaderGate env c req.UID c.Body).2 = false := by simpa using hg
        simp only [hg2, Bool.false_eq_true, if_false] at hok ⊢
        have hpre : ¬ succeeded ((slotLeaderGate env c req.UID c.Body).1 ++
            [Effect.storeGetConversation req.UID
              (fakeChannelIdOf env req.UID req.ChannelID req.ChannelType) req.ChannelType] ++
            [Effect.storeGetLastMsgSeq
              (fakeChannelIdOf env req.UID req.ChannelID req.ChannelType)
              req.ChannelType]) := by
          simp only [succeeded_append, not_or]
          exact ⟨⟨not_succeeded_gate _ _ _ _, by simp [succeeded]⟩, by simp [succeeded]⟩
        split at hok
        · simp only [succeeded_append, not_or] at hok hpre
          rcases hok with (h | h) | h
          · exact absurd h hpre.1.1
          · exact absurd h hpre.1.2
          · simp [succeeded] at h
        · cases hs : env.GetLastMsgSeq
              (fakeChannelIdOf env req.UID req.ChannelID req.ChannelType) req.ChannelType with
          | error err =>
            simp only [hs] at hok
            rw [succeeded_append] at hok
            rcases hok with h | h
            · exact absurd h hpre
            · simp [succeeded] at h
          | ok msgSeq =>
            simp only [hs] at hok ⊢
            refine ⟨req, msgSeq, rfl, hs, ?_⟩
            rw [storeConversation_stored _ _ _ _ _ _ hok hpre]
            simp [storedRows_append, storedRows_gate, storedRows, raiseReaded]

/-- C4 as stated fails: with a persisted row read up to 20 and a channel whose
last message sequence is 10, `clearConversationUnread` succeeds and stores a
row whose `readed_to_msg_seq` is still 20. -/
theorem clearConversationUnread_keeps_larger_readed :
    (sampleEnv 10 (aliceRow 0 20)).GetLastMsgSeq "alice@bob" 1 = .ok 10 ∧
    succeeded (clearConversationUnread (sampleEnv 10 (aliceRow 0 20))
      ⟨"/conversations/clearUnread", []⟩ sampleClearUnread (fun _ => none)) ∧
    storedRows (clearConversationUnread (sampleEnv 10 (aliceRow 0 20))
      ⟨"/conversations/clearUnread", []⟩ sampleClearUnread (fun _ => none)) = [aliceRow 0 20] ∧
    (aliceRow 0 20).ReadedToMsgSeq ≠ 10 :=
  ⟨rfl, by decide, by decide, by decide⟩

/-- C4, amended: after `clearConversationUnread` succeeds, the stored row has
`readed_to_msg_seq = max(prior, last_msg_seq)`, where `prior` is the read
position of the row the store returned (0 for an empty row); hence it equals
`last_msg_seq` whenever `prior <= last_msg_seq`, in particular when the row
was absent. -/
theorem clearConversationUnread_readed (env : Env) (c : Context)
    (decode : List Nat → Except GoError clearConversationUnreadReq)
    (check : clearConversationUnreadReq → Option GoError)
    (req : clearConversationUnreadReq) (msgSeq : Nat)
    (hdec : decode c.Body = .ok req)
    (hseq : env.GetLastMsgSeq (fakeChannelIdOf env req.UID req.ChannelID req.ChannelType)
      req.ChannelType = .ok msgSeq)
    (hok : succeeded (clearConversationUnread env c decode check)) :
    ∃ row : Conversation, storedRows (clearConversationUnread env c decode check) = [row] ∧
      row.ReadedToMsgSeq =
        max (conversationOrNew env
          (env.GetConversation req.UID
            (fakeChannelIdOf env req.UID req.ChannelID req.ChannelType) req.ChannelType).1
          req.UID (fakeChannelIdOf env req.UID req.ChannelID req.ChannelType)
          req.ChannelType).ReadedToMsgSeq msgSeq ∧
      ((conversationOrNew env
          (env.GetConversation req.UID
            (fakeChannelIdOf env req.UID req.ChannelID req.ChannelType) req.ChannelType).1
          req.UID (fakeChannelIdOf env req.UID req.ChannelID req.ChannelType)
          req.ChannelType).ReadedToMsgSeq ≤ msgSeq → row.ReadedToMsgSeq = msgSeq) ∧
      (env.IsEmptyConversation
          (env.GetConversation req.UID
            (fakeChannelIdOf env req.UID req.ChannelID req.ChannelType) req.ChannelType).1 = true →
        row.ReadedToMsgSeq = msgSeq) := by
  obtain ⟨req1, msgSeq1, hd1, hs1, hrows⟩ :=
    clearConversationUnread_stored env c decode check hok
  rw [hdec] at hd1
  cases hd1
  rw [hseq] at hs1
  cases hs1
  refine ⟨_, hrows, ?_, ?_, ?_⟩
  · unfold raiseReaded
    split
    · simp only
      omega
    · omega
  · intro hle
    unfold raiseReaded
    split
    · rfl
    · omega
  · intro he
    unfold raiseReaded conversationOrNew newConversation
    simp only [he, if_true]
    split
    · rfl
    · rename_i hlt
      dsimp only at hlt ⊢
      omega

/-- C4, amended, on an input: a row read up to 3 on a channel whose last
message sequence is 10 is stored with `readed_to_msg_seq = 10`. -/
theorem clearConversationUnread_readed_witness :
    ∃ row : Conversation,
      storedRows (clearConversationUnread (sampleEnv 10 (aliceRow 0 3))
        ⟨"/conversations/clearUnread", []⟩ sampleClearUnread (fun _ => none)) = [row] ∧
      row.ReadedToMsgSeq = max (aliceRow 0 3).ReadedToMsgSeq 10 ∧
      ((aliceRow 0 3).ReadedToMsgSeq ≤ 10 → row.ReadedToMsgSeq = 10) ∧
      (false = true → row.ReadedToMsgSeq = 10) :=
  clearConversationUnread_readed (sampleEnv 10 (aliceRow 0 3))
    ⟨"/conversations/clearUnread", []⟩ sampleClearUnread (fun _ => none)
    { UID := "alice", ChannelID := "bob", ChannelType := 1 } 10 rfl rfl (by decide)

/-- C5, the code on a persisted row with `unread_count = 5`, read up to 3, on a
channel whose last message sequence is 10: `clearConversationUnread` succeeds
and stores the row with `readed_to_msg_seq = 10` and `unread_count` still 5;
no line of the handler assigns `UnreadCount`. -/
theorem clearConversationUnread_keeps_unread :
    succeeded (clearConversationUnread (sampleEnv 10 (aliceRow 5 3))
      ⟨"/conversations/clearUnread", []⟩ sampleClearUnread (fun _ => none)) ∧
    storedRows (clearConversationUnread (sampleEnv 10 (aliceRow 5 3))
      ⟨"/conversations/clearUnread", []⟩ sampleClearUnread (fun _ => none)) = [aliceRow 5 10] ∧
    (aliceRow 5 10).UnreadCount ≠ 0 := by
  decide

/-- The unread count stored by a successful `clearConversationUnread` is the
one of the row the store returned (0 for an empty row). -/
theorem clearConversationUnread_unread (env : Env) (c : Context)
    (decode : List Nat → Except GoError clearConversationUnreadReq)
    (check : clearConversationUnreadReq → Option GoError)
    (req : clearConversationUnreadReq)
    (hdec : decode c.Body = .ok req)
    (hok : succeeded (clearConversationUnread env c decode check)) :
    ∃ row : Conversation, storedRows (clearConversationUnread env c decode check) = [row] ∧
      row.UnreadCount =
        (conversationOrNew env
          (env.GetConversation req.UID
            (fakeChannelIdOf env req.UID req.ChannelID req.ChannelType) req.ChannelType).1
          req.UID (fakeChannelIdOf env req.UID req.ChannelID req.ChannelType)
          req.ChannelType).UnreadCount := by
  obtain ⟨req1, msgSeq1, hd1, _, hrows⟩ :=
    clearConversationUnread_stored env c decode check hok
  rw [hdec] at hd1
  cases hd1
  refine ⟨_, hrows, ?_⟩
  unfold raiseReaded
  split <;> rfl

/-! ## syncUserConversation: the merged list -/

theorem existsIn_append (l₁ l₂ : List Conversation) (cc : Conversation) :
    existsIn (l₁ ++ l₂) cc = (existsIn l₁ cc || existsIn l₂ cc) := by
  simp [existsIn, List.any_append]

theorem existsIn_iff (l : List Conversation) (cc : Conversation) :
    existsIn l cc = true ↔
      ∃ a ∈ l, cc.ChannelId = a.ChannelId ∧ cc.ChannelType = a.ChannelType := by
  simp [existsIn, List.any_eq_true]

theorem mergeCacheConversations_eq_foldl (persisted cache : List Conversation) :
    mergeCacheConversations persisted cache = cache.foldl mergeStep persisted := rfl

/-- The fold of the merge loop from `acc`, when `acc` and `seen` hold the same
channels: the cached conversations added are those of a channel not in `seen`
and not among the cached conversations before them. -/
theorem foldl_mergeStep_eq (rest : List Conversation) :
    ∀ acc seen : List Conversation,
      (∀ cc, existsIn acc cc = existsIn seen cc) →
      rest.foldl mergeStep acc =
        acc ++ ((rest.inits.zip rest).filter fun p => !existsIn (seen ++ p.1) p.2).map Prod.snd := by
  induction rest with
  | nil => intro acc seen _; simp
  | cons cc r ih =>
    intro acc seen hsame
    have htail : ∀ seen' : List Conversation, seen' = seen ++ [cc] →
        ((((r.inits).map (fun l => cc :: l)).zip r).filter
            fun p => !existsIn (seen ++ p.1) p.2).map Prod.snd =
          ((r.inits.zip r).filter fun p => !existsIn (seen' ++ p.1) p.2).map Prod.snd := by
      intro seen' hs
      subst hs
      rw [List.zip_map_left, List.filter_map, List.map_map]
      congr 1
      apply List.filter_congr
      intro p _
      simp [Function.comp, Prod.map]
    simp only [List.inits, List.zip_cons_cons, List.foldl_cons]
    by_cases hex : existsIn acc cc = true
    · have hstep : mergeStep acc cc = acc := by simp [mergeStep, hex]
      have hseen : existsIn (seen ++ []) cc = true := by
        rw [List.append_nil, ← hsame]; exact hex
      rw [hstep, List.filter_cons]
      simp only [hseen, Bool.not_true, Bool.false_eq_true, if_false]
      rw [htail (seen ++ [cc]) rfl]
      apply ih
      intro x
      rw [existsIn_append, ← hsame]
      cases hx : existsIn acc x with
      | true => simp
      | false =>
        simp only [Bool.false_or]
        cases hx2 : existsIn [cc] x with
        | false => rfl
        | true =>
          exfalso
          rw [existsIn_iff] at hex hx2
          obtain ⟨a, ha, h1, h2⟩ := hex
          obtain ⟨b, hb, h3, h4⟩ := hx2
          simp only [List.mem_singleton] at hb
          subst hb
          have : existsIn acc x = true := by
            rw [existsIn_iff]
            exact ⟨a, ha, h3.trans h1, h4.trans h2⟩
          rw [hx] at this
          exact Bool.false_ne_true this
    · have hex2 : existsIn acc cc = false := by simpa using hex
      have hstep : mergeStep acc cc = acc ++ [cc] := by simp [mergeStep, hex2]
      have hseen : existsIn (seen ++ []) cc = false := by
        rw [List.append_nil, ← hsame]; exact hex2
      rw [hstep, List.filter_cons]
      simp only [hseen, Bool.not_false, if_true, List.map_cons]
      rw [htail (seen ++ [cc]) rfl]
      rw [ih (acc ++ [cc]) (seen ++ [cc])]
      · simp
      · intro x
        rw [existsIn_append, existsIn_append, hsame]

theorem mergeCacheConversations_eq_reference (persisted cache : List Conversation) :
    mergeCacheConversations persisted cache = mergeReference persisted cache := by
  rw [mergeCacheConversations_eq_foldl, foldl_mergeStep_eq cache persisted persisted (fun _ => rfl)]
  rfl

/-! ## The traces of the recent-message readers -/

theorem getRecentMessagesLoop_trace (P : Effect → Prop) (env : Env) (uid : String)
    (msgCount : Int) (orderByLast : Bool)
    (h1 : ∀ a b c d, P (.storeLoadLastMsgsWithEnd a b c d))
    (h2 : ∀ a b c d e, P (.storeLoadNextRangeMsgs a b c d e))
    (channels : List channelRecentMessageReq) :
    ∀ (t : List Effect) (acc : List channelRecentMessage), (∀ e ∈ t, P e) →
      ∀ e ∈ (getRecentMessagesLoop env uid msgCount orderByLast channels t acc).1, P e := by
  induction channels with
  | nil => intro t acc ht; simpa [getRecentMessagesLoop] using ht
  | cons channel rest ih =>
    intro t acc ht
    unfold getRecentMessagesLoop
    dsimp only
    have hts : ∀ x, P x → ∀ e ∈ t ++ [x], P e := by
      intro x hx e he
      rcases List.mem_append.1 he with h | h
      · exact ht e h
      · rw [List.mem_singleton.1 h]; exact hx
    split
    · split
      · exact hts _ (h1 _ _ _ _)
      · exact ih _ _ (hts _ (h1 _ _ _ _))
    · split
      · exact hts _ (h2 _ _ _ _ _)
      · exact ih _ _ (hts _ (h2 _ _ _ _ _))

theorem getRecentMessages_trace (P : Effect → Prop) (env : Env) (uid : String)
    (msgCount : Int) (orderByLast : Bool)
    (h1 : ∀ a b c d, P (.storeLoadLastMsgsWithEnd a b c d))
    (h2 : ∀ a b c d e, P (.storeLoadNextRangeMsgs a b c d e))
    (channels : List channelRecentMessageReq) :
    ∀ e ∈ (getRecentMessages env uid msgCount channels orderByLast).1, P e :=
  getRecentMessagesLoop_trace P env uid msgCount orderByLast h1 h2 channels [] []
    (by intro e he; cases he)

theorem groupByLeader_trace (P : Effect → Prop) (env : Env) (uid : String)
    (h1 : ∀ a b, P (.leaderOfChannelForRead a b))
    (channels : List channelRecentMessageReq) :
    ∀ (t : List Effect) (localReqs : List channelRecentMessageReq) (peers : PeerReqs),
      (∀ e ∈ t, P e) → ∀ e ∈ (groupByLeader env uid channels t localReqs peers).1, P e := by
  induction channels with
  | nil => intro t l p ht; simpa [groupByLeader] using ht
  | cons channel rest ih =>
    intro t l p ht
    unfold groupByLeader
    dsimp only
    have hts : ∀ e ∈ t ++ [Effect.leaderOfChannelForRead
        (fakeChannelIdOf env uid channel.ChannelId channel.ChannelType) channel.ChannelType],
        P e := by
      intro e he
      rcases List.mem_append.1 he with h | h
      · exact ht e h
      · rw [List.mem_singleton.1 h]; exact h1 _ _
    split
    · exact hts
    · split
      · exact ih _ _ _ hts
      · exact ih _ _ _ hts

theorem peerGoroutine.step_spec (env : Env) (uid : String) (msgCount : Int)
    (g : peerGoroutine) (sh : peerShared) :
    (g.step env uid msgCount sh).1.pID = g.pID ∧
    (g.step env uid msgCount sh).1.reqs = g.reqs ∧
    ((g.started = false ∧ (g.step env uid msgCount sh).1.started = true ∧
        (g.step env uid msgCount sh).2.trace =
          sh.trace ++ [.requestSyncMessage g.pID g.reqs uid msgCount]) ∨
      ((g.step env uid msgCount sh).1.started = g.started ∧ g.started = true ∧
        (g.step env uid msgCount sh).2.trace = sh.trace)) := by
  obtain ⟨pID, reqs, pc⟩ := g
  cases pc with
  | waiting =>
    simp only [peerGoroutine.step, peerGoroutine.started]
    cases env.requestSyncMessage pID reqs uid msgCount <;> simp [peerGoroutine.started]
  | failed err => simp [peerGoroutine.step, peerGoroutine.started]
  | received results => simp [peerGoroutine.step, peerGoroutine.started]
  | appending snapshot results => simp [peerGoroutine.step, peerGoroutine.started]
  | finished => simp [peerGoroutine.step, peerGoroutine.started]

theorem peerStepAt_spec (env : Env) (uid : String) (msgCount : Int) :
    ∀ (i : Nat) (gs : List peerGoroutine) (sh : peerShared),
    ∃ new : List Effect,
      (peerStepAt env uid msgCount i gs sh).2.trace = sh.trace ++ new ∧
      (startedRequests uid msgCount (peerStepAt env uid msgCount i gs sh).1).Perm
        (startedRequests uid msgCount gs ++ new) ∧
      (peerStepAt env uid msgCount i gs sh).1.map (peerGoroutine.request uid msgCount) =
        gs.map (peerGoroutine.request uid msgCount)
  | _, [], sh => ⟨[], by simp [peerStepAt, startedRequests]⟩
  | 0, g :: gs, sh => by
    obtain ⟨h1, h2, h3⟩ := peerGoroutine.step_spec env uid msgCount g sh
    have hreq : peerGoroutine.request uid msgCount (g.step env uid msgCount sh).1 =
        peerGoroutine.request uid msgCount g := by
      simp [peerGoroutine.request, h1, h2]
    rcases h3 with ⟨hs, hs1, ht⟩ | ⟨hs1, hs, ht⟩
    · refine ⟨[.requestSyncMessage g.pID g.reqs uid msgCount], by simpa [peerStepAt] using ht,
        ?_, by simp [peerStepAt, hreq]⟩
      simp only [peerStepAt, startedRequests, List.filter_cons, hs1, hs, if_true,
        Bool.false_eq_true, if_false, List.map_cons, hreq]
      simp only [peerGoroutine.request]
      exact (List.perm_append_singleton _ _).symm
    · refine ⟨[], by simpa [peerStepAt] using ht, ?_, by simp [peerStepAt, hreq]⟩
      rw [hs] at hs1
      simp [peerStepAt, startedRequests, List.filter_cons, hs1, hs, hreq]
  | i + 1, g :: gs, sh => by
    obtain ⟨new, h1, h2, h3⟩ := peerStepAt_spec env uid msgCount i gs sh
    refine ⟨new, by simpa [peerStepAt] using h1, ?_, by simp [peerStepAt, h3]⟩
    simp only [peerStepAt, startedRequests, List.filter_cons]
    by_cases hg : g.started = true
    · simp only [hg, if_true, List.map_cons, List.cons_append]
      exact List.Perm.cons _ h2
    · simp only [hg, if_false]
      exact h2

theorem runSchedule_spec (env : Env) (uid : String) (msgCount : Int) :
    ∀ (schedule : List Nat) (gs : List peerGoroutine) (sh : peerShared),
    ∃ new : List Effect,
      (runSchedule env uid msgCount schedule gs sh).2.trace = sh.trace ++ new ∧
      (startedRequests uid msgCount (runSchedule env uid msgCount schedule gs sh).1).Perm
        (startedRequests uid msgCount gs ++ new) ∧
      (runSchedule env uid msgCount schedule gs sh).1.map (peerGoroutine.request uid msgCount) =
        gs.map (peerGoroutine.request uid msgCount)
  | [], gs, sh => ⟨[], by simp [runSchedule]⟩
  | i :: rest, gs, sh => by
    obtain ⟨new1, a1, a2, a3⟩ := peerStepAt_spec env uid msgCount i gs sh
    obtain ⟨new2, b1, b2, b3⟩ := runSchedule_spec env uid msgCount rest
      (peerStepAt env uid msgCount i gs sh).1 (peerStepAt env uid msgCount i gs sh).2
    refine ⟨new1 ++ new2, ?_, ?_, ?_⟩
    · simp only [runSchedule]
      rw [b1, a1, List.append_assoc]
    · simp only [runSchedule]
      refine b2.trans ?_
      rw [← List.append_assoc]
      exact List.Perm.append_right _ a2
    · simp only [runSchedule]
      rw [b3, a3]

theorem peerGoroutine.step_started (env : Env) (uid : String) (msgCount : Int)
    (g : peerGoroutine) (sh : peerShared) (h : g.started = true) :
    (g.step env uid msgCount sh).1.started = true ∧
    (g.step env uid msgCount sh).2.trace = sh.trace := by
  rcases (peerGoroutine.step_spec env uid msgCount g sh).2.2 with ⟨hs, _, _⟩ | ⟨hs1, _, ht⟩
  · rw [h] at hs; cases hs
  · exact ⟨by rw [hs1, h], ht⟩

theorem finishAll_spec (env : Env) (uid : String) (msgCount : Int) :
    ∀ (gs : List peerGoroutine) (sh : peerShared),
    ∃ new : List Effect,
      (finishAll env uid msgCount gs sh).trace = sh.trace ++ new ∧
      (gs.map (peerGoroutine.request uid msgCount)).Perm
        (startedRequests uid msgCount gs ++ new)
  | [], sh => ⟨[], by simp [finishAll, startedRequests]⟩
  | g :: gs, sh => by
    obtain ⟨new, h1, h2⟩ := finishAll_spec env uid msgCount gs
      (((g.step env uid msgCount sh).1.step env uid msgCount
        (g.step env uid msgCount sh).2).1.step env uid msgCount
          ((g.step env uid msgCount sh).1.step env uid msgCount
            (g.step env uid msgCount sh).2).2).2
    obtain ⟨_, _, h3⟩ := peerGoroutine.step_spec env uid msgCount g sh
    have hstarted1 : (g.step env uid msgCount sh).1.started = true := by
      rcases h3 with ⟨_, hs1, _⟩ | ⟨hs1, hs, _⟩
      · exact hs1
      · rw [hs1, hs]
    obtain ⟨hstarted2, ht2⟩ := peerGoroutine.step_started env uid msgCount
      (g.step env uid msgCount sh).1 (g.step env uid msgCount sh).2 hstarted1
    obtain ⟨_, ht3⟩ := peerGoroutine.step_started env uid msgCount
      ((g.step env uid msgCount sh).1.step env uid msgCount (g.step env uid msgCount sh).2).1
      ((g.step env uid msgCount sh).1.step env uid msgCount (g.step env uid msgCount sh).2).2
      hstarted2
    rw [ht3, ht2] at h1
    rcases h3 with ⟨hs, _, ht⟩ | ⟨_, hs, ht⟩
    · refine ⟨.requestSyncMessage g.pID g.reqs uid msgCount :: new, ?_, ?_⟩
      · simp only [finishAll]
        rw [h1, ht]
        simp
      · simp only [List.map_cons, startedRequests, List.filter_cons, hs, Bool.false_eq_true,
          if_false]
        refine List.Perm.trans ?_ List.perm_middle.symm
        exact List.Perm.cons _ h2
    · refine ⟨new, ?_, ?_⟩
      · simp only [finishAll]
        rw [h1, ht]
      · simp only [List.map_cons, startedRequests, List.filter_cons, hs, if_true,
          List.cons_append]
        exact List.Perm.cons _ h2

/-- The effects of the goroutines: one request for every key of the map, in
the order the schedule gives. -/
theorem requestPeers_requests (env : Env) (uid : String) (msgCount : Int) (peers : PeerReqs)
    (t : List Effect) :
    ∃ new : List Effect,
      (requestPeers env uid msgCount peers t).1 = t ++ new ∧
      new.Perm (peers.map fun p => Effect.requestSyncMessage p.1 p.2 uid msgCount) := by
  obtain ⟨new1, a1, a2, a3⟩ := runSchedule_spec env uid msgCount env.schedule
    (peers.map fun p => ({ pID := p.1, reqs := p.2, pc := .waiting } : peerGoroutine))
    { trace := t, channelRecentMessages := [], reqErr := none }
  obtain ⟨new2, b1, b2⟩ := finishAll_spec env uid msgCount
    (runSchedule env uid msgCount env.schedule
      (peers.map fun p => ({ pID := p.1, reqs := p.2, pc := .waiting } : peerGoroutine))
      { trace := t, channelRecentMessages := [], reqErr := none }).1
    (runSchedule env uid msgCount env.schedule
      (peers.map fun p => ({ pID := p.1, reqs := p.2, pc := .waiting } : peerGoroutine))
      { trace := t, channelRecentMessages := [], reqErr := none }).2
  have hnone : ∀ ps : PeerReqs, startedRequests uid msgCount
      (ps.map fun p => ({ pID := p.1, reqs := p.2, pc := .waiting } : peerGoroutine)) = [] := by
    intro ps
    induction ps with
    | nil => rfl
    | cons p rest ih =>
      simp only [startedRequests, List.map_cons, List.filter_cons, peerGoroutine.started,
        Bool.false_eq_true, if_false] at ih ⊢
      exact ih
  rw [hnone peers, List.nil_append] at a2
  refine ⟨new1 ++ new2, ?_, ?_⟩
  · simp only [requestPeers]
    rw [b1, a1, List.append_assoc]
  · rw [a3] at b2
    have hmap : (peers.map fun p => ({ pID := p.1, reqs := p.2, pc := .waiting } :
        peerGoroutine)).map (peerGoroutine.request uid msgCount) =
        peers.map fun p => Effect.requestSyncMessage p.1 p.2 uid msgCount := by
      simp [List.map_map, Function.comp, peerGoroutine.request]
    rw [hmap] at b2
    exact ((List.Perm.append_right new2 a2).symm.trans b2.symm)

theorem requestPeers_trace (P : Effect → Prop) (env : Env) (uid : String) (msgCount : Int)
    (h1 : ∀ a b c d, P (.requestSyncMessage a b c d))
    (peers : PeerReqs) (t : List Effect) (ht : ∀ e ∈ t, P e) :
    ∀ e ∈ (requestPeers env uid msgCount peers t).1, P e := by
  obtain ⟨new, hnew, hperm⟩ := requestPeers_requests env uid msgCount peers t
  intro e he
  rw [hnew] at he
  rcases List.mem_append.1 he with h | h
  · exact ht e h
  · obtain ⟨p, _, hp⟩ := List.mem_map.1 (hperm.subset h)
    rw [← hp]
    exact h1 _ _ _ _

theorem getRecentMessagesForCluster_trace (P : Effect → Prop) (env : Env) (uid : String)
    (msgCount : Int) (orderByLast : Bool)
    (h1 : ∀ a b c d, P (.storeLoadLastMsgsWithEnd a b c d))
    (h2 : ∀ a b c d e, P (.storeLoadNextRangeMsgs a b c d e))
    (h3 : ∀ a b, P (.leaderOfChannelForRead a b))
    (h4 : ∀ a b c d, P (.requestSyncMessage a b c d))
    (channels : List channelRecentMessageReq) :
    ∀ e ∈ (getRecentMessagesForCluster env uid msgCount channels orderByLast).1, P e := by
  unfold getRecentMessagesForCluster
  split
  · intro e he; cases he
  · have hg := groupByLeader_trace P env uid h3 channels [] [] [] (by intro e he; cases he)
    split
    · rename_i heq
      rw [heq] at hg
      exact hg
    · rename_i t localReqs peers heq
      rw [heq] at hg
      have hp := requestPeers_trace P env uid msgCount h4 peers t hg
      split
      · rename_i heq2
        rw [heq2] at hp
        exact hp
      · rename_i t1 crms heq2
        rw [heq2] at hp
        have hl := getRecentMessages_trace P env uid msgCount orderByLast h1 h2 localReqs
        split
        · split
          · rename_i heq3
            rw [heq3] at hl
            intro e he
            rcases List.mem_append.1 he with h | h
            · exact hp e h
            · exact hl e h
          · rename_i heq3
            rw [heq3] at hl
            intro e he
            rcases List.mem_append.1 he with h | h
            · exact hp e h
            · exact hl e h
        · exact hp

/-! ## The slot-leader gate -/

theorem slotLeaderGate_cases (env : Env) (c : Context) (uid : String) (body : List Nat) :
    slotLeaderGate env c uid body = ([], false) ∨
    slotLeaderGate env c uid body = ([.slotLeaderOfChannel uid ChannelTypePerson], false) ∨
    slotLeaderGate env c uid body =
      ([.slotLeaderOfChannel uid ChannelTypePerson,
        .responseError (.other "获取频道所在节点失败！")], true) ∨
    ∃ leader : NodeInfo, env.ClusterOn = true ∧
      env.SlotLeaderOfChannel uid ChannelTypePerson = .ok leader ∧ leader.Id ≠ env.NodeId ∧
      slotLeaderGate env c uid body =
        ([.slotLeaderOfChannel uid ChannelTypePerson,
          .forwardWithBody (leader.ApiServerAddr ++ c.Path) body], true) := by
  unfold slotLeaderGate
  cases hon : env.ClusterOn with
  | false => left; simp
  | true =>
    cases hl : env.SlotLeaderOfChannel uid ChannelTypePerson with
    | error err => right; right; left; simp
    | ok leader =>
      by_cases hid : leader.Id = env.NodeId
      · right; left; simp [hid]
      · right; right; right
        exact ⟨leader, rfl, rfl, hid, by simp [hid]⟩

theorem slotLeaderGate_open (env : Env) (c : Context) (uid : String) (body : List Nat)
    (h : (slotLeaderGate env c uid body).2 = false) :
    ∀ e ∈ (slotLeaderGate env c uid body).1,
      e = Effect.slotLeaderOfChannel uid ChannelTypePerson := by
  rcases slotLeaderGate_cases env c uid body with h1 | h1 | h1 | ⟨_, _, _, _, h1⟩ <;>
    rw [h1] at h ⊢ <;> simp at h ⊢

theorem slotLeaderGate_closed (env : Env) (c : Context) (uid : String) (body : List Nat)
    (h : (slotLeaderGate env c uid body).2 = true) :
    ∀ e ∈ (slotLeaderGate env c uid body).1,
      e = Effect.slotLeaderOfChannel uid ChannelTypePerson ∨
      e = Effect.responseError (.other "获取频道所在节点失败！") ∨
      ∃ url, e = Effect.forwardWithBody url body := by
  rcases slotLeaderGate_cases env c uid body with h1 | h1 | h1 | ⟨_, _, _, _, h1⟩ <;>
    rw [h1] at h ⊢ <;> simp at h ⊢

theorem slotLeaderGate_forward (env : Env) (c : Context) (uid : String) (body : List Nat)
    (leader : NodeInfo) (hon : env.ClusterOn = true)
    (hl : env.SlotLeaderOfChannel uid ChannelTypePerson = .ok leader)
    (hne : leader.Id ≠ env.NodeId) :
    slotLeaderGate env c uid body =
      ([.slotLeaderOfChannel uid ChannelTypePerson,
        .forwardWithBody (leader.ApiServerAddr ++ c.Path) body], true) := by
  unfold slotLeaderGate
  simp [hon, hl, hne]

/-! ## syncUserConversation: the response -/

theorem attachRecents_nil (resps : List syncUserConversationResp) :
    attachRecents resps [] = resps := by
  simp [attachRecents]

/-- The response list of `syncUserConversation`: the responses of the merged
conversations with the recent messages attached. -/
theorem syncUserConversation_response (env : Env) (c : Context)
    (decode : List Nat → Except GoError syncUserConversationReq)
    (resps : List syncUserConversationResp)
    (h : Effect.responseConversations resps ∈ syncUserConversation env c decode) :
    ∃ (req : syncUserConversationReq) (persisted : List Conversation)
      (crms : List channelRecentMessage),
      decode c.Body = .ok req ∧
      env.GetLastConversations req.UID (toUint64 req.Version) env.UserMaxCount = .ok persisted ∧
      resps = attachRecents
        ((mergeCacheConversations persisted (env.GetUserConversationFromCache req.UID)).map
          (conversationRespOf env req.UID (getChannelLastMsgSeqMap req.LastMsgSeqs)
            (cacheConversationMapOf (env.GetUserConversationFromCache req.UID)))) crms := by
  unfold syncUserConversation BindJSON at h
  cases hd : decode c.Body with
  | error err => simp [hd] at h
  | ok req =>
    simp only [hd] at h
    by_cases hg : (slotLeaderGate env c req.UID c.Body).2 = true
    · simp only [hg, if_true] at h
      exfalso
      rcases slotLeaderGate_closed env c req.UID c.Body hg _ h with h1 | h1 | ⟨_, h1⟩ <;>
        cases h1
    · have hg2 : (slotLeaderGate env c req.UID c.Body).2 = false := by simpa using hg
      have hgate := slotLeaderGate_open env c req.UID c.Body hg2
      have hnotgate : Effect.responseConversations resps ∉
          (slotLeaderGate env c req.UID c.Body).1 := by
        intro hmem
        have := hgate _ hmem
        cases this
      simp only [hg2, Bool.false_eq_true, if_false] at h
      cases hp : env.GetLastConversations req.UID (toUint64 req.Version) env.UserMaxCount with
      | error err =>
        simp only [hp] at h
        simp [hnotgate] at h
      | ok persisted =>
        simp only [hp] at h
        have hP1 : ∀ (msgCount : Int) (reqs : List channelRecentMessageReq),
            Effect.responseConversations resps ∉
              (getRecentMessages env req.UID msgCount reqs true).1 := by
          intro msgCount reqs hmem
          exact getRecentMessages_trace (fun e => e ≠ Effect.responseConversations resps)
            env req.UID msgCount true (by intros; simp) (by intros; simp) reqs _ hmem rfl
        have hP2 : ∀ (msgCount : Int) (reqs : List channelRecentMessageReq),
            Effect.responseConversations resps ∉
              (getRecentMessagesForCluster env req.UID msgCount reqs true).1 := by
          intro msgCount reqs hmem
          exact getRecentMessagesForCluster_trace
            (fun e => e ≠ Effect.responseConversations resps)
            env req.UID msgCount true (by intros; simp) (by intros; simp) (by intros; simp)
            (by intros; simp) reqs _ hmem rfl
        have hP : ∀ (msgCount : Int) (reqs : List channelRecentMessageReq),
            Effect.responseConversations resps ∉ (fetchRecent env req.UID msgCount reqs).1 := by
          intro msgCount reqs
          unfold fetchRecent
          split
          · exact hP2 _ _
          · exact hP1 _ _
        split at h
        · split at h
          · rename_i hfetch
            simp only [List.mem_append, List.mem_singleton, List.mem_cons, List.not_mem_nil,
              or_false, reduceCtorEq, hnotgate, false_or] at h
            exact absurd h (hP _ _)
          · rename_i crms hfetch
            simp only [List.mem_append, List.mem_singleton, List.mem_cons, List.not_mem_nil,
              or_false, reduceCtorEq, hnotgate, false_or] at h
            rcases h with h | h
            · exact absurd h (hP _ _)
            · refine ⟨req, persisted, crms, rfl, hp, ?_⟩
              simpa using h
        · simp only [List.mem_append, List.mem_singleton, List.mem_cons, List.not_mem_nil,
            or_false, reduceCtorEq, hnotgate, false_or] at h
          refine ⟨req, persisted, [], rfl, hp, ?_⟩
          rw [attachRecents_nil]
          simpa using h

/-! ## Decimal numerals -/

theorem digitChar_digit (d : Nat) (h : d < 10) :
    (Nat.digitChar d).isDigit = true ∧ digitValue (Nat.digitChar d) = d := by
  interval_cases d <;> decide

theorem isDigit_ne_minus (c : Char) (h : c.isDigit = true) : c ≠ '-' ∧ c ≠ '+' ∧ c ≠ ':' ∧ c ≠ '|' := by
  refine ⟨?_, ?_, ?_, ?_⟩ <;> (intro hc; subst hc; revert h; decide)

theorem toDigitsCore_isDigit (fuel : Nat) :
    ∀ (n : Nat) (ds : List Char), (∀ c ∈ ds, c.isDigit = true) →
      ∀ c ∈ Nat.toDigitsCore 10 fuel n ds, c.isDigit = true := by
  induction fuel with
  | zero => intro n ds h; simpa [Nat.toDigitsCore] using h
  | succ fuel ih =>
    intro n ds h
    have hd := (digitChar_digit (n % 10) (Nat.mod_lt _ (by decide))).1
    have hcons : ∀ c ∈ Nat.digitChar (n % 10) :: ds, c.isDigit = true := by
      intro c hc
      rcases List.mem_cons.1 hc with h1 | h1
      · rw [h1]; exact hd
      · exact h c h1
    unfold Nat.toDigitsCore
    dsimp only
    split
    · exact hcons
    · exact ih _ _ hcons

theorem decimalValue_toDigitsCore (fuel : Nat) :
    ∀ (n : Nat) (ds : List Char), n < fuel →
      decimalValue (Nat.toDigitsCore 10 fuel n ds) 0 = decimalValue ds n := by
  induction fuel with
  | zero => intro n ds h; omega
  | succ fuel ih =>
    intro n ds h
    have hd := (digitChar_digit (n % 10) (Nat.mod_lt _ (by decide))).2
    unfold Nat.toDigitsCore
    dsimp only
    split
    · rename_i hz
      simp only [decimalValue, List.foldl_cons, hd]
      congr 1
      omega
    · rename_i hz
      rw [ih (n / 10) _ (by omega)]
      simp only [decimalValue, List.foldl_cons, hd]
      congr 1
      omega

theorem decimalValue_toDigits (n : Nat) : decimalValue (Nat.toDigits 10 n) 0 = n := by
  unfold Nat.toDigits
  rw [decimalValue_toDigitsCore (n + 1) n [] (by omega)]
  rfl

theorem toDigits_isDigit (n : Nat) : ∀ c ∈ Nat.toDigits 10 n, c.isDigit = true :=
  toDigitsCore_isDigit (n + 1) n [] (by intro c hc; cases hc)

theorem toDigits_ne_nil (n : Nat) : Nat.toDigits 10 n ≠ [] := by
  intro h
  have hv := decimalValue_toDigits n
  rw [h] at hv
  have hn : n = 0 := by simpa [decimalValue] using hv.symm
  subst hn
  revert h
  decide

theorem toDigits_injective (m n : Nat) (h : Nat.toDigits 10 m = Nat.toDigits 10 n) : m = n := by
  rw [← decimalValue_toDigits m, ← decimalValue_toDigits n, h]

theorem le_decimalValue (cs : List Char) : ∀ acc : Nat, acc ≤ decimalValue cs acc := by
  induction cs with
  | nil => intro acc; exact le_refl _
  | cons c cs ih =>
    intro acc
    have := ih (acc * 10 + digitValue c)
    simp only [decimalValue, List.foldl_cons] at this ⊢
    omega

theorem parseUintLoop_digits (cs : List Char) :
    ∀ acc : Nat, (∀ c ∈ cs, c.isDigit = true) → decimalValue cs acc < 2 ^ 64 →
      parseUintLoop cs acc = (decimalValue cs acc, none) := by
  induction cs with
  | nil => intro acc _ _; rfl
  | cons c cs ih =>
    intro acc hd hlt
    have hc : c.isDigit = true := hd c (List.mem_cons_self _ _)
    have hle := le_decimalValue cs (acc * 10 + digitValue c)
    have hlt2 : decimalValue cs (acc * 10 + digitValue c) < 2 ^ 64 := by
      simpa [decimalValue] using hlt
    unfold parseUintLoop
    simp only [hc, Bool.not_true, Bool.false_eq_true, if_false]
    norm_num at hlt2 hle ⊢
    have h1 : ¬ (1844674407370955162 ≤ acc) := by omega
    have h2 : ¬ (18446744073709551615 < acc * 10 + digitValue c) := by omega
    simp only [h1, h2, if_false]
    rw [ih _ (fun x hx => hd x (List.mem_cons_of_mem _ hx)) (by norm_num; exact hlt2)]
    simp [decimalValue]

/-- Go `strconv.ParseUint` reads back the decimal form of a `uint64`. -/
theorem ParseUint_toDigits (n : Nat) (h : n < 2 ^ 64) :
    ParseUint (Nat.toDigits 10 n) = (n, none) := by
  unfold ParseUint
  rw [if_neg (toDigits_ne_nil n),
    parseUintLoop_digits _ 0 (toDigits_isDigit n) (by rw [decimalValue_toDigits]; exact h),
    decimalValue_toDigits]

theorem toString_nat_data (n : Nat) : (toString n).data = Nat.toDigits 10 n := rfl

theorem toString_int_data (t : Int) :
    (toString t).data =
      if 0 ≤ t then Nat.toDigits 10 t.toNat else '-' :: Nat.toDigits 10 (-t).toNat := by
  cases t with
  | ofNat m => simp [toString_nat_data]; rfl
  | negSucc m =>
    have : ¬ (0 ≤ Int.negSucc m) := by simp
    simp only [this, if_false]
    rfl

/-- Go `strconv.Atoi` reads back the decimal form of a Go `int`. -/
theorem Atoi_toString (t : Int) (hlo : -(2 ^ 63) ≤ t) (hhi : t < 2 ^ 63) :
    Atoi (toString t).data = (t, none) := by
  rw [toString_int_data]
  unfold Atoi ParseInt
  by_cases h0 : 0 ≤ t
  · simp only [h0, if_true]
    have hne := toDigits_ne_nil t.toNat
    have hdig := toDigits_isDigit t.toNat
    have hparse := ParseUint_toDigits t.toNat (by omega)
    cases hds : Nat.toDigits 10 t.toNat with
    | nil => exact absurd hds hne
    | cons c cs =>
      rw [hds] at hdig hparse
      have hc := isDigit_ne_minus c (hdig c (List.mem_cons_self _ _))
      have h1 : (c == '-') = false := by simpa using hc.1
      have h2 : (c == '+') = false := by simpa using hc.2.1
      have h3 : ¬ (t.toNat ≥ 2 ^ 63) := by omega
      simp only [h1, h2, Bool.or_self, Bool.false_eq_true, if_false, hparse, Bool.not_false,
        Bool.true_and, Bool.false_and, decide_eq_true_eq, h3, reduceCtorEq]
      congr 1
      omega
  · simp only [h0, if_false]
    have hparse := ParseUint_toDigits (-t).toNat (by omega)
    have h3 : ¬ ((-t).toNat > 2 ^ 63) := by omega
    simp only [beq_self_eq_true, Bool.or_true, if_true, hparse, Bool.not_true, Bool.false_and,
      Bool.true_and, decide_eq_true_eq, h3, Bool.false_eq_true, if_false, reduceCtorEq]
    congr 1
    omega

theorem append_minus_injective (l₁ l₂ d₁ d₂ : List Char) (h1 : '-' ∉ d₁) (h2 : '-' ∉ d₂)
    (h : l₁ ++ '-' :: d₁ = l₂ ++ '-' :: d₂) : l₁ = l₂ ∧ d₁ = d₂ := by
  induction l₁ generalizing l₂ with
  | nil =>
    cases l₂ with
    | nil => simpa using h
    | cons b l₂ =>
      exfalso
      simp only [List.nil_append, List.cons_append, List.cons.injEq] at h
      apply h1
      rw [h.2]
      simp
  | cons a l₁ ih =>
    cases l₂ with
    | nil =>
      exfalso
      simp only [List.nil_append, List.cons_append, List.cons.injEq] at h
      apply h2
      rw [← h.2]
      simp
    | cons b l₂ =>
      simp only [List.cons_append, List.cons.injEq] at h
      obtain ⟨hl, hd⟩ := ih l₂ h.2
      exact ⟨by rw [h.1, hl], hd⟩

theorem minus_not_mem_toDigits (n : Nat) : '-' ∉ Nat.toDigits 10 n := by
  intro h
  exact (isDigit_ne_minus _ (toDigits_isDigit n _ h)).1 rfl

theorem channelKey_data (channelId : String) (t : Int) :
    (channelKey channelId t).data = channelId.data ++ '-' :: (toString t).data := by
  simp [channelKey, String.data_append]

/-- The key of a channel determines the channel, for a `uint8` channel type. -/
theorem channelKey_injective (id₁ id₂ : String) (t₁ t₂ : Nat)
    (h : channelKey id₁ (t₁ : Int) = channelKey id₂ (t₂ : Int)) : id₁ = id₂ ∧ t₁ = t₂ := by
  have hd := congrArg String.data h
  rw [channelKey_data, channelKey_data] at hd
  have e1 : (toString ((t₁ : Nat) : Int)).data = Nat.toDigits 10 t₁ := rfl
  have e2 : (toString ((t₂ : Nat) : Int)).data = Nat.toDigits 10 t₂ := rfl
  rw [e1, e2] at hd
  obtain ⟨hl, hdig⟩ := append_minus_injective _ _ _ _ (minus_not_mem_toDigits t₁)
    (minus_not_mem_toDigits t₂) hd
  exact ⟨String.ext hl, toDigits_injective _ _ hdig⟩

/-! ## syncUserConversation: the effective sequence -/

theorem cacheConversationMap_foldl (cache : List Conversation) :
    ∀ m : SeqMap,
      cache.foldl
        (fun m cacheConversation =>
          if cacheConversation.ReadedToMsgSeq > 0 then
            m.set (channelKey cacheConversation.ChannelId cacheConversation.ChannelType)
              cacheConversation.ReadedToMsgSeq
          else m) m = cache.reverse.filterMap cacheEntryOf ++ m := by
  induction cache with
  | nil => intro m; rfl
  | cons cc rest ih =>
    intro m
    rw [List.foldl_cons, ih, List.reverse_cons, List.filterMap_append]
    by_cases h : cc.ReadedToMsgSeq > 0
    · simp [cacheEntryOf, h, SeqMap.set]
    · simp [cacheEntryOf, h]

theorem lookup_cacheEntries (channelId : String) (channelType : Nat) (l : List Conversation) :
    List.lookup (channelKey channelId channelType) (l.filterMap cacheEntryOf) =
      (l.find? fun cacheConversation =>
        cacheConversation.ChannelId == channelId && cacheConversation.ChannelType == channelType &&
          decide (cacheConversation.ReadedToMsgSeq > 0)).map (·.ReadedToMsgSeq) := by
  induction l with
  | nil => rfl
  | cons cc rest ih =>
    by_cases h : cc.ReadedToMsgSeq > 0
    · have hf : cacheEntryOf cc =
          some (channelKey cc.ChannelId cc.ChannelType, cc.ReadedToMsgSeq) := by
        simp [cacheEntryOf, h]
      rw [List.filterMap_cons, hf]
      simp only [List.lookup_cons, List.find?_cons]
      by_cases hk : cc.ChannelId = channelId ∧ cc.ChannelType = channelType
      · obtain ⟨h1, h2⟩ := hk
        subst h1 h2
        simp [h]
      · have hne : (channelKey channelId (channelType : Int) ==
            channelKey cc.ChannelId (cc.ChannelType : Int)) = false := by
          rw [beq_eq_false_iff_ne]
          intro heq
          obtain ⟨e1, e2⟩ := channelKey_injective _ _ _ _ heq
          exact hk ⟨e1.symm, e2.symm⟩
        have hp : (cc.ChannelId == channelId && cc.ChannelType == channelType &&
            decide (cc.ReadedToMsgSeq > 0)) = false := by
          rw [Bool.and_eq_false_iff, Bool.and_eq_false_iff]
          left
          by_cases h1 : cc.ChannelId = channelId
          · right
            have h2 : cc.ChannelType ≠ channelType := fun h2 => hk ⟨h1, h2⟩
            simpa using h2
          · left
            simpa using h1
        rw [hne, hp]
        exact ih
    · have hf : cacheEntryOf cc = none := by simp [cacheEntryOf, h]
      rw [List.filterMap_cons, hf]
      simp only [List.find?_cons]
      have hp : (cc.ChannelId == channelId && cc.ChannelType == channelType &&
          decide (cc.ReadedToMsgSeq > 0)) = false := by
        simp [h]
      rw [hp]
      exact ih

/-- The lookup of `cacheConversationMap` under the key of a channel is the read
position the cache holds for the channel. -/
theorem cacheConversationMap_get (cache : List Conversation) (channelId : String)
    (channelType : Nat) :
    (cacheConversationMapOf cache).get (channelKey channelId channelType) =
      cachedReaded cache channelId channelType := by
  unfold cacheConversationMapOf SeqMap.get SeqMap.get? cachedReaded
  rw [cacheConversationMap_foldl, List.append_nil, lookup_cacheEntries]
  cases List.find? _ cache.reverse <;> rfl

theorem effectiveMsgSeq_eq_max (env : Env) (uid : String) (channelLastMsgMap : SeqMap)
    (cache : List Conversation) (conversation : Conversation) :
    effectiveMsgSeq env uid channelLastMsgMap (cacheConversationMapOf cache) conversation =
      max (max (channelLastMsgMap.get
            (channelKey (realChannelIdOf env uid conversation) conversation.ChannelType))
          (cachedReaded cache conversation.ChannelId conversation.ChannelType))
        conversation.ReadedToMsgSeq := by
  unfold effectiveMsgSeq
  rw [cacheConversationMap_get]
  dsimp only
  split <;> split <;> omega

theorem attachRecent_readed (resp : syncUserConversationResp) (crm : channelRecentMessage) :
    (attachRecent resp crm).ReadedToMsgSeq = resp.ReadedToMsgSeq := by
  unfold attachRecent
  split
  · dsimp only
    split
    · split <;> rfl
    · rfl
  · rfl

theorem attachRecent_channel (resp : syncUserConversationResp) (crm : channelRecentMessage) :
    (attachRecent resp crm).ChannelID = resp.ChannelID ∧
    (attachRecent resp crm).ChannelType = resp.ChannelType := by
  unfold attachRecent
  split
  · dsimp only
    split
    · split <;> exact ⟨rfl, rfl⟩
    · exact ⟨rfl, rfl⟩
  · exact ⟨rfl, rfl⟩

theorem foldl_attachRecent_channel (crms : List channelRecentMessage) :
    ∀ resp : syncUserConversationResp,
      (crms.foldl attachRecent resp).ChannelType = resp.ChannelType := by
  induction crms with
  | nil => intro resp; rfl
  | cons crm rest ih =>
    intro resp
    rw [List.foldl_cons, ih, (attachRecent_channel resp crm).2]

theorem foldl_attachRecent_readed (crms : List channelRecentMessage) :
    ∀ resp : syncUserConversationResp,
      (crms.foldl attachRecent resp).ReadedToMsgSeq = resp.ReadedToMsgSeq := by
  induction crms with
  | nil => intro resp; rfl
  | cons crm rest ih =>
    intro resp
    rw [List.foldl_cons, ih, attachRecent_readed]

/-! ## syncUserConversation: the shape of the merged list -/

theorem newCacheEntries_sublist (persisted cache : List Conversation) :
    (newCacheEntries persisted cache).Sublist cache := by
  have h : (cache.inits.zip cache).map Prod.snd = cache :=
    List.map_snd_zip _ _ (by simp [List.length_inits])
  unfold newCacheEntries
  have hs : (List.filter (fun p : List Conversation × Conversation =>
      !existsIn (persisted ++ p.1) p.2) (cache.inits.zip cache)).Sublist
      (cache.inits.zip cache) := List.filter_sublist _
  have hm := hs.map Prod.snd
  rw [h] at hm
  exact hm

theorem existsIn_mergeStep (acc : List Conversation) (cc x : Conversation)
    (h : existsIn acc x = true) : existsIn (mergeStep acc cc) x = true := by
  unfold mergeStep
  split
  · exact h
  · rw [existsIn_append, h]
    rfl

theorem existsIn_foldl_mergeStep (rest : List Conversation) :
    ∀ acc : List Conversation,
      (∀ x, existsIn acc x = true → existsIn (rest.foldl mergeStep acc) x = true) ∧
      ∀ cc ∈ rest, existsIn (rest.foldl mergeStep acc) cc = true := by
  induction rest with
  | nil =>
    intro acc
    exact ⟨fun _ h => h, fun cc hcc => by cases hcc⟩
  | cons c r ih =>
    intro acc
    obtain ⟨hmono, hall⟩ := ih (mergeStep acc c)
    refine ⟨fun x hx => hmono x (existsIn_mergeStep acc c x hx), ?_⟩
    intro cc hcc
    rcases List.mem_cons.1 hcc with h | h
    · subst h
      apply hmono
      unfold mergeStep
      split
      · assumption
      · rw [existsIn_append]
        simp [existsIn]
    · exact hall cc h

theorem pairwise_foldl_mergeStep (rest : List Conversation) :
    ∀ acc : List Conversation, acc.Pairwise distinctChannel →
      (rest.foldl mergeStep acc).Pairwise distinctChannel := by
  induction rest with
  | nil => intro acc h; exact h
  | cons c r ih =>
    intro acc h
    apply ih
    unfold mergeStep
    split
    · exact h
    · rename_i hex
      rw [List.pairwise_append]
      refine ⟨h, List.pairwise_singleton _ _, ?_⟩
      intro a ha b hb
      rw [List.mem_singleton.1 hb]
      intro hsame
      apply hex
      rw [existsIn_iff]
      exact ⟨a, ha, hsame.1.symm, hsame.2.symm⟩

/-! ## getChannelLastMsgSeqMap against its reference -/

theorem lastMsgSeqStep_eq (m : SeqMap) (segment : List Char) :
    lastMsgSeqStep m segment = (segmentEntry segment).toList ++ m := by
  unfold lastMsgSeqStep segmentEntry
  split <;> simp_all [SeqMap.set]

theorem foldl_lastMsgSeqStep (segments : List (List Char)) :
    ∀ m : SeqMap,
      segments.foldl lastMsgSeqStep m = (segments.filterMap segmentEntry).reverse ++ m := by
  induction segments with
  | nil => intro m; rfl
  | cons seg rest ih =>
    intro m
    rw [List.foldl_cons, ih, lastMsgSeqStep_eq]
    cases h : segmentEntry seg <;> simp [List.filterMap_cons, h]

theorem lookup_eq_find (key : String) (l : List (String × Nat)) :
    List.lookup key l = (l.find? fun e => e.1 == key).map (·.2) := by
  induction l with
  | nil => rfl
  | cons e rest ih =>
    obtain ⟨k, v⟩ := e
    simp only [List.lookup_cons, List.find?_cons]
    by_cases h : key = k
    · subst h
      simp
    · have h1 : (key == k) = false := by simpa using h
      have h2 : (k == key) = false := by simpa using fun h' : k = key => h h'.symm
      rw [h1, h2]
      exact ih

theorem getChannelLastMsgSeqMap_eq_reference (lastMsgSeqs key : String) :
    (getChannelLastMsgSeqMap lastMsgSeqs).get? key = lastMsgSeqReference lastMsgSeqs key := by
  unfold getChannelLastMsgSeqMap SeqMap.get? lastMsgSeqReference
  rw [foldl_lastMsgSeqStep, List.append_nil, lookup_eq_find]

theorem toString_int_chars (t : Int) :
    ∀ ch ∈ (toString t).data, ch ≠ ':' ∧ ch ≠ '|' := by
  intro ch hch
  rw [toString_int_data] at hch
  split at hch
  · have := isDigit_ne_minus ch (toDigits_isDigit _ ch hch)
    exact ⟨this.2.2.1, this.2.2.2⟩
  · rcases List.mem_cons.1 hch with h | h
    · subst h
      exact ⟨by decide, by decide⟩
    · have := isDigit_ne_minus ch (toDigits_isDigit _ ch h)
      exact ⟨this.2.2.1, this.2.2.2⟩

theorem toString_nat_chars (n : Nat) :
    ∀ ch ∈ (toString n).data, ch ≠ ':' ∧ ch ≠ '|' := by
  intro ch hch
  rw [toString_nat_data] at hch
  have := isDigit_ne_minus ch (toDigits_isDigit _ ch hch)
  exact ⟨this.2.2.1, this.2.2.2⟩

theorem Triple.render_no_pipe (t : Triple) (h : t.wellFormed) : '|' ∉ t.render := by
  unfold Triple.render
  intro hm
  simp only [List.mem_append, List.mem_cons] at hm
  rcases hm with hm | hm | hm | hm | hm
  · exact h.2.1 hm
  · exact absurd hm (by decide)
  · exact (toString_int_chars t.ctype _ hm).2 rfl
  · exact absurd hm (by decide)
  · exact (toString_nat_chars t.seq _ hm).2 rfl

theorem Triple.split_render (t : Triple) (h : t.wellFormed) :
    stringsSplit t.render ':' = [t.cid.data, (toString t.ctype).data, (toString t.seq).data] := by
  have hr : t.render =
      [':'].intercalate [t.cid.data, (toString t.ctype).data, (toString t.seq).data] := by
    simp [Triple.render, List.intercalate]
  rw [hr, stringsSplit]
  apply List.splitOn_intercalate
  · intro l hl
    simp only [List.mem_cons, List.mem_singleton, List.not_mem_nil, or_false] at hl
    rcases hl with hl | hl | hl
    · rw [hl]; exact h.1
    · rw [hl]; exact fun hm => (toString_int_chars t.ctype _ hm).1 rfl
    · rw [hl]; exact fun hm => (toString_nat_chars t.seq _ hm).1 rfl
  · simp

theorem Triple.segmentEntry_render (t : Triple) (h : t.wellFormed) :
    segmentEntry t.render = some (t.key, t.seq) := by
  unfold segmentEntry
  rw [Triple.split_render t h]
  simp only [Atoi_toString t.ctype h.2.2.1 h.2.2.2.1, toString_nat_data,
    ParseUint_toDigits t.seq h.2.2.2.2]
  rfl

theorem split_renderTriples (ts : List Triple) (h : ∀ t ∈ ts, t.wellFormed) (hne : ts ≠ []) :
    stringsSplit (renderTriples ts).data '|' = ts.map Triple.render := by
  unfold renderTriples stringsSplit
  apply List.splitOn_intercalate
  · intro l hl
    obtain ⟨t, ht, rfl⟩ := List.mem_map.1 hl
    exact Triple.render_no_pipe t (h t ht)
  · simpa using hne

theorem filterMap_segmentEntry_render (ts : List Triple) (h : ∀ t ∈ ts, t.wellFormed) :
    (ts.map Triple.render).filterMap segmentEntry = ts.map fun t => (t.key, t.seq) := by
  induction ts with
  | nil => rfl
  | cons t rest ih =>
    rw [List.map_cons, List.filterMap_cons, Triple.segmentEntry_render t (h t (List.mem_cons_self _ _)),
      ih (fun x hx => h x (List.mem_cons_of_mem _ hx))]
    rfl

theorem lookup_of_nodup (l : List (String × Nat)) (hn : (l.map Prod.fst).Nodup) (k : String)
    (v : Nat) : List.lookup k l = some v ↔ (k, v) ∈ l := by
  induction l with
  | nil => simp
  | cons e rest ih =>
    obtain ⟨k', v'⟩ := e
    simp only [List.map_cons, List.nodup_cons] at hn
    simp only [List.lookup_cons, List.mem_cons, Prod.mk.injEq]
    by_cases hk : k = k'
    · subst hk
      simp only [beq_self_eq_true, Option.some.injEq, true_and]
      constructor
      · intro hv; left; exact hv.symm
      · rintro (hv | hm)
        · exact hv.symm
        · exact absurd (List.mem_map.2 ⟨(k, v), hm, rfl⟩) hn.1
    · have h1 : (k == k') = false := by simpa using hk
      rw [h1]
      simp only [hk, false_and, false_or]
      exact ih hn.2

/-- C9: `getChannelLastMsgSeqMap` agrees with its reference on every input and
key; the empty string gives the empty map; and on the segments of well-formed
triples with pairwise different keys, joined by `|`, the map holds exactly
the keys of the triples, each with the sequence of its triple. -/
theorem getChannelLastMsgSeqMap_spec :
    (∀ lastMsgSeqs key : String,
      (getChannelLastMsgSeqMap lastMsgSeqs).get? key = lastMsgSeqReference lastMsgSeqs key) ∧
    getChannelLastMsgSeqMap "" = [] ∧
    ∀ ts : List Triple, (∀ t ∈ ts, t.wellFormed) → (ts.map Triple.key).Nodup →
      ∀ (k : String) (v : Nat),
        (getChannelLastMsgSeqMap (renderTriples ts)).get? k = some v ↔
          ∃ t ∈ ts, t.key = k ∧ t.seq = v := by
  refine ⟨getChannelLastMsgSeqMap_eq_reference, by decide, ?_⟩
  intro ts hwf hnd k v
  by_cases hne : ts = []
  · subst hne
    have : getChannelLastMsgSeqMap (renderTriples []) = [] := by decide
    rw [this]
    simp [SeqMap.get?]
  · unfold getChannelLastMsgSeqMap SeqMap.get?
    rw [foldl_lastMsgSeqStep, List.append_nil, split_renderTriples ts hwf hne,
      filterMap_segmentEntry_render ts hwf, lookup_of_nodup]
    · simp only [List.mem_reverse, List.mem_map, Prod.mk.injEq]
    · rw [← List.map_reverse, List.map_map]
      have : (Prod.fst ∘ fun t : Triple => (t.key, t.seq)) = Triple.key := rfl
      rw [this, List.map_reverse]
      exact List.nodup_reverse.2 hnd

/-- C9, on an input: the triples `bob:1:42` and `g1:2:7` give a map that holds
42 under `bob-1` and 7 under `g1-2`. -/
theorem getChannelLastMsgSeqMap_spec_witness :
    (getChannelLastMsgSeqMap (renderTriples [⟨"bob", 1, 42⟩, ⟨"g1", 2, 7⟩])).get? "bob-1" =
      some 42 ∧
    (getChannelLastMsgSeqMap (renderTriples [⟨"bob", 1, 42⟩, ⟨"g1", 2, 7⟩])).get? "g1-2" =
      some 7 :=
  ⟨(getChannelLastMsgSeqMap_spec.2.2 [⟨"bob", 1, 42⟩, ⟨"g1", 2, 7⟩]
      (by simp [Triple.wellFormed]) (by decide) "bob-1" 42).2
      ⟨⟨"bob", 1, 42⟩, by simp, by decide, rfl⟩,
   (getChannelLastMsgSeqMap_spec.2.2 [⟨"bob", 1, 42⟩, ⟨"g1", 2, 7⟩]
      (by simp [Triple.wellFormed]) (by decide) "g1-2" 7).2
      ⟨⟨"g1", 2, 7⟩, by simp, by decide, rfl⟩⟩

/-! ## Forwarding to the slot leader -/

/-- C10 as stated fails for `syncMessages`: on a node in cluster mode that is
not the slot leader of `alice`, `syncRecentMessages` reads the messages of her
channel with bob from the local store and answers; it forwards nothing. -/
theorem syncRecentMessages_reads_locally :
    peerEnv.ClusterOn = true ∧
    peerEnv.SlotLeaderOfChannel "alice" ChannelTypePerson =
      .ok { Id := 1, ApiServerAddr := "http://n1:5001" } ∧
    (1 : Nat) ≠ peerEnv.NodeId ∧
    syncRecentMessages peerEnv ⟨"/conversation/syncMessages", [123, 125]⟩ sampleSyncMessages =
      [.storeLoadLastMsgsWithEnd "alice@bob" 1 0 15,
       .responseRecentMessages [{ ChannelId := "bob", ChannelType := 1, Messages := [] }]] :=
  ⟨rfl, rfl, by decide, by decide⟩

theorem syncRecentMessages_no_forward (env : Env) (c : Context)
    (decode : List Nat → Except GoError syncRecentMessagesReq) :
    ∀ e ∈ syncRecentMessages env c decode, ∀ (url : String) (body : List Nat),
      e ≠ Effect.forwardWithBody url body := by
  intro e he url body
  unfold syncRecentMessages at he
  have hread : ∀ (uid : String) (n : Int) (chs : List channelRecentMessageReq),
      ∀ x ∈ (getRecentMessages env uid n chs true).1, x ≠ Effect.forwardWithBody url body :=
    fun uid n chs => getRecentMessages_trace (fun x => x ≠ Effect.forwardWithBody url body)
      env uid n true (by intros; simp) (by intros; simp) chs
  split at he
  · simp only [List.mem_singleton] at he
    rw [he]; simp
  · dsimp only at he
    split at he
    · rcases List.mem_append.1 he with h | h
      · exact hread _ _ _ e h
      · simp only [List.mem_singleton] at h
        rw [h]; simp
    · rcases List.mem_append.1 he with h | h
      · exact hread _ _ _ e h
      · simp only [List.mem_singleton] at h
        rw [h]; simp

/-- C10, amended: on a node in cluster mode, each of `clearUnread`, `setUnread`,
`delete` and `sync`, given a request that binds and passes its validation and
whose uid has another node as slot leader, looks the slot leader up and
forwards the request to `leader.ApiServerAddr + path` with the raw body
bytes; these two are all its effects, so it neither reads nor writes the
local store.  `syncMessages` has no slot-leader check and never forwards. -/
theorem conversation_routes_forward (env : Env) (c : Context) (leader : NodeInfo)
    (hon : env.ClusterOn = true) (hne : leader.Id ≠ env.NodeId) :
    (∀ (decode : List Nat → Except GoError clearConversationUnreadReq)
        (check : clearConversationUnreadReq → Option GoError) (req : clearConversationUnreadReq),
      decode c.Body = .ok req → check req = none →
      env.SlotLeaderOfChannel req.UID ChannelTypePerson = .ok leader →
      clearConversationUnread env c decode check =
        [.slotLeaderOfChannel req.UID ChannelTypePerson,
         .forwardWithBody (leader.ApiServerAddr ++ c.Path) c.Body]) ∧
    (∀ (decode : List Nat → Except GoError setConversationUnreadReq)
        (req : setConversationUnreadReq),
      decode c.Body = .ok req → req.UID ≠ "" → req.ChannelID ≠ "" → req.ChannelType ≠ 0 →
      env.SlotLeaderOfChannel req.UID ChannelTypePerson = .ok leader →
      setConversationUnread env c decode =
        [.slotLeaderOfChannel req.UID ChannelTypePerson,
         .forwardWithBody (leader.ApiServerAddr ++ c.Path) c.Body]) ∧
    (∀ (decode : List Nat → Except GoError deleteChannelReq)
        (check : deleteChannelReq → Option GoError) (req : deleteChannelReq),
      decode c.Body = .ok req → check req = none →
      env.SlotLeaderOfChannel req.UID ChannelTypePerson = .ok leader →
      deleteConversation env c decode check =
        [.slotLeaderOfChannel req.UID ChannelTypePerson,
         .forwardWithBody (leader.ApiServerAddr ++ c.Path) c.Body]) ∧
    (∀ (decode : List Nat → Except GoError syncUserConversationReq)
        (req : syncUserConversationReq),
      decode c.Body = .ok req →
      env.SlotLeaderOfChannel req.UID ChannelTypePerson = .ok leader →
      syncUserConversation env c decode =
        [.slotLeaderOfChannel req.UID ChannelTypePerson,
         .forwardWithBody (leader.ApiServerAddr ++ c.Path) c.Body]) ∧
    (∀ (decode : List Nat → Except GoError syncRecentMessagesReq),
      ∀ e ∈ syncRecentMessages env c decode, ∀ (url : String) (body : List Nat),
        e ≠ Effect.forwardWithBody url body) := by
  refine ⟨?_, ?_, ?_, ?_, syncRecentMessages_no_forward env c⟩
  · intro decode check req hd hc hl
    unfold clearConversationUnread BindJSON
    simp only [hd, hc, slotLeaderGate_forward env c req.UID c.Body leader hon hl hne, if_true]
  · intro decode req hd h1 h2 h3 hl
    unfold setConversationUnread BindJSON
    simp only [hd, h1, h2, h3, or_self, if_false,
      slotLeaderGate_forward env c req.UID c.Body leader hon hl hne, if_true]
  · intro decode check req hd hc hl
    unfold deleteConversation BindJSON
    simp only [hd, hc, slotLeaderGate_forward env c req.UID c.Body leader hon hl hne, if_true]
  · intro decode req hd hl
    unfold syncUserConversation BindJSON
    simp only [hd, slotLeaderGate_forward env c req.UID c.Body leader hon hl hne, if_true]

/-- C10, amended, on an input: node 2 is in cluster mode and node 1 is the slot
leader of alice; `clearUnread`, `setUnread`, `delete` and `sync` forward her
request to node 1 under the path of the request. -/
theorem conversation_routes_forward_witness :
    clearConversationUnread peerEnv ⟨"/conversations/clearUnread", [123, 125]⟩
        sampleClearUnread (fun _ => none) =
      [.slotLeaderOfChannel "alice" 1,
       .forwardWithBody "http://n1:5001/conversations/clearUnread" [123, 125]] ∧
    setConversationUnread peerEnv ⟨"/conversations/setUnread", [123, 125]⟩ (sampleSetUnread 3) =
      [.slotLeaderOfChannel "alice" 1,
       .forwardWithBody "http://n1:5001/conversations/setUnread" [123, 125]] ∧
    deleteConversation peerEnv ⟨"/conversations/delete", [123, 125]⟩ sampleDelete
        (fun _ => none) =
      [.slotLeaderOfChannel "alice" 1,
       .forwardWithBody "http://n1:5001/conversations/delete" [123, 125]] ∧
    syncUserConversation peerEnv ⟨"/conversation/sync", [123, 125]⟩ (sampleSync "bob:1:42" 5) =
      [.slotLeaderOfChannel "alice" 1,
       .forwardWithBody "http://n1:5001/conversation/sync" [123, 125]] :=
  ⟨((conversation_routes_forward peerEnv ⟨"/conversations/clearUnread", [123, 125]⟩
      { Id := 1, ApiServerAddr := "http://n1:5001" } rfl (by decide)).1
      sampleClearUnread (fun _ => none) { UID := "alice", ChannelID := "bob", ChannelType := 1 }
      rfl rfl rfl).trans (by decide),
   ((conversation_routes_forward peerEnv ⟨"/conversations/setUnread", [123, 125]⟩
      { Id := 1, ApiServerAddr := "http://n1:5001" } rfl (by decide)).2.1
      (sampleSetUnread 3)
      { UID := "alice", ChannelID := "bob", ChannelType := 1, Unread := 3, MessageSeq := 0 }
      rfl (by decide) (by decide) (by decide) rfl).trans (by decide),
   ((conversation_routes_forward peerEnv ⟨"/conversations/delete", [123, 125]⟩
      { Id := 1, ApiServerAddr := "http://n1:5001" } rfl (by decide)).2.2.1
      sampleDelete (fun _ => none) { UID := "alice", ChannelID := "bob", ChannelType := 1 }
      rfl rfl rfl).trans (by decide),
   ((conversation_routes_forward peerEnv ⟨"/conversation/sync", [123, 125]⟩
      { Id := 1, ApiServerAddr := "http://n1:5001" } rfl (by decide)).2.2.2.1
      (sampleSync "bob:1:42" 5)
      { UID := "alice", Version := 100, LastMsgSeqs := "bob:1:42", MsgCount := 5 }
      rfl rfl).trans (by decide)⟩

/-! ## syncUserConversation: the recent messages attached -/

theorem conversationsSent_append (t u : List Effect)
    (h : ∀ e ∈ t, ∀ r : List syncUserConversationResp, e ≠ Effect.responseConversations r) :
    conversationsSent (t ++ u) = conversationsSent u := by
  induction t with
  | nil => rfl
  | cons e rest ih =>
    have hrest := ih (fun x hx => h x (List.mem_cons_of_mem _ hx))
    have he := h e (List.mem_cons_self _ _)
    cases e <;> first
      | exact absurd rfl (he _)
      | simpa [conversationsSent] using hrest

theorem fetchRecent_trace (env : Env) (uid : String) (msgCount : Int)
    (reqs : List channelRecentMessageReq) :
    ∀ e ∈ (fetchRecent env uid msgCount reqs).1, ∀ r : List syncUserConversationResp,
      e ≠ Effect.responseConversations r := by
  unfold fetchRecent
  split
  · exact getRecentMessagesForCluster_trace
      (fun e => ∀ r : List syncUserConversationResp, e ≠ Effect.responseConversations r)
      env uid msgCount true (by intros; simp) (by intros; simp) (by intros; simp)
      (by intros; simp) reqs
  · exact getRecentMessages_trace
      (fun e => ∀ r : List syncUserConversationResp, e ≠ Effect.responseConversations r)
      env uid msgCount true (by intros; simp) (by intros; simp) reqs

/-- The response of `syncUserConversation` when the recent messages are read. -/
theorem syncUserConversation_sent (env : Env) (c : Context)
    (decode : List Nat → Except GoError syncUserConversationReq)
    (req : syncUserConversationReq) (persisted : List Conversation)
    (crms : List channelRecentMessage)
    (hdec : decode c.Body = .ok req)
    (hgate : (slotLeaderGate env c req.UID c.Body).2 = false)
    (hget : env.GetLastConversations req.UID (toUint64 req.Version) env.UserMaxCount =
      .ok persisted)
    (hcount : req.MsgCount > 0)
    (hfetch : (fetchRecent env req.UID req.MsgCount (syncReqs env req persisted)).2 = .ok crms) :
    conversationsSent (syncUserConversation env c decode) =
      some (attachRecents ((syncMerged env req persisted).map (syncBuilt env req)) crms) := by
  have hopen := slotLeaderGate_open env c req.UID c.Body hgate
  unfold syncUserConversation BindJSON
  simp only [hdec, hgate, Bool.false_eq_true, if_false, hget, hcount, if_true]
  unfold syncReqs syncMerged at hfetch
  simp only [hfetch]
  rw [conversationsSent_append]
  · rfl
  · intro e he r
    simp only [List.mem_append, List.mem_singleton] at he
    rcases he with ((he | he) | he) | he
    · rw [hopen e he]; simp
    · rw [he]; simp
    · rw [he]; simp
    · exact fetchRecent_trace env req.UID req.MsgCount _ e he r

theorem attachRecent_of_not_matches (resp : syncUserConversationResp) (crm : channelRecentMessage)
    (h : ¬ matchesRecent resp crm) : attachRecent resp crm = resp := by
  unfold matchesRecent at h
  unfold attachRecent
  rw [if_neg h]

theorem foldl_attachRecent_of_not_matches (crms : List channelRecentMessage) :
    ∀ resp : syncUserConversationResp, (∀ y ∈ crms, ¬ matchesRecent resp y) →
      crms.foldl attachRecent resp = resp := by
  induction crms with
  | nil => intro resp _; rfl
  | cons y rest ih =>
    intro resp h
    rw [List.foldl_cons, attachRecent_of_not_matches resp y (h y (List.mem_cons_self _ _))]
    exact ih resp (fun z hz => h z (List.mem_cons_of_mem _ hz))

/-- The fold of the inner loop when exactly one entry matches the response. -/
theorem foldl_attachRecent_single (resp : syncUserConversationResp)
    (pre post : List channelRecentMessage) (x : channelRecentMessage)
    (hother : ∀ y ∈ pre ++ post, ¬ matchesRecent resp y) :
    (pre ++ x :: post).foldl attachRecent resp = attachRecent resp x := by
  rw [List.foldl_append, List.foldl_cons,
    foldl_attachRecent_of_not_matches pre resp
      (fun y hy => hother y (List.mem_append_left _ hy))]
  apply foldl_attachRecent_of_not_matches
  intro y hy hm
  apply hother y (List.mem_append_right _ hy)
  unfold matchesRecent at hm ⊢
  rw [(attachRecent_channel resp x).1, (attachRecent_channel resp x).2] at hm
  exact hm

theorem subUint64_of_le (a b : Nat) (ha : a < 2 ^ 64) (hb : b ≤ a) : subUint64 a b = a - b := by
  unfold subUint64
  have hb2 : b % 2 ^ 64 = b := Nat.mod_eq_of_lt (by omega)
  rw [hb2]
  norm_num at ha ⊢
  omega

theorem uint64ToInt_of_lt (x : Nat) (h : x < 2 ^ 63) : uint64ToInt x = (x : Int) := by
  unfold uint64ToInt
  have h1 : x % 2 ^ 64 = x := Nat.mod_eq_of_lt (by norm_num at h ⊢; omega)
  rw [h1, if_pos h]

/-- The fields line 428-437 give a matching response. -/
theorem attachRecent_matches (resp : syncUserConversationResp) (x : channelRecentMessage)
    (lastMsg : MessageResp) (hm : matchesRecent resp x)
    (hlast : x.Messages.getLast? = some lastMsg) (hseq : lastMsg.MessageSeq < 2 ^ 64) :
    (attachRecent resp x).Recents = x.Messages ∧
    (attachRecent resp x).ReadedToMsgSeq = resp.ReadedToMsgSeq ∧
    (attachRecent resp x).LastMsgSeq = lastMsg.MessageSeq % 2 ^ 32 ∧
    (resp.ReadedToMsgSeq < lastMsg.MessageSeq → lastMsg.MessageSeq < 2 ^ 63 →
      (attachRecent resp x).Unread = (lastMsg.MessageSeq : Int) - resp.ReadedToMsgSeq) ∧
    (lastMsg.MessageSeq ≤ resp.ReadedToMsgSeq → (attachRecent resp x).Unread = resp.Unread) := by
  unfold matchesRecent at hm
  unfold attachRecent
  rw [if_pos hm, hlast]
  dsimp only
  by_cases hgt : lastMsg.MessageSeq > resp.ReadedToMsgSeq
  · rw [if_pos hgt]
    refine ⟨rfl, rfl, rfl, ?_, ?_⟩
    · intro _ h63
      dsimp only
      rw [subUint64_of_le _ _ hseq (by omega), uint64ToInt_of_lt _ (by omega)]
      omega
    · intro hle
      omega
  · rw [if_neg hgt]
    refine ⟨rfl, rfl, rfl, ?_, ?_⟩
    · intro hlt
      omega
    · intro _
      rfl

/-- C8, the defect: alice syncs with `msg_count = 5` on a node whose store
holds her row of the channel with bob, read up to 45, and the messages 46 to
50.  The messages are attached in descending order, 50 first, and the response
takes `last_msg_seq` and `unread` from the final message of the list, which is
the oldest: `last_msg_seq = 46` and `unread = 1`, where the newest message
gives 50 and 5. -/
theorem syncUserConversation_last_is_oldest :
    syncUserConversation
        (sampleRecentEnv [aliceRow 0 45] []
          [sampleMsg 46, sampleMsg 47, sampleMsg 48, sampleMsg 49, sampleMsg 50])
        ⟨"/conversation/sync", []⟩ (sampleSync "" 5) =
      [.storeGetLastConversations "alice" 100 100, .cacheGet "alice",
       .storeLoadLastMsgsWithEnd "alice@bob" 1 44 5,
       .responseConversations [bobResp 1 46 45
         [sampleMsg 50, sampleMsg 49, sampleMsg 48, sampleMsg 47, sampleMsg 46]]] ∧
    (1 : Int) ≠ max 0 (50 - 45) ∧ (46 : Nat) ≠ 50 := by
  decide

/-! ## setConversationUnread: validation -/

/-- C11: `setConversationUnread` answers a request whose uid is empty, whose
channel id is empty or whose channel type is 0 with an error and does nothing
else: the error response is its only effect, so it forwards nothing, does not
touch the store and has not looked up the slot leader. -/
theorem setConversationUnread_validation (env : Env) (c : Context)
    (decode : List Nat → Except GoError setConversationUnreadReq)
    (req : setConversationUnreadReq)
    (hdec : decode c.Body = .ok req)
    (hbad : req.UID = "" ∨ req.ChannelID = "" ∨ req.ChannelType = 0) :
    (∃ err, setConversationUnread env c decode = [.responseError err]) ∧
    ∀ e ∈ setConversationUnread env c decode,
      e.isStoreAccess = false ∧
      (∀ (url : String) (body : List Nat), e ≠ Effect.forwardWithBody url body) ∧
      (∀ (channelId : String) (channelType : Nat),
        e ≠ Effect.slotLeaderOfChannel channelId channelType) := by
  have h : ∃ err, setConversationUnread env c decode = [.responseError err] := by
    unfold setConversationUnread BindJSON
    simp only [hdec]
    by_cases h1 : req.UID = ""
    · refine ⟨GoError.other "UID cannot be empty", ?_⟩
      simp [h1]
    · have h2 : req.ChannelID = "" ∨ req.ChannelType = 0 := by
        rcases hbad with h | h | h
        · exact absurd h h1
        · exact Or.inl h
        · exact Or.inr h
      refine ⟨GoError.other "channel_id or channel_type cannot be empty", ?_⟩
      simp [h1, h2]
  refine ⟨h, ?_⟩
  obtain ⟨err, herr⟩ := h
  intro e he
  rw [herr, List.mem_singleton] at he
  subst he
  exact ⟨rfl, by intros; simp, by intros; simp⟩

/-- C11, on an input: on a node that is not the slot leader, a request without
uid, one without channel id and one with channel type 0 each have an error
response as their only effect. -/
theorem setConversationUnread_validation_witness :
    (∃ err, setConversationUnread peerEnv ⟨"/conversations/setUnread", [123, 125]⟩
        (fun _ => .ok { UID := "", ChannelID := "bob", ChannelType := 1, Unread := 3,
                        MessageSeq := 0 }) = [.responseError err]) ∧
    (∃ err, setConversationUnread peerEnv ⟨"/conversations/setUnread", [123, 125]⟩
        (fun _ => .ok { UID := "alice", ChannelID := "", ChannelType := 1, Unread := 3,
                        MessageSeq := 0 }) = [.responseError err]) ∧
    (∃ err, setConversationUnread peerEnv ⟨"/conversations/setUnread", [123, 125]⟩
        (fun _ => .ok { UID := "alice", ChannelID := "bob", ChannelType := 0, Unread := 3,
                        MessageSeq := 0 }) = [.responseError err]) :=
  ⟨(setConversationUnread_validation peerEnv ⟨"/conversations/setUnread", [123, 125]⟩ _
      { UID := "", ChannelID := "bob", ChannelType := 1, Unread := 3, MessageSeq := 0 }
      rfl (Or.inl rfl)).1,
   (setConversationUnread_validation peerEnv ⟨"/conversations/setUnread", [123, 125]⟩ _
      { UID := "alice", ChannelID := "", ChannelType := 1, Unread := 3, MessageSeq := 0 }
      rfl (Or.inr (Or.inl rfl))).1,
   (setConversationUnread_validation peerEnv ⟨"/conversations/setUnread", [123, 125]⟩ _
      { UID := "alice", ChannelID := "bob", ChannelType := 0, Unread := 3, MessageSeq := 0 }
      rfl (Or.inr (Or.inr rfl))).1⟩

/-! ## getRecentMessagesForCluster: the groups -/

theorem PeerReqs.get_add (peers : PeerReqs) (id id' : Nat) (r : channelRecentMessageReq) :
    (peers.add id r).get id' = if id' = id then peers.get id ++ [r] else peers.get id' := by
  induction peers with
  | nil =>
    by_cases h : id' = id
    · subst h; simp [PeerReqs.add, PeerReqs.get, List.lookup]
    · have hb : (id' == id) = false := by simpa using h
      simp [PeerReqs.add, PeerReqs.get, List.lookup, h, hb]
  | cons p rest ih =>
    obtain ⟨k, reqs⟩ := p
    unfold PeerReqs.add
    by_cases hk : k = id
    · subst hk
      simp only [if_true]
      by_cases h : id' = k
      · subst h; simp [PeerReqs.get, List.lookup]
      · have hb : (id' == k) = false := by simpa using h
        simp [PeerReqs.get, List.lookup, h, hb]
    · simp only [hk, if_false]
      by_cases h : id' = k
      · subst h
        have hne : ¬ id' = id := hk
        simp [PeerReqs.get, List.lookup, hne]
      · have hb : (id' == k) = false := by simpa using h
        have hb2 : (id == k) = false := by simpa using fun h' : id = k => hk h'.symm
        have := ih
        simp only [PeerReqs.get, List.lookup, hb, hb2] at this ⊢
        exact this

theorem PeerReqs.keys_add (peers : PeerReqs) (id : Nat) (r : channelRecentMessageReq) :
    (peers.add id r).map Prod.fst =
      if id ∈ peers.map Prod.fst then peers.map Prod.fst else peers.map Prod.fst ++ [id] := by
  induction peers with
  | nil => simp [PeerReqs.add]
  | cons p rest ih =>
    obtain ⟨k, reqs⟩ := p
    unfold PeerReqs.add
    by_cases hk : k = id
    · subst hk; simp
    · have hk' : ¬ id = k := fun h => hk h.symm
      simp only [hk, if_false, List.map_cons, ih, List.mem_cons, hk', false_or]
      split <;> simp

theorem PeerReqs.flatten_add (peers : PeerReqs) (id : Nat) (r : channelRecentMessageReq) :
    ((peers.add id r).flatMap Prod.snd).Perm (peers.flatMap Prod.snd ++ [r]) := by
  induction peers with
  | nil => simp [PeerReqs.add]
  | cons p rest ih =>
    obtain ⟨k, reqs⟩ := p
    unfold PeerReqs.add
    by_cases hk : k = id
    · subst hk
      simp only [if_true, List.flatMap_cons, List.append_assoc]
      apply List.Perm.append_left
      exact List.perm_append_comm
    · simp only [hk, if_false, List.flatMap_cons, List.append_assoc]
      exact List.Perm.append_left _ ih

theorem PeerReqs.mem_add (peers : PeerReqs) (id : Nat) (r : channelRecentMessageReq)
    (p : Nat × List channelRecentMessageReq) (hp : p ∈ peers.add id r) :
    p.2 ≠ [] ∨ p ∈ peers := by
  induction peers with
  | nil =>
    simp only [PeerReqs.add, List.mem_singleton] at hp
    subst hp; left; simp
  | cons q rest ih =>
    obtain ⟨k, reqs⟩ := q
    unfold PeerReqs.add at hp
    by_cases hk : k = id
    · simp only [hk, if_true, List.mem_cons] at hp
      rcases hp with h | h
      · subst h; left; simp
      · right; exact List.mem_cons_of_mem _ h
    · simp only [hk, if_false, List.mem_cons] at hp
      rcases hp with h | h
      · right; rw [h]; exact List.mem_cons_self _ _
      · rcases ih h with h' | h'
        · left; exact h'
        · right; exact List.mem_cons_of_mem _ h'

theorem PeerReqs.get_of_mem (peers : PeerReqs) (hn : (peers.map Prod.fst).Nodup)
    (p : Nat × List channelRecentMessageReq) (hp : p ∈ peers) : peers.get p.1 = p.2 := by
  induction peers with
  | nil => cases hp
  | cons q rest ih =>
    obtain ⟨k, reqs⟩ := q
    simp only [List.map_cons, List.nodup_cons] at hn
    rcases List.mem_cons.1 hp with h | h
    · subst h; simp [PeerReqs.get, List.lookup]
    · have hne : p.1 ≠ k := by
        intro he
        apply hn.1
        rw [← he]
        exact List.mem_map.2 ⟨p, h, rfl⟩
      have hb : (p.1 == k) = false := by simpa using hne
      have := ih hn.2 h
      simp only [PeerReqs.get, List.lookup, hb] at this ⊢
      exact this

theorem groupByLeader_eq_foldl (env : Env) (uid : String)
    (rest : List channelRecentMessageReq) :
    ∀ (t : List Effect) (localReqs : List channelRecentMessageReq) (peers : PeerReqs),
      (∀ r ∈ rest, leaderIdOf env uid r ≠ none) →
      groupByLeader env uid rest t localReqs peers =
        (t ++ rest.map (fun r => Effect.leaderOfChannelForRead
            (fakeChannelIdOf env uid r.ChannelId r.ChannelType) r.ChannelType),
          .ok (rest.foldl (groupStep env uid) (localReqs, peers))) := by
  induction rest with
  | nil => intro t l p _; simp [groupByLeader]
  | cons r rest ih =>
    intro t l p h
    have hr := h r (List.mem_cons_self _ _)
    have hrest : ∀ x ∈ rest, leaderIdOf env uid x ≠ none :=
      fun x hx => h x (List.mem_cons_of_mem _ hx)
    unfold groupByLeader
    dsimp only
    unfold leaderIdOf at hr
    cases hl : env.LeaderOfChannelForRead (fakeChannelIdOf env uid r.ChannelId r.ChannelType)
        r.ChannelType with
    | error err => rw [hl] at hr; exact absurd rfl hr
    | ok info =>
      have hid : leaderIdOf env uid r = some info.Id := by
        unfold leaderIdOf; rw [hl]
      simp only [List.foldl_cons, List.map_cons]
      by_cases hs : (info.Id == env.NodeId) = true
      · have hstep : groupStep env uid (l, p) r = (l ++ [r], p) := by
          simp [groupStep, hid, hs]
        rw [hstep]
        simp only [hs, if_true]
        rw [ih _ _ _ hrest]
        simp
      · have hs2 : (info.Id == env.NodeId) = false := by simpa using hs
        have hstep : groupStep env uid (l, p) r = (l, p.add info.Id r) := by
          simp [groupStep, hid, hs2]
        rw [hstep]
        simp only [hs2, Bool.false_eq_true, if_false]
        rw [ih _ _ _ hrest]
        simp

theorem groupByLeader_error (env : Env) (uid : String)
    (rest : List channelRecentMessageReq) :
    ∀ (t : List Effect) (localReqs : List channelRecentMessageReq) (peers : PeerReqs),
      (∃ r ∈ rest, leaderIdOf env uid r = none) →
      ∃ err, (groupByLeader env uid rest t localReqs peers).2 = .error err := by
  induction rest with
  | nil => intro t l p h; obtain ⟨r, hr, _⟩ := h; cases hr
  | cons r rest ih =>
    intro t l p h
    unfold groupByLeader
    dsimp only
    cases hl : env.LeaderOfChannelForRead (fakeChannelIdOf env uid r.ChannelId r.ChannelType)
        r.ChannelType with
    | error err => exact ⟨err, rfl⟩
    | ok info =>
      have hid : leaderIdOf env uid r = some info.Id := by
        unfold leaderIdOf; rw [hl]
      have hrest : ∃ x ∈ rest, leaderIdOf env uid x = none := by
        obtain ⟨x, hx, hn⟩ := h
        rcases List.mem_cons.1 hx with h1 | h1
        · subst h1; rw [hid] at hn; cases hn
        · exact ⟨x, h1, hn⟩
      dsimp only
      split
      · exact ih _ _ _ hrest
      · exact ih _ _ _ hrest

/-- The groups after the loop, from any groups before it. -/
theorem foldl_groupStep (env : Env) (uid : String) (rest : List channelRecentMessageReq) :
    ∀ (groups : List channelRecentMessageReq × PeerReqs),
      (∀ r ∈ rest, leaderIdOf env uid r ≠ none) →
      (rest.foldl (groupStep env uid) groups).1 = groups.1 ++ rest.filter (ledBySelf env uid) ∧
      (∀ id, (rest.foldl (groupStep env uid) groups).2.get id =
        groups.2.get id ++ rest.filter (ledByPeer env uid id)) ∧
      ((groups.2.map Prod.fst).Nodup →
        ((rest.foldl (groupStep env uid) groups).2.map Prod.fst).Nodup) ∧
      (∀ p ∈ (rest.foldl (groupStep env uid) groups).2, p.2 ≠ [] ∨ p ∈ groups.2) ∧
      (∀ id ∈ (rest.foldl (groupStep env uid) groups).2.map Prod.fst,
        id ∈ groups.2.map Prod.fst ∨ id ≠ env.NodeId) ∧
      (∀ id ∈ groups.2.map Prod.fst,
        id ∈ (rest.foldl (groupStep env uid) groups).2.map Prod.fst) ∧
      (∀ r ∈ rest, ∀ id, leaderIdOf env uid r = some id → id ≠ env.NodeId →
        id ∈ (rest.foldl (groupStep env uid) groups).2.map Prod.fst) ∧
      ((rest.foldl (groupStep env uid) groups).1 ++
          (rest.foldl (groupStep env uid) groups).2.flatMap Prod.snd).Perm
        ((groups.1 ++ groups.2.flatMap Prod.snd) ++ rest) := by
  induction rest with
  | nil =>
    intro g _
    refine ⟨by simp, by simp, fun h => h, fun p hp => Or.inr hp, fun id hid => Or.inl hid,
      fun id hid => hid, ?_, by simp⟩
    intro r hr; cases hr
  | cons r rest ih =>
    intro g h
    have hr := h r (List.mem_cons_self _ _)
    have hrest : ∀ x ∈ rest, leaderIdOf env uid x ≠ none :=
      fun x hx => h x (List.mem_cons_of_mem _ hx)
    obtain ⟨l, p⟩ := g
    cases hid : leaderIdOf env uid r with
    | none => exact absurd hid hr
    | some id =>
      rw [List.foldl_cons]
      by_cases hs : id = env.NodeId
      · have hstep : groupStep env uid (l, p) r = (l ++ [r], p) := by
          simp [groupStep, hid, hs]
        rw [hstep]
        obtain ⟨i1, i2, i3, i4, i5, i6, i7, i8⟩ := ih (l ++ [r], p) hrest
        have hself : ledBySelf env uid r = true := by simp [ledBySelf, hid, hs]
        refine ⟨?_, ?_, i3, i4, i5, i6, ?_, ?_⟩
        · rw [i1, List.filter_cons, hself]; simp
        · intro id'
          have hp : ledByPeer env uid id' r = false := by
            simp only [ledByPeer, hid, hs]
            by_cases hx : id' = env.NodeId
            · subst hx; simp
            · have : ¬ env.NodeId = id' := fun h' => hx h'.symm
              simp [this]
          rw [i2 id', List.filter_cons, hp]
          simp
        · intro x hx id' hx1 hx2
          rcases List.mem_cons.1 hx with h1 | h1
          · subst h1
            rw [hid] at hx1
            cases hx1
            exact absurd hs hx2
          · exact i7 x h1 id' hx1 hx2
        · refine i8.trans ?_
          simp only [List.append_assoc]
          apply List.Perm.append_left
          have : (r :: (List.flatMap p Prod.snd ++ rest)).Perm
              (List.flatMap p Prod.snd ++ r :: rest) := List.perm_middle.symm
          simpa using this
      · have hs2 : (id == env.NodeId) = false := by simpa using hs
        have hstep : groupStep env uid (l, p) r = (l, p.add id r) := by
          simp [groupStep, hid, hs2]
        rw [hstep]
        obtain ⟨i1, i2, i3, i4, i5, i6, i7, i8⟩ := ih (l, p.add id r) hrest
        have hself : ledBySelf env uid r = false := by
          simp [ledBySelf, hid, hs]
        refine ⟨?_, ?_, ?_, ?_, ?_, ?_, ?_, ?_⟩
        · rw [i1, List.filter_cons, hself]; simp
        · intro id'
          rw [i2 id', PeerReqs.get_add, List.filter_cons]
          by_cases hx : id' = id
          · subst hx
            have hp : ledByPeer env uid id' r = true := by simp [ledByPeer, hid, hs]
            simp [hp]
          · have hp : ledByPeer env uid id' r = false := by
              have : ¬ id = id' := fun h' => hx h'.symm
              simp [ledByPeer, hid, this]
            simp [hp, hx]
        · intro hn
          apply i3
          dsimp only
          rw [PeerReqs.keys_add]
          split
          · exact hn
          · rename_i hnot
            rw [List.nodup_append]
            refine ⟨hn, List.nodup_singleton _, ?_⟩
            intro a ha hb
            rw [List.mem_singleton.1 hb] at ha
            exact hnot ha
        · intro q hq
          rcases i4 q hq with h1 | h1
          · exact Or.inl h1
          · exact PeerReqs.mem_add p id r q h1
        · intro id' hid'
          rcases i5 id' hid' with h1 | h1
          · dsimp only at h1
            rw [PeerReqs.keys_add] at h1
            split at h1
            · exact Or.inl h1
            · rcases List.mem_append.1 h1 with h2 | h2
              · exact Or.inl h2
              · rw [List.mem_singleton.1 h2]; exact Or.inr hs
          · exact Or.inr h1
        · intro id' hid'
          apply i6
          dsimp only
          rw [PeerReqs.keys_add]
          split
          · exact hid'
          · exact List.mem_append_left _ hid'
        · intro x hx id' hx1 hx2
          rcases List.mem_cons.1 hx with h1 | h1
          · subst h1
            rw [hid] at hx1
            cases hx1
            apply i6
            dsimp only
            rw [PeerReqs.keys_add]
            split
            · assumption
            · simp
          · exact i7 x h1 id' hx1 hx2
        · refine i8.trans ?_
          dsimp only
          have h1 := PeerReqs.flatten_add p id r
          have h2 : (l ++ List.flatMap (p.add id r) Prod.snd ++ rest).Perm
              (l ++ (List.flatMap p Prod.snd ++ [r]) ++ rest) :=
            (List.Perm.append_left l h1).append_right rest
          refine h2.trans ?_
          simp

theorem peerError_some (env : Env) (uid : String) (msgCount : Int) (peers : PeerReqs) :
    ∀ err : GoError, ∃ err', peerError env uid msgCount peers (some err) = some err' := by
  induction peers with
  | nil => intro err; exact ⟨err, rfl⟩
  | cons p rest ih =>
    intro err
    unfold peerError
    split
    · exact ih _
    · exact ih _

theorem peerError_none_iff (env : Env) (uid : String) (msgCount : Int) (peers : PeerReqs) :
    peerError env uid msgCount peers none = none ↔ allPeersOk env uid msgCount peers := by
  induction peers with
  | nil => simp [peerError, allPeersOk]
  | cons p rest ih =>
    unfold peerError
    cases h : env.requestSyncMessage p.1 p.2 uid msgCount with
    | error err =>
      dsimp only
      obtain ⟨err', herr⟩ := peerError_some env uid msgCount rest err
      rw [herr]
      constructor
      · intro hc; cases hc
      · intro hall
        obtain ⟨res, hres⟩ := hall p (List.mem_cons_self _ _)
        rw [h] at hres
        cases hres
    | ok results =>
      dsimp only
      rw [ih]
      constructor
      · intro hall q hq
        rcases List.mem_cons.1 hq with h1 | h1
        · subst h1; exact ⟨results, h⟩
        · exact hall q h1
      · intro hall q hq
        exact hall q (List.mem_cons_of_mem _ hq)

theorem getRecentMessagesForCluster_effects (env : Env) (uid : String) (msgCount : Int)
    (channels : List channelRecentMessageReq) (orderByLast : Bool)
    (t : List Effect) (localReqs : List channelRecentMessageReq) (peers : PeerReqs)
    (hne : channels ≠ [])
    (hg : groupByLeader env uid channels [] [] [] = (t, .ok (localReqs, peers))) :
    ∃ requests reads : List Effect,
      (getRecentMessagesForCluster env uid msgCount channels orderByLast).1 =
        t ++ requests ++ reads ∧
      requests.Perm (peers.map fun p => Effect.requestSyncMessage p.1 p.2 uid msgCount) ∧
      (reads = [] ∨
        (localReqs ≠ [] ∧
          reads = (getRecentMessages env uid msgCount localReqs orderByLast).1)) := by
  obtain ⟨requests, hreq, hperm⟩ := requestPeers_requests env uid msgCount peers t
  have hlen : ¬ channels.length = 0 := fun h => hne (List.length_eq_zero.mp h)
  unfold getRecentMessagesForCluster
  rw [if_neg hlen, hg]
  dsimp only
  rcases hr : requestPeers env uid msgCount peers t with ⟨t1, crms, reqErr⟩
  rw [hr] at hreq
  dsimp only at hreq
  subst hreq
  cases reqErr with
  | some err => exact ⟨requests, [], by simp, hperm, Or.inl rfl⟩
  | none =>
    dsimp only
    by_cases hl : localReqs.length > 0
    · have hl2 : localReqs ≠ [] := List.length_pos.mp hl
      rw [if_pos hl]
      rcases hread : getRecentMessages env uid msgCount localReqs orderByLast with ⟨t2, res⟩
      cases res with
      | error err => exact ⟨requests, t2, rfl, hperm, Or.inr ⟨hl2, rfl⟩⟩
      | ok results => exact ⟨requests, t2, rfl, hperm, Or.inr ⟨hl2, rfl⟩⟩
    · rw [if_neg hl]
      exact ⟨requests, [], by simp, hperm, Or.inl rfl⟩

/-- C12: in `getRecentMessagesForCluster`, when the leader of every requested
channel is found, the local group is the requests whose channel (the fake
channel id for a person channel) this node leads, in request order; every
other group has the node id of another node as key, is not empty and holds,
in request order, the requests whose channel that node leads; the keys are
pairwise different and every remote leader has a group; together the groups
hold every request exactly once.  The effects of the call are the leader
lookups, then the requests to the peers, which are, in some order, one sync
request per key with the group of the key, then the reads of the store, which
are those of the local group if any are made. -/
theorem getRecentMessagesForCluster_groups (env : Env) (uid : String) (msgCount : Int)
    (channels : List channelRecentMessageReq) (orderByLast : Bool)
    (hne : channels ≠ [])
    (hok : ∀ r ∈ channels, leaderIdOf env uid r ≠ none) :
    ∃ (localReqs : List channelRecentMessageReq) (peers : PeerReqs)
      (requests reads : List Effect),
      localReqs = channels.filter (ledBySelf env uid) ∧
      (peers.map Prod.fst).Nodup ∧
      (∀ p ∈ peers, p.1 ≠ env.NodeId ∧ p.2 ≠ [] ∧
        p.2 = channels.filter (fun r => leaderIdOf env uid r == some p.1)) ∧
      (∀ r ∈ channels, ∀ id, leaderIdOf env uid r = some id → id ≠ env.NodeId →
        id ∈ peers.map Prod.fst) ∧
      (localReqs ++ peers.flatMap Prod.snd).Perm channels ∧
      (getRecentMessagesForCluster env uid msgCount channels orderByLast).1 =
        channels.map (fun r => Effect.leaderOfChannelForRead
          (fakeChannelIdOf env uid r.ChannelId r.ChannelType) r.ChannelType) ++
          requests ++ reads ∧
      requests.Perm (peers.map fun p => Effect.requestSyncMessage p.1 p.2 uid msgCount) ∧
      (reads = [] ∨
        (localReqs ≠ [] ∧
          reads = (getRecentMessages env uid msgCount localReqs orderByLast).1)) := by
  obtain ⟨i1, i2, i3, i4, i5, _, i7, i8⟩ := foldl_groupStep env uid channels ([], []) hok
  have hg := groupByLeader_eq_foldl env uid channels [] [] [] hok
  obtain ⟨requests, reads, e1, e2, e3⟩ := getRecentMessagesForCluster_effects env uid msgCount
    channels orderByLast _ _ _ hne hg
  refine ⟨_, _, requests, reads, ?_, ?_, ?_, i7, ?_, ?_, e2, e3⟩
  · simpa using i1
  · exact i3 (by simp)
  · intro p hp
    have hne : p.1 ≠ env.NodeId := by
      rcases i5 p.1 (List.mem_map.2 ⟨p, hp, rfl⟩) with h | h
      · simp at h
      · exact h
    have hnonempty : p.2 ≠ [] := by
      rcases i4 p hp with h | h
      · exact h
      · simp at h
    refine ⟨hne, hnonempty, ?_⟩
    have hget := PeerReqs.get_of_mem _ (i3 (by simp)) p hp
    rw [i2 p.1] at hget
    rw [← hget]
    simp only [PeerReqs.get, List.lookup, Option.getD_none, List.nil_append]
    apply List.filter_congr
    intro r _
    have : (p.1 != env.NodeId) = true := by simpa using hne
    simp [ledByPeer, this]
  · simpa using i8
  · simpa using e1

/-- C12, on an input: node 2 is asked for the channels `bob`, `g2`, `g3` and
`g4`; node 1 leads `bob`, node 3 leads `g3` and node 2 the two others.  The
call looks up the four leaders, asks node 1 for `bob` and node 3 for `g3`, and
reads `g2` and `g4` from the store. -/
theorem getRecentMessagesForCluster_groups_witness :
    (getRecentMessagesForCluster racyEnv "alice" 5
      [sampleReq "bob" 1, sampleReq "g2" 2, sampleReq "g3" 2, sampleReq "g4" 2] true).1 =
      [.leaderOfChannelForRead "bob" 1, .leaderOfChannelForRead "g2" 2,
       .leaderOfChannelForRead "g3" 2, .leaderOfChannelForRead "g4" 2,
       .requestSyncMessage 1 [sampleReq "bob" 1] "alice" 5,
       .requestSyncMessage 3 [sampleReq "g3" 2] "alice" 5,
       .storeLoadLastMsgsWithEnd "g2" 2 0 5, .storeLoadLastMsgsWithEnd "g4" 2 0 5] ∧
    ∃ (localReqs : List channelRecentMessageReq) (peers : PeerReqs)
      (requests : List Effect),
      localReqs = [sampleReq "g2" 2, sampleReq "g4" 2] ∧
      (peers.map Prod.fst).Nodup ∧
      requests.Perm (peers.map fun p => Effect.requestSyncMessage p.1 p.2 "alice" 5) := by
  refine ⟨by decide, ?_⟩
  obtain ⟨localReqs, peers, requests, _, h1, h2, _, _, _, _, h7, _⟩ :=
    getRecentMessagesForCluster_groups racyEnv "alice" 5
      [sampleReq "bob" 1, sampleReq "g2" 2, sampleReq "g3" 2, sampleReq "g4" 2] true
      (by simp) (by decide)
  exact ⟨localReqs, peers, requests, h1.trans (by decide), h2, h7⟩

/-! ## getRecentMessagesForCluster: the results of the peers -/

/-- C13, the defect: node 2 is asked for `bob`, led by node 1, `g2`, led by
itself, and `g3`, led by node 3; every lookup, both peers and the local read
succeed.  When the two goroutines both read `channelRecentMessages` before
either writes it back, the call returns without error the results of node 1
and of the local read only: the results node 3 sent are lost.  When the
goroutines run one after the other it returns the three results. -/
theorem getRecentMessagesForCluster_loses_results :
    racyEnv.schedule = [0, 0, 1, 1, 1, 0] ∧
    racyEnv.requestSyncMessage 3 [sampleReq "g3" 2] "alice" 5 =
      .ok [{ ChannelId := "g3", ChannelType := 2, Messages := [] }] ∧
    getRecentMessagesForCluster racyEnv "alice" 5
        [sampleReq "bob" 1, sampleReq "g2" 2, sampleReq "g3" 2] true =
      ([.leaderOfChannelForRead "bob" 1, .leaderOfChannelForRead "g2" 2,
        .leaderOfChannelForRead "g3" 2,
        .requestSyncMessage 1 [sampleReq "bob" 1] "alice" 5,
        .requestSyncMessage 3 [sampleReq "g3" 2] "alice" 5,
        .storeLoadLastMsgsWithEnd "g2" 2 0 5],
       .ok [{ ChannelId := "bob", ChannelType := 1, Messages := [] },
            { ChannelId := "g2", ChannelType := 2, Messages := [] }]) ∧
    (getRecentMessagesForCluster (fanoutEnv false) "alice" 5
        [sampleReq "bob" 1, sampleReq "g2" 2, sampleReq "g3" 2] true).2 =
      .ok [{ ChannelId := "bob", ChannelType := 1, Messages := [] },
           { ChannelId := "g3", ChannelType := 2, Messages := [] },
           { ChannelId := "g2", ChannelType := 2, Messages := [] }] :=
  ⟨rfl, rfl, rfl, rfl⟩

/-! ## The handler of the cluster, the slot and the roles of a channel -/

/-- C17 as stated fails: an `ApplyLogsReq` with applying index 5 and
committed index 3 makes `handleApplyLogsReq` return normally, with the handler
as it was and no call made. -/
theorem handleApplyLogsReq_returns_above_committed :
    applyAboveCommitted.ApplyingIndex > applyAboveCommitted.CommittedIndex ∧
    (match handleApplyLogsReq sampleReplica (sampleHandler 3 [] [] [] 0) applyAboveCommitted with
     | .returned (e, calls) => e.applyLogStoreQueue = [] ∧ calls = []
     | .panicked _ _ => False) := by
  refine ⟨by decide, ?_⟩
  simp [handleApplyLogsReq, applyAboveCommitted, EmptyMessage, sampleHandler]

/-- C17, amended: when the applying index is above the committed index,
`handleApplyLogsReq` returns without a panic, leaves the handler as it was
(no task is queued) and makes no call; `slot.applyLogs` and the `applyLogs` of a
cluster channel return an error on such a message without applying anything,
and the task of lines 547-557 would panic on that error.  With the applying
index not above a committed index of 0 the handler panics. -/
theorem handleApplyLogsReq_above_committed {ρ : Type} (ra : ReplicaAction ρ)
    (e : eventHandler ρ) (msg : Message) (h : msg.ApplyingIndex > msg.CommittedIndex) :
    handleApplyLogsReq ra e msg = .returned (e, []) ∧
    (∀ onSlotApply getLogs, ∃ err,
      slot.applyLogs onSlotApply getLogs msg = .returned (some err)) ∧
    (∃ err, clusterChannel.applyLogs msg = (some err, [])) ∧
    (∀ onSlotApply getLogs tk c,
      execApplyLogsTask ra e.replicaAction tk c (slot.applyLogs onSlotApply getLogs msg) =
        .panicked "apply logs error" tk) ∧
    (∀ m : Message, m.ApplyingIndex ≤ m.CommittedIndex → m.CommittedIndex = 0 →
      handleApplyLogsReq ra e m = .panicked "committedIndex is 0" (e, [])) := by
  refine ⟨?_, ?_, ?_, ?_, ?_⟩
  · simp [handleApplyLogsReq, h]
  · intro o g
    simp [slot.applyLogs, h]
  · simp [clusterChannel.applyLogs, h]
  · intro o g tk c
    simp [slot.applyLogs, h, execApplyLogsTask]
  · intro m h1 h2
    have h4 : m.ApplyingIndex = 0 := by omega
    simp [handleApplyLogsReq, h2, h4]

/-- C17, amended, on an input: the request with applying index 5 and committed
index 3 leaves the handler as it was, with no call made. -/
theorem handleApplyLogsReq_above_committed_witness :
    applyAboveCommitted.ApplyingIndex > applyAboveCommitted.CommittedIndex ∧
    handleApplyLogsReq sampleReplica (sampleHandler 3 [] [] [] 0) applyAboveCommitted =
      .returned (sampleHandler 3 [] [] [] 0, []) :=
  ⟨by decide,
    (handleApplyLogsReq_above_committed sampleReplica (sampleHandler 3 [] [] [] 0)
      applyAboveCommitted (by decide)).1⟩

/-- C18 as stated fails: one second after the `Sync` for index 5 was sent,
with a time-out of five seconds, `slot.sendMessage` transmits the `Sync` for
index 6 and arms the slot anew. -/
theorem sendMessage_sync_greater_index :
    syncingSlot.sync.syncStatus = .syncStatusSyncing ∧
    (1000000000 : Int) - syncingSlot.sync.startSyncTime ≤ syncingSlot.sync.syncTimeout ∧
    (slot.sendMessage true 1000000000 syncingSlot (syncMsg 6)).2 = some (syncMsg 6) ∧
    (slot.sendMessage true 1000000000 syncingSlot (syncMsg 6)).1.sync.syncingLogIndex = 6 ∧
    (slot.sendMessage true 1000000000 syncingSlot (syncMsg 6)).1.sync.startSyncTime
      = 1000000000 := by
  decide

/-- C18, amended: while the status is syncing and no more than `syncTimeout` has
elapsed since the `Sync` was sent, `slot.sendMessage` transmits a further `Sync`
exactly when `NewMessage` succeeds and the index of the new `Sync` is above the
index being synced; then it records that index and the time, otherwise the slot
is left as it was. -/
theorem sendMessage_sync_in_flight (newMessageOk : Bool) (now : Int) (s : slot) (msg : Message)
    (hmsg : msg.MsgType = .MsgSync) (hst : s.sync.syncStatus = .syncStatusSyncing)
    (htime : now - s.sync.startSyncTime ≤ s.sync.syncTimeout) :
    (msg.Index ≤ s.sync.syncingLogIndex →
      slot.sendMessage newMessageOk now s msg = (s, none)) ∧
    (newMessageOk = false → slot.sendMessage newMessageOk now s msg = (s, none)) ∧
    (newMessageOk = true → msg.Index > s.sync.syncingLogIndex →
      slot.sendMessage newMessageOk now s msg =
        ({ s with sync := { s.sync with syncingLogIndex := msg.Index, startSyncTime := now } },
          some msg)) := by
  have ht : ¬ now - s.sync.startSyncTime > s.sync.syncTimeout := by omega
  refine ⟨?_, ?_, ?_⟩
  · intro hi
    have hi2 : ¬ msg.Index > s.sync.syncingLogIndex := by omega
    cases newMessageOk <;> simp [slot.sendMessage, hmsg, hst, ht, hi2]
  · intro hn
    simp [slot.sendMessage, hn]
  · intro hn hi
    simp [slot.sendMessage, hmsg, hst, hn, hi]

/-- C18, amended, on an input: one second after the `Sync` for index 5 was
sent, a second `Sync` for index 5 is not transmitted and the slot is unchanged. -/
theorem sendMessage_sync_in_flight_witness :
    slot.sendMessage true 1000000000 syncingSlot (syncMsg 5) = (syncingSlot, none) :=
  (sendMessage_sync_in_flight true 1000000000 syncingSlot (syncMsg 5) rfl rfl
    (by decide)).1 (by decide)

/-- C19, the defect: the cursors of `sampleChannel` satisfy the five relations,
and after `becomeLeader`, as after `becomeProxy`, the storage cursor is 0 while
the acknowledgement cursor is still 3, so `ack <= storage` no longer holds. -/
theorem becomeLeader_breaks_ack_relation :
    cursorsOrdered sampleChannel.msgQueue ∧
    sampleChannel.becomeLeader.msgQueue.storagingIndex = 0 ∧
    sampleChannel.becomeLeader.msgQueue.sendackingIndex = 3 ∧
    ¬ cursorsOrdered sampleChannel.becomeLeader.msgQueue ∧
    ¬ cursorsOrdered (sampleChannel.becomeProxy 2).msgQueue := by
  decide

/-- C20 as stated fails: a channel that is decrypting payloads when it
becomes leader is still marked as decrypting afterwards. -/
theorem becomeLeader_keeps_payloadDecrypting :
    ({ sampleChannel with payloadDecrypting := true }).becomeLeader.payloadDecrypting = true := by
  decide

/-- C20, amended: after `becomeLeader` the forwarding cursor is 0, the role is
leader, the leader id is 0 and the flags `permissionChecking`, `storaging`,
`delivering` and `forwarding` are false, whatever they were before; the flag
`payloadDecrypting` has the value it had before. -/
theorem becomeLeader_resets (c : channel) :
    c.becomeLeader.msgQueue.forwardingIndex = 0 ∧
    c.becomeLeader.role = .channelRoleLeader ∧
    c.becomeLeader.leaderId = 0 ∧
    c.becomeLeader.permissionChecking = false ∧
    c.becomeLeader.storaging = false ∧
    c.becomeLeader.delivering = false ∧
    c.becomeLeader.forwarding = false ∧
    c.becomeLeader.payloadDecrypting = c.payloadDecrypting := by
  simp [channel.becomeLeader, channel.resetIndex]

/-! ## Lemmas on `handleProposes` -/

theorem assignLogs_length (L T : Nat) (logs : List Log) :
    (assignLogs L T logs).length = logs.length := by
  simp [assignLogs]

theorem assignLogs_getElem? (L T : Nat) (logs : List Log) (i : Nat) :
    (assignLogs L T logs)[i]? =
      logs[i]?.map fun lg => { lg with Index := (L + 1 + i) % 2 ^ 64, Term := T } := by
  simp only [assignLogs, List.getElem?_map, List.enum, List.getElem?_enumFrom]
  cases logs[i]? <;> simp

theorem handleProposesLoop_rounds {ρ : Type} (ra : ReplicaAction ρ) :
    ∀ (q : List proposeReq) (e : eventHandler ρ) (cnt : Int) (he : Bool)
      (calls : List HandlerCall) (rounds : List (ProposeRound ρ)),
    ∃ new : List (ProposeRound ρ),
      (handleProposesLoop ra q e cnt he calls rounds).2 = rounds ++ new ∧
      (handleProposesLoop ra q e cnt he calls rounds).1.calls = calls ++ new.flatMap roundCalls ∧
      roundsFrom ra e.replicaAction new ∧
      (∀ rd ∈ new, rd.req.logs ≠ [] ∧
        rd.logs = assignLogs (ra.lastLogIndexNoLock rd.before) (ra.termNoLock rd.before)
          rd.req.logs) ∧
      new.map (fun rd => rd.req) <+: q.filter (fun p => decide (p.logs ≠ []))
  | [], e, cnt, he, calls, rounds => ⟨[], by simp [handleProposesLoop, roundsFrom]⟩
  | req :: rest, e, cnt, he, calls, rounds => by
    by_cases hlen : req.logs.length = 0
    · obtain ⟨new, h1, h2, h3, h4, h5⟩ := handleProposesLoop_rounds ra rest e cnt he calls rounds
      have hnil : req.logs = [] := List.length_eq_zero.mp hlen
      refine ⟨new, ?_, ?_, h3, h4, ?_⟩
      · simp only [handleProposesLoop, hlen, if_true]
        exact h1
      · simp only [handleProposesLoop, hlen, if_true]
        exact h2
      · simpa [List.filter_cons, hnil] using h5
    · have hne : req.logs ≠ [] := fun h => hlen (by simp [h])
      cases hstep : ra.stepPropose e.replicaAction
          (assignLogs (ra.lastLogIndexNoLock e.replicaAction) (ra.termNoLock e.replicaAction)
            req.logs) with
      | error err =>
        refine ⟨[{ before := e.replicaAction, req := req,
                   logs := assignLogs (ra.lastLogIndexNoLock e.replicaAction)
                     (ra.termNoLock e.replicaAction) req.logs }], ?_, ?_, ?_, ?_, ?_⟩
        · simp only [handleProposesLoop, hlen, if_false, hstep]
        · simp [handleProposesLoop, hlen, hstep, roundCalls]
        · simp [roundsFrom]
        · simp [hne]
        · simp only [List.map_cons, List.map_nil, List.filter_cons, hne, ne_eq, not_false_eq_true,
            decide_True, if_true]
          exact List.prefix_iff_eq_append.mpr (by simp)
      | ok r =>
        by_cases hmax : e.MaxProposeLogCount > 0 ∧
            cnt + (req.logs.length : Int) > e.MaxProposeLogCount
        · refine ⟨[{ before := e.replicaAction, req := req,
                     logs := assignLogs (ra.lastLogIndexNoLock e.replicaAction)
                       (ra.termNoLock e.replicaAction) req.logs }], ?_, ?_, ?_, ?_, ?_⟩
          · simp only [handleProposesLoop, hlen, if_false, hstep, hmax, and_self, if_true]
          · simp [handleProposesLoop, hlen, hstep, hmax, roundCalls]
          · simp [roundsFrom]
          · simp [hne]
          · simp only [List.map_cons, List.map_nil, List.filter_cons, hne, ne_eq,
              not_false_eq_true, decide_True, if_true]
            exact List.prefix_iff_eq_append.mpr (by simp)
        · obtain ⟨new, h1, h2, h3, h4, h5⟩ := handleProposesLoop_rounds ra rest
            { e with replicaAction := r } (cnt + (req.logs.length : Int)) true
            (calls ++
              (assignLogs (ra.lastLogIndexNoLock e.replicaAction) (ra.termNoLock e.replicaAction)
                req.logs).map (fun lg => HandlerCall.didPropose req.key lg.MessageId lg.Index) ++
              [.stepPropose (assignLogs (ra.lastLogIndexNoLock e.replicaAction)
                (ra.termNoLock e.replicaAction) req.logs)])
            (rounds ++ [{ before := e.replicaAction, req := req,
                          logs := assignLogs (ra.lastLogIndexNoLock e.replicaAction)
                            (ra.termNoLock e.replicaAction) req.logs }])
          refine ⟨{ before := e.replicaAction, req := req,
                    logs := assignLogs (ra.lastLogIndexNoLock e.replicaAction)
                      (ra.termNoLock e.replicaAction) req.logs } :: new, ?_, ?_, ?_, ?_, ?_⟩
          · simp only [handleProposesLoop, hlen, if_false, hstep, hmax]
            rw [h1]; simp
          · simp only [handleProposesLoop, hlen, if_false, hstep, hmax]
            rw [h2]; simp [roundCalls]
          · exact ⟨rfl, Or.inr ⟨r, hstep, h3⟩⟩
          · intro rd hrd
            rcases List.mem_cons.mp hrd with h | h
            · subst h; exact ⟨hne, rfl⟩
            · exact h4 rd h
          · simp only [List.map_cons, List.filter_cons, hne, ne_eq, not_false_eq_true,
              decide_True, if_true]
            exact (List.prefix_cons_inj _).mpr h5

theorem proposedOf_append (a b : List HandlerCall) :
    proposedOf (a ++ b) = proposedOf a ++ proposedOf b := by
  induction a with
  | nil => rfl
  | cons c rest ih => cases c <;> simp [proposedOf, ih]

theorem proposedOf_didPropose (key : String) (logs : List Log) :
    proposedOf (logs.map fun lg => HandlerCall.didPropose key lg.MessageId lg.Index) = [] := by
  induction logs with
  | nil => rfl
  | cons c rest ih => simp [proposedOf, ih]

theorem sum_dropLast_le (l : List Nat) : l.dropLast.sum ≤ l.sum := by
  rcases List.eq_nil_or_concat l with h | ⟨l1, a, h⟩
  · subst h; simp
  · subst h; simp

theorem handleProposesLoop_budget {ρ : Type} (ra : ReplicaAction ρ) :
    ∀ (q : List proposeReq) (e : eventHandler ρ) (cnt : Int) (he : Bool)
      (calls : List HandlerCall) (rounds : List (ProposeRound ρ)),
    0 < e.MaxProposeLogCount →
    cnt = (((proposedOf calls).map List.length).sum : Nat) →
    cnt ≤ e.MaxProposeLogCount →
    ((((proposedOf (handleProposesLoop ra q e cnt he calls rounds).1.calls).dropLast.map
      List.length).sum : Nat) : Int) ≤ e.MaxProposeLogCount
  | [], e, cnt, he, calls, rounds => by
    intro _ hc hle
    simp only [handleProposesLoop]
    have h := sum_dropLast_le ((proposedOf calls).map List.length)
    rw [← List.map_dropLast] at h
    omega
  | req :: rest, e, cnt, he, calls, rounds => by
    intro hM hc hle
    by_cases hlen : req.logs.length = 0
    · simp only [handleProposesLoop, hlen, if_true]
      exact handleProposesLoop_budget ra rest e cnt he calls rounds hM hc hle
    · have hp : proposedOf (calls ++
          (assignLogs (ra.lastLogIndexNoLock e.replicaAction) (ra.termNoLock e.replicaAction)
            req.logs).map (fun lg => HandlerCall.didPropose req.key lg.MessageId lg.Index) ++
          [.stepPropose (assignLogs (ra.lastLogIndexNoLock e.replicaAction)
            (ra.termNoLock e.replicaAction) req.logs)]) =
          proposedOf calls ++ [assignLogs (ra.lastLogIndexNoLock e.replicaAction)
            (ra.termNoLock e.replicaAction) req.logs] := by
        simp [proposedOf_append, proposedOf_didPropose, proposedOf]
      cases hstep : ra.stepPropose e.replicaAction
          (assignLogs (ra.lastLogIndexNoLock e.replicaAction) (ra.termNoLock e.replicaAction)
            req.logs) with
      | error err =>
        simp only [handleProposesLoop, hlen, if_false, hstep, hp, List.dropLast_concat]
        omega
      | ok r =>
        by_cases hmax : e.MaxProposeLogCount > 0 ∧
            cnt + (req.logs.length : Int) > e.MaxProposeLogCount
        · simp only [handleProposesLoop, hlen, if_false, hstep, hmax, and_self, if_true, hp,
            List.dropLast_concat]
          omega
        · simp only [handleProposesLoop, hlen, if_false, hstep, hmax]
          apply handleProposesLoop_budget ra rest { e with replicaAction := r }
          · exact hM
          · rw [hp]
            simp [assignLogs_length, hc]
          · have : ¬ cnt + (req.logs.length : Int) > e.MaxProposeLogCount := fun h => hmax ⟨hM, h⟩
            show cnt + (req.logs.length : Int) ≤ e.MaxProposeLogCount
            omega

/-- C14: in `handleProposes` the rounds are the non-empty batches popped, in
queue order, each processed at the object the step before produced; as long as
the indexes do not pass 2^64, the log at position `i` of a batch is stepped with
index `L + 1 + i` and term `T`, otherwise as it was proposed, where `L` and `T`
are the last log index and the term of the replica at that round; the indexes of
a round are `L + 1, L + 2, ...`; and the calls are, round after round,
`didPropose` with the key, message id and index of each stepped log and then
the step of the proposal with exactly these logs. -/
theorem handleProposes_assigns {ρ : Type} (ra : ReplicaAction ρ) (e : eventHandler ρ)
    (hwrap : ∀ rd ∈ (handleProposes ra e).2,
      ra.lastLogIndexNoLock rd.before + rd.req.logs.length < 2 ^ 64) :
    (handleProposes ra e).2.map (fun rd => rd.req) <+:
      e.proposeQueue.filter (fun p => decide (p.logs ≠ [])) ∧
    roundsFrom ra e.replicaAction (handleProposes ra e).2 ∧
    (handleProposes ra e).1.calls = (handleProposes ra e).2.flatMap (fun rd =>
      rd.logs.map (fun lg => HandlerCall.didPropose rd.req.key lg.MessageId lg.Index) ++
        [.stepPropose rd.logs]) ∧
    ∀ rd ∈ (handleProposes ra e).2,
      rd.req.logs ≠ [] ∧
      rd.logs.length = rd.req.logs.length ∧
      (∀ (i : Nat) (lg : Log), rd.req.logs[i]? = some lg →
        rd.logs[i]? = some { lg with Index := ra.lastLogIndexNoLock rd.before + 1 + i,
                                     Term := ra.termNoLock rd.before }) ∧
      rd.logs.map (fun lg => lg.Index) =
        List.range' (ra.lastLogIndexNoLock rd.before + 1) rd.req.logs.length := by
  obtain ⟨new, h1, h2, h3, h4, h5⟩ :=
    handleProposesLoop_rounds ra e.proposeQueue e 0 false [] []
  have hr : (handleProposes ra e).2 = new := by simpa [handleProposes] using h1
  have hc : (handleProposes ra e).1.calls = new.flatMap roundCalls := by
    simpa [handleProposes] using h2
  rw [hr] at hwrap ⊢
  refine ⟨h5, h3, ?_, ?_⟩
  · rw [hc]; rfl
  · intro rd hrd
    obtain ⟨hne, hlogs⟩ := h4 rd hrd
    have hw := hwrap rd hrd
    have hget : ∀ (i : Nat) (lg : Log), rd.req.logs[i]? = some lg →
        rd.logs[i]? = some { lg with Index := ra.lastLogIndexNoLock rd.before + 1 + i,
                                     Term := ra.termNoLock rd.before } := by
      intro i lg hi
      have hlt : i < rd.req.logs.length := (List.getElem?_eq_some_iff.mp hi).1
      rw [hlogs, assignLogs_getElem?, hi]
      simp only [Option.map_some', Option.some.injEq]
      rw [Nat.mod_eq_of_lt (by omega)]
    refine ⟨hne, by rw [hlogs, assignLogs_length], hget, ?_⟩
    apply List.ext_getElem?
    intro i
    by_cases hi : i < rd.req.logs.length
    · have h6 : rd.req.logs[i]? = some rd.req.logs[i] := List.getElem?_eq_getElem hi
      rw [List.getElem?_map, hget i _ h6, List.getElem?_range' _ _ hi]
      simp
    · have h7 : rd.logs.length ≤ i := by rw [hlogs, assignLogs_length]; omega
      rw [List.getElem?_eq_none (by simpa using h7), List.getElem?_eq_none (by simp; omega)]

/-- C14, on an input: at last log index 10 and term 1, the batch "a" of two
logs gets the indexes 11 and 12, the empty batch "b" is skipped and the batch
"c" gets the index 13. -/
theorem handleProposes_assigns_witness :
    (∀ rd ∈ (handleProposes sampleReplica proposeHandler).2,
      sampleReplica.lastLogIndexNoLock rd.before + rd.req.logs.length < 2 ^ 64) ∧
    (handleProposes sampleReplica proposeHandler).1.calls =
      [.didPropose "a" 100 11, .didPropose "a" 101 12,
       .stepPropose [{ MessageId := 100, Index := 11, Term := 1, Data := [] },
                     { MessageId := 101, Index := 12, Term := 1, Data := [] }],
       .didPropose "c" 200 13,
       .stepPropose [{ MessageId := 200, Index := 13, Term := 1, Data := [] }]] ∧
    (handleProposes sampleReplica proposeHandler).1.calls =
      (handleProposes sampleReplica proposeHandler).2.flatMap (fun rd =>
        rd.logs.map (fun lg => HandlerCall.didPropose rd.req.key lg.MessageId lg.Index) ++
          [.stepPropose rd.logs]) :=
  ⟨by decide, by decide,
    (handleProposes_assigns sampleReplica proposeHandler (by decide)).2.2.1⟩

/-- C15 as stated fails: with `MaxProposeLogCount = 10` and batches of 6, 6
and 1 logs in the queue, one call steps the first two batches, 12 logs, and
leaves the third in the queue. -/
theorem handleProposes_exceeds_budget :
    budgetHandler.MaxProposeLogCount = 10 ∧
    (proposedOf (handleProposes sampleReplica budgetHandler).1.calls).map List.length
      = [6, 6] ∧
    ((proposedOf (handleProposes sampleReplica budgetHandler).1.calls).map List.length).sum
      = 12 ∧
    (handleProposes sampleReplica budgetHandler).1.handler.proposeQueue
      = [sampleProposeReq "c" 300 1] := by
  decide

/-- C15, amended: with `MaxProposeLogCount = M > 0`, the batches that one call of
`handleProposes` steps into the replica, the last one apart, hold at most `M`
logs in total: the call stops after the batch with which the total passes
`M`, so the total is at most `M` plus the size of the last batch stepped. -/
theorem handleProposes_budget {ρ : Type} (ra : ReplicaAction ρ) (e : eventHandler ρ)
    (hM : 0 < e.MaxProposeLogCount) :
    ((((proposedOf (handleProposes ra e).1.calls).dropLast.map List.length).sum : Nat) : Int)
      ≤ e.MaxProposeLogCount :=
  handleProposesLoop_budget ra e.proposeQueue e 0 false [] [] hM (by simp [proposedOf])
    (by omega)

/-- C15, amended, on an input: with a budget of 10 and batches of 6, 6 and 1
logs, the batches stepped, the last one apart, hold 6 logs. -/
theorem handleProposes_budget_witness :
    0 < budgetHandler.MaxProposeLogCount ∧
    ((((proposedOf (handleProposes sampleReplica budgetHandler).1.calls).dropLast.map
      List.length).sum : Nat) : Int) ≤ budgetHandler.MaxProposeLogCount :=
  ⟨by decide, handleProposes_budget sampleReplica budgetHandler (by decide)⟩

/-! ## Lemmas on the task queues -/

theorem steppedOf_append (a b : List HandlerCall) :
    steppedOf (a ++ b) = steppedOf a ++ steppedOf b := by
  induction a with
  | nil => rfl
  | cons c rest ih => cases c <;> simp [steppedOf, ih]

theorem handleAppendLogTaskLoop_spec {ρ : Type} (ra : ReplicaAction ρ) :
    ∀ (ts : List task) (e : eventHandler ρ) (he : Bool) (calls : List HandlerCall),
    (∀ res, handleAppendLogTaskLoop ra ts e he calls = .returned res →
      steppedOf res.calls =
        steppedOf calls ++ (ts.takeWhile fun t => t.finished).map (fun t => t.resp) ∧
      res.handler.appendLogStoreQueue = ts.dropWhile (fun t => t.finished) ∧
      res.hasEvent = (he || !(ts.takeWhile fun t => t.finished).isEmpty) ∧
      res.err = none ∧
      ∀ t ∈ ts.takeWhile (fun t => t.finished), t.err = none) ∧
    (∀ m res, handleAppendLogTaskLoop ra ts e he calls = .panicked m res →
      ∃ k, k < (ts.takeWhile fun t => t.finished).length ∧
        res.handler.appendLogStoreQueue = ts.drop k ∧
        (steppedOf res.calls = steppedOf calls ++ (ts.take k).map (fun t => t.resp) ∨
         steppedOf res.calls = steppedOf calls ++ (ts.take (k + 1)).map (fun t => t.resp))) ∧
    ((∀ t ∈ ts.takeWhile (fun t => t.finished), t.err = none) →
      (∀ r m, ∃ r1, ra.step r m = .ok r1) →
      (∀ r i, ∃ r1, ra.setLastIndex r i = .ok r1) →
      ∃ res, handleAppendLogTaskLoop ra ts e he calls = .returned res)
  | [], e, he, calls => by
    refine ⟨?_, ?_, ?_⟩
    · intro res hres
      simp only [handleAppendLogTaskLoop, Outcome.returned.injEq] at hres
      subst hres
      simp
    · intro m res hres
      simp [handleAppendLogTaskLoop] at hres
    · intro _ _ _
      exact ⟨_, rfl⟩
  | t :: rest, e, he, calls => by
    by_cases hf : t.finished = true
    · cases herr : t.err with
      | some err =>
        refine ⟨?_, ?_, ?_⟩
        · intro res hres
          simp [handleAppendLogTaskLoop, hf, herr] at hres
        · intro m res hres
          simp only [handleAppendLogTaskLoop, hf, herr, Bool.not_true, Bool.false_eq_true,
            if_false, Outcome.panicked.injEq] at hres
          obtain ⟨_, hres⟩ := hres
          subst hres
          exact ⟨0, by simp [List.takeWhile_cons, hf], rfl, Or.inl (by simp)⟩
        · intro h _ _
          have := h t (by simp [List.takeWhile_cons, hf])
          rw [herr] at this
          cases this
      | none =>
        cases hstep : ra.step e.replicaAction t.resp with
        | error err =>
          refine ⟨?_, ?_, ?_⟩
          · intro res hres
            simp [handleAppendLogTaskLoop, hf, herr, hstep] at hres
          · intro m res hres
            simp only [handleAppendLogTaskLoop, hf, herr, hstep, Bool.not_true,
              Bool.false_eq_true, if_false, Outcome.panicked.injEq] at hres
            obtain ⟨_, hres⟩ := hres
            subst hres
            exact ⟨0, by simp [List.takeWhile_cons, hf], rfl,
              Or.inr (by simp [steppedOf_append, steppedOf])⟩
          · intro _ h _
            obtain ⟨r1, hr1⟩ := h e.replicaAction t.resp
            rw [hstep] at hr1
            cases hr1
        | ok r1 =>
          cases hset : ra.setLastIndex r1 t.resp.Index with
          | error err =>
            refine ⟨?_, ?_, ?_⟩
            · intro res hres
              simp [handleAppendLogTaskLoop, hf, herr, hstep, hset] at hres
            · intro m res hres
              simp only [handleAppendLogTaskLoop, hf, herr, hstep, hset, Bool.not_true,
                Bool.false_eq_true, if_false, Outcome.panicked.injEq] at hres
              obtain ⟨_, hres⟩ := hres
              subst hres
              exact ⟨0, by simp [List.takeWhile_cons, hf], rfl,
                Or.inr (by simp [steppedOf_append, steppedOf])⟩
            · intro _ _ h
              obtain ⟨r2, hr2⟩ := h r1 t.resp.Index
              rw [hset] at hr2
              cases hr2
          | ok r2 =>
            obtain ⟨ih1, ih2, ih3⟩ := handleAppendLogTaskLoop_spec ra rest
              { e with replicaAction := r2 } true
              (calls ++ [.step t.resp, .setLastIndex t.resp.Index])
            have heq : handleAppendLogTaskLoop ra (t :: rest) e he calls =
                handleAppendLogTaskLoop ra rest { e with replicaAction := r2 } true
                  (calls ++ [.step t.resp, .setLastIndex t.resp.Index]) := by
              simp only [handleAppendLogTaskLoop, hf, herr, hstep, hset, Bool.not_true,
                Bool.false_eq_true, if_false]
            have hst : steppedOf (calls ++ [.step t.resp, .setLastIndex t.resp.Index]) =
                steppedOf calls ++ [t.resp] := by
              simp [steppedOf_append, steppedOf]
            rw [heq]
            refine ⟨?_, ?_, ?_⟩
            · intro res hres
              obtain ⟨a1, a2, a3, a4, a5⟩ := ih1 res hres
              refine ⟨?_, ?_, ?_, a4, ?_⟩
              · rw [a1, hst]; simp [List.takeWhile_cons, hf]
              · rw [a2]; simp [List.dropWhile_cons, hf]
              · rw [a3]; simp [List.takeWhile_cons, hf]
              · intro t1 ht1
                simp only [List.takeWhile_cons, hf, if_true, List.mem_cons] at ht1
                rcases ht1 with h | h
                · rw [h]; exact herr
                · exact a5 t1 h
            · intro m res hres
              obtain ⟨k, b1, b2, b3⟩ := ih2 m res hres
              refine ⟨k + 1, by simp [List.takeWhile_cons, hf]; omega, by simpa using b2, ?_⟩
              rcases b3 with h | h
              · exact Or.inl (by rw [h, hst]; simp)
              · exact Or.inr (by rw [h, hst]; simp)
            · intro h1 h2 h3
              exact ih3 (fun t1 ht1 => h1 t1 (by simp [List.takeWhile_cons, hf, ht1])) h2 h3
    · have hf2 : t.finished = false := by simpa using hf
      refine ⟨?_, ?_, ?_⟩
      · intro res hres
        simp only [handleAppendLogTaskLoop, hf2, Bool.not_false, if_true,
          Outcome.returned.injEq] at hres
        subst hres
        simp [List.takeWhile_cons, List.dropWhile_cons, hf2]
      · intro m res hres
        simp [handleAppendLogTaskLoop, hf2] at hres
      · intro _ _ _
        simp only [handleAppendLogTaskLoop, hf2, Bool.not_false, if_true]
        exact ⟨_, rfl⟩

theorem handleApplyLogTaskLoop_spec {ρ : Type} (ra : ReplicaAction ρ) :
    ∀ (ts : List task) (e : eventHandler ρ) (he : Bool) (calls : List HandlerCall),
    (∀ res, handleApplyLogTaskLoop ra ts e he calls = .returned res →
      steppedOf res.calls =
        steppedOf calls ++ (ts.takeWhile fun t => t.finished).map (fun t => t.resp) ∧
      res.handler.applyLogStoreQueue = ts.dropWhile (fun t => t.finished) ∧
      res.hasEvent = (he || !(ts.takeWhile fun t => t.finished).isEmpty) ∧
      res.err = none ∧
      ∀ t ∈ ts.takeWhile (fun t => t.finished), t.err = none) ∧
    (∀ m res, handleApplyLogTaskLoop ra ts e he calls = .panicked m res →
      ∃ k, k < (ts.takeWhile fun t => t.finished).length ∧
        res.handler.applyLogStoreQueue = ts.drop k ∧
        (steppedOf res.calls = steppedOf calls ++ (ts.take k).map (fun t => t.resp) ∨
         steppedOf res.calls = steppedOf calls ++ (ts.take (k + 1)).map (fun t => t.resp))) ∧
    ((∀ t ∈ ts.takeWhile (fun t => t.finished), t.err = none) →
      (∀ r m, ∃ r1, ra.step r m = .ok r1) →
      (∀ r i, ∃ r1, ra.setAppliedIndex r i = .ok r1) →
      ∃ res, handleApplyLogTaskLoop ra ts e he calls = .returned res)
  | [], e, he, calls => by
    refine ⟨?_, ?_, ?_⟩
    · intro res hres
      simp only [handleApplyLogTaskLoop, Outcome.returned.injEq] at hres
      subst hres
      simp
    · intro m res hres
      simp [handleApplyLogTaskLoop] at hres
    · intro _ _ _
      exact ⟨_, rfl⟩
  | t :: rest, e, he, calls => by
    by_cases hf : t.finished = true
    · cases herr : t.err with
      | some err =>
        refine ⟨?_, ?_, ?_⟩
        · intro res hres
          simp [handleApplyLogTaskLoop, hf, herr] at hres
        · intro m res hres
          simp only [handleApplyLogTaskLoop, hf, herr, Bool.not_true, Bool.false_eq_true,
            if_false, Outcome.panicked.injEq] at hres
          obtain ⟨_, hres⟩ := hres
          subst hres
          exact ⟨0, by simp [List.takeWhile_cons, hf], rfl, Or.inl (by simp)⟩
        · intro h _ _
          have := h t (by simp [List.takeWhile_cons, hf])
          rw [herr] at this
          cases this
      | none =>
        cases hstep : ra.step e.replicaAction t.resp with
        | error err =>
          refine ⟨?_, ?_, ?_⟩
          · intro res hres
            simp [handleApplyLogTaskLoop, hf, herr, hstep] at hres
          · intro m res hres
            simp only [handleApplyLogTaskLoop, hf, herr, hstep, Bool.not_true,
              Bool.false_eq_true, if_false, Outcome.panicked.injEq] at hres
            obtain ⟨_, hres⟩ := hres
            subst hres
            exact ⟨0, by simp [List.takeWhile_cons, hf], rfl,
              Or.inr (by simp [steppedOf_append, steppedOf])⟩
          · intro _ h _
            obtain ⟨r1, hr1⟩ := h e.replicaAction t.resp
            rw [hstep] at hr1
            cases hr1
        | ok r1 =>
          cases hset : ra.setAppliedIndex r1 t.resp.AppliedIndex with
          | error err =>
            refine ⟨?_, ?_, ?_⟩
            · intro res hres
              simp [handleApplyLogTaskLoop, hf, herr, hstep, hset] at hres
            · intro m res hres
              simp only [handleApplyLogTaskLoop, hf, herr, hstep, hset, Bool.not_true,
                Bool.false_eq_true, if_false, Outcome.panicked.injEq] at hres
              obtain ⟨_, hres⟩ := hres
              subst hres
              exact ⟨0, by simp [List.takeWhile_cons, hf], rfl,
                Or.inr (by simp [steppedOf_append, steppedOf])⟩
            · intro _ _ h
              obtain ⟨r2, hr2⟩ := h r1 t.resp.AppliedIndex
              rw [hset] at hr2
              cases hr2
          | ok r2 =>
            obtain ⟨ih1, ih2, ih3⟩ := handleApplyLogTaskLoop_spec ra rest
              { e with replicaAction := r2 } true
              (calls ++ [.step t.resp, .setAppliedIndex t.resp.AppliedIndex])
            have heq : handleApplyLogTaskLoop ra (t :: rest) e he calls =
                handleApplyLogTaskLoop ra rest { e with replicaAction := r2 } true
                  (calls ++ [.step t.resp, .setAppliedIndex t.resp.AppliedIndex]) := by
              simp only [handleApplyLogTaskLoop, hf, herr, hstep, hset, Bool.not_true,
                Bool.false_eq_true, if_false]
            have hst : steppedOf (calls ++ [.step t.resp, .setAppliedIndex t.resp.AppliedIndex]) =
                steppedOf calls ++ [t.resp] := by
              simp [steppedOf_append, steppedOf]
            rw [heq]
            refine ⟨?_, ?_, ?_⟩
            · intro res hres
              obtain ⟨a1, a2, a3, a4, a5⟩ := ih1 res hres
              refine ⟨?_, ?_, ?_, a4, ?_⟩
              · rw [a1, hst]; simp [List.takeWhile_cons, hf]
              · rw [a2]; simp [List.dropWhile_cons, hf]
              · rw [a3]; simp [List.takeWhile_cons, hf]
              · intro t1 ht1
                simp only [List.takeWhile_cons, hf, if_true, List.mem_cons] at ht1
                rcases ht1 with h | h
                · rw [h]; exact herr
                · exact a5 t1 h
            · intro m res hres
              obtain ⟨k, b1, b2, b3⟩ := ih2 m res hres
              refine ⟨k + 1, by simp [List.takeWhile_cons, hf]; omega, by simpa using b2, ?_⟩
              rcases b3 with h | h
              · exact Or.inl (by rw [h, hst]; simp)
              · exact Or.inr (by rw [h, hst]; simp)
            · intro h1 h2 h3
              exact ih3 (fun t1 ht1 => h1 t1 (by simp [List.takeWhile_cons, hf, ht1])) h2 h3
    · have hf2 : t.finished = false := by simpa using hf
      refine ⟨?_, ?_, ?_⟩
      · intro res hres
        simp only [handleApplyLogTaskLoop, hf2, Bool.not_false, if_true,
          Outcome.returned.injEq] at hres
        subst hres
        simp [List.takeWhile_cons, List.dropWhile_cons, hf2]
      · intro m res hres
        simp [handleApplyLogTaskLoop, hf2] at hres
      · intro _ _ _
        simp only [handleApplyLogTaskLoop, hf2, Bool.not_false, if_true]
        exact ⟨_, rfl⟩

/-- C16 as stated fails: in a queue of three finished tasks whose second
carries an error, the longest prefix of finished tasks is the whole queue, but
`handleAppendLogTask` and `handleApplyLogTask` panic having stepped the
response of the first task only, with the last two tasks left in the queue. -/
theorem handleLogTasks_panic_on_failed_task :
    (failedQueue.takeWhile fun t => t.finished) = failedQueue ∧
    (handleAppendLogTask sampleReplica (sampleHandler 0 [] failedQueue [] 0)).isPanicked = true ∧
    steppedOf (handleAppendLogTask sampleReplica (sampleHandler 0 [] failedQueue [] 0)).value.calls
      = [(doneTask 1 none).resp] ∧
    (handleAppendLogTask sampleReplica
      (sampleHandler 0 [] failedQueue [] 0)).value.handler.appendLogStoreQueue
      = failedQueue.drop 1 ∧
    (handleApplyLogTask sampleReplica (sampleHandler 0 [] [] failedQueue 0)).isPanicked = true ∧
    steppedOf (handleApplyLogTask sampleReplica (sampleHandler 0 [] [] failedQueue 0)).value.calls
      = [(doneTask 1 none).resp] := by
  decide

/-- C16, amended: `handleAppendLogTask` and `handleApplyLogTask` go through the
longest prefix of finished tasks of their queue in order.  When the call
returns, it has stepped exactly the responses of that prefix, in queue order,
has removed exactly those tasks, none of which carries an error, and reports an
event if and only if the prefix is non-empty.  When it panics, at the task at
position `k` of the prefix, the tasks before it are removed and the responses
stepped are those of the tasks before it, with or without the response of that
task.  It returns whenever no task of the prefix carries an error and no call
of the replica fails. -/
theorem handleLogTasks_in_order {ρ : Type} (ra : ReplicaAction ρ) (e : eventHandler ρ) :
    ((∀ res, handleAppendLogTask ra e = .returned res →
        steppedOf res.calls =
          (e.appendLogStoreQueue.takeWhile fun t => t.finished).map (fun t => t.resp) ∧
        res.handler.appendLogStoreQueue = e.appendLogStoreQueue.dropWhile (fun t => t.finished) ∧
        (res.hasEvent = true ↔ (e.appendLogStoreQueue.takeWhile fun t => t.finished) ≠ []) ∧
        res.err = none ∧
        ∀ t ∈ e.appendLogStoreQueue.takeWhile (fun t => t.finished), t.err = none) ∧
     (∀ m res, handleAppendLogTask ra e = .panicked m res →
        ∃ k, k < (e.appendLogStoreQueue.takeWhile fun t => t.finished).length ∧
          res.handler.appendLogStoreQueue = e.appendLogStoreQueue.drop k ∧
          (steppedOf res.calls = (e.appendLogStoreQueue.take k).map (fun t => t.resp) ∨
           steppedOf res.calls = (e.appendLogStoreQueue.take (k + 1)).map (fun t => t.resp))) ∧
     ((∀ t ∈ e.appendLogStoreQueue.takeWhile (fun t => t.finished), t.err = none) →
        (∀ r m, ∃ r1, ra.step r m = .ok r1) →
        (∀ r i, ∃ r1, ra.setLastIndex r i = .ok r1) →
        ∃ res, handleAppendLogTask ra e = .returned res)) ∧
    ((∀ res, handleApplyLogTask ra e = .returned res →
        steppedOf res.calls =
          (e.applyLogStoreQueue.takeWhile fun t => t.finished).map (fun t => t.resp) ∧
        res.handler.applyLogStoreQueue = e.applyLogStoreQueue.dropWhile (fun t => t.finished) ∧
        (res.hasEvent = true ↔ (e.applyLogStoreQueue.takeWhile fun t => t.finished) ≠ []) ∧
        res.err = none ∧
        ∀ t ∈ e.applyLogStoreQueue.takeWhile (fun t => t.finished), t.err = none) ∧
     (∀ m res, handleApplyLogTask ra e = .panicked m res →
        ∃ k, k < (e.applyLogStoreQueue.takeWhile fun t => t.finished).length ∧
          res.handler.applyLogStoreQueue = e.applyLogStoreQueue.drop k ∧
          (steppedOf res.calls = (e.applyLogStoreQueue.take k).map (fun t => t.resp) ∨
           steppedOf res.calls = (e.applyLogStoreQueue.take (k + 1)).map (fun t => t.resp))) ∧
     ((∀ t ∈ e.applyLogStoreQueue.takeWhile (fun t => t.finished), t.err = none) →
        (∀ r m, ∃ r1, ra.step r m = .ok r1) →
        (∀ r i, ∃ r1, ra.setAppliedIndex r i = .ok r1) →
        ∃ res, handleApplyLogTask ra e = .returned res)) := by
  obtain ⟨a1, a2, a3⟩ := handleAppendLogTaskLoop_spec ra e.appendLogStoreQueue e false []
  obtain ⟨b1, b2, b3⟩ := handleApplyLogTaskLoop_spec ra e.applyLogStoreQueue e false []
  refine ⟨⟨?_, ?_, a3⟩, ⟨?_, ?_, b3⟩⟩
  · intro res hres
    obtain ⟨c1, c2, c3, c4, c5⟩ := a1 res hres
    refine ⟨by simpa [steppedOf] using c1, c2, ?_, c4, c5⟩
    rw [c3]
    simp [List.isEmpty_iff]
  · intro m res hres
    simpa [steppedOf] using a2 m res hres
  · intro res hres
    obtain ⟨c1, c2, c3, c4, c5⟩ := b1 res hres
    refine ⟨by simpa [steppedOf] using c1, c2, ?_, c4, c5⟩
    rw [c3]
    simp [List.isEmpty_iff]
  · intro m res hres
    simpa [steppedOf] using b2 m res hres

/-- C16, amended, on an input: with two finished tasks, an unfinished one and a
finished one in the queue, the call steps the responses of the first two,
leaves the other two queued and reports an event. -/
theorem handleLogTasks_in_order_witness :
    steppedOf (handleAppendLogTask sampleReplica
        (sampleHandler 0 [] waitingQueue [] 0)).value.calls
      = [(doneTask 1 none).resp, (doneTask 2 none).resp] ∧
    (handleAppendLogTask sampleReplica
        (sampleHandler 0 [] waitingQueue [] 0)).value.handler.appendLogStoreQueue
      = [pendingTask, doneTask 3 none] ∧
    ((handleAppendLogTask sampleReplica (sampleHandler 0 [] waitingQueue [] 0)).value.hasEvent
      = true ↔ (waitingQueue.takeWhile fun t => t.finished) ≠ []) :=
  ⟨by decide, by decide,
    ((handleLogTasks_in_order sampleReplica (sampleHandler 0 [] waitingQueue [] 0)).1.1
      (handleAppendLogTask sampleReplica (sampleHandler 0 [] waitingQueue [] 0)).value
      rfl).2.2.1⟩

/-! ## The roles of a channel, the sync hand-off and the shard number of a slot -/

/-- C21, the defect: after `becomeProxy(2)` on `sampleChannel` the role is
proxy, the leader id is 2 and the forwarding, permission-checking, storage and
delivering cursors are 0, but the acknowledgement cursor is still 3; on every
channel `becomeProxy` leaves the acknowledgement cursor as it was. -/
theorem becomeProxy_keeps_sendackingIndex :
    sampleChannel.msgQueue.sendackingIndex = 3 ∧
    (sampleChannel.becomeProxy 2).msgQueue.sendackingIndex = 3 ∧
    (sampleChannel.becomeProxy 2).role = .channelRoleProxy ∧
    (sampleChannel.becomeProxy 2).leaderId = 2 ∧
    (sampleChannel.becomeProxy 2).msgQueue.forwardingIndex = 0 ∧
    (sampleChannel.becomeProxy 2).msgQueue.permissionCheckingIndex = 0 ∧
    (sampleChannel.becomeProxy 2).msgQueue.storagingIndex = 0 ∧
    (sampleChannel.becomeProxy 2).msgQueue.deliveringIndex = 0 ∧
    ∀ (c : channel) (leaderId : Nat),
      (c.becomeProxy leaderId).msgQueue.sendackingIndex = c.msgQueue.sendackingIndex := by
  refine ⟨by decide, by decide, by decide, by decide, by decide, by decide, by decide,
    by decide, ?_⟩
  intro c leaderId
  rfl

theorem parseUintBitsLoop_digits (maxVal : Nat) (hmax : maxVal < 2 ^ 64) (cs : List Char) :
    ∀ acc : Nat, (∀ c ∈ cs, c.isDigit = true) → decimalValue cs acc ≤ maxVal →
      parseUintBitsLoop maxVal cs acc = (decimalValue cs acc, none) := by
  induction cs with
  | nil => intro acc _ _; rfl
  | cons c cs ih =>
    intro acc hd hlt
    have hc : c.isDigit = true := hd c (List.mem_cons_self _ _)
    have hle := le_decimalValue cs (acc * 10 + digitValue c)
    have hlt2 : decimalValue cs (acc * 10 + digitValue c) ≤ maxVal := by
      simpa [decimalValue] using hlt
    unfold parseUintBitsLoop
    simp only [hc, Bool.not_true, Bool.false_eq_true, if_false]
    norm_num at hmax ⊢
    have h1 : ¬ (1844674407370955162 ≤ acc) := by omega
    have h2 : ¬ (maxVal < acc * 10 + digitValue c) := by omega
    simp only [h1, h2, if_false]
    rw [ih _ (fun x hx => hd x (List.mem_cons_of_mem _ hx)) hlt2]
    simp [decimalValue]

theorem ParseUintBits_toDigits (n : Nat) (h : n < 2 ^ 32) :
    ParseUintBits 32 (Nat.toDigits 10 n) = (n, none) := by
  unfold ParseUintBits
  rw [if_neg (toDigits_ne_nil n),
    parseUintBitsLoop_digits _ (by norm_num) _ 0 (toDigits_isDigit n)
      (by rw [decimalValue_toDigits]; omega),
    decimalValue_toDigits]

theorem GetSlotShardNo_data (slotID : Nat) :
    (GetSlotShardNo slotID).data = "slot".data ++ '-' :: Nat.toDigits 10 slotID := by
  simp [GetSlotShardNo, String.data_append, toString_nat_data]

theorem GetSlotShardNo_split (slotID : Nat) :
    stringsSplit (GetSlotShardNo slotID).data '-' = ["slot".data, Nat.toDigits 10 slotID] := by
  have hr : (GetSlotShardNo slotID).data =
      ['-'].intercalate ["slot".data, Nat.toDigits 10 slotID] := by
    rw [GetSlotShardNo_data]
    simp [List.intercalate]
  rw [hr, stringsSplit]
  apply List.splitOn_intercalate
  · intro l hl
    simp only [List.mem_cons, List.mem_singleton, List.not_mem_nil, or_false] at hl
    rcases hl with hl | hl
    · rw [hl]; decide
    · rw [hl]; exact minus_not_mem_toDigits slotID
  · simp

/-- C25: for every 32-bit slot id, `GetSlotShardNo` is `slot-` followed by the
decimal form of the id, `GetSlotId` returns the id on it without a panic, and
`GetSlotShardNo` is injective. -/
theorem GetSlotId_GetSlotShardNo (slotID : Nat) (h : slotID < 2 ^ 32) :
    GetSlotShardNo slotID = "slot-" ++ toString slotID ∧
    (GetSlotShardNo slotID).data = "slot-".data ++ Nat.toDigits 10 slotID ∧
    GetSlotId (GetSlotShardNo slotID) = .returned slotID ∧
    ∀ other : Nat, GetSlotShardNo slotID = GetSlotShardNo other → slotID = other := by
  refine ⟨rfl, ?_, ?_, ?_⟩
  · rw [GetSlotShardNo_data]; rfl
  · unfold GetSlotId
    simp only [GetSlotShardNo_split, List.length_cons, List.length_nil, if_true]
    have hp := ParseUintBits_toDigits slotID h
    have h32 : slotID < 4294967296 := by norm_num at h; exact h
    simp [List.getD, hp, uint64ToUint32, Nat.mod_eq_of_lt h, h32]
  · intro other ho
    have hd := congrArg String.data ho
    rw [GetSlotShardNo_data, GetSlotShardNo_data] at hd
    have := List.append_cancel_left hd
    exact toDigits_injective _ _ (List.cons.inj this).2

/-- C25, on an input: the slot id 42 gives `slot-42`, which reads back as 42. -/
theorem GetSlotId_GetSlotShardNo_witness :
    GetSlotShardNo 42 = "slot-42" ∧ GetSlotId "slot-42" = .returned 42 :=
  ⟨by decide, (GetSlotId_GetSlotShardNo 42 (by norm_num)).2.2.1⟩

/-- C26: `setMsgSyncResp` stores the message and moves the status from syncing
to synced exactly when the status is syncing, the message is a `SyncResp` and
its index is the index being synced, and otherwise leaves the slot as it was;
an accepted response is handed over by the next `getAndResetMsgSyncResp`, with
true, and not by the one after it; `getAndResetMsgSyncResp` returns the stored
response and true exactly when the status is synced, and then the status is
none, so that a second call returns false and leaves the slot as it is; from
the status none a `Sync` is transmitted and from the status syncing it is
transmitted once more than `syncTimeout` has elapsed, when `NewMessage`
succeeds; `newSlot` sets `syncTimeout` to five seconds. -/
theorem slot_sync_handoff (s : slot) :
    (∀ resp : Message, s.sync.syncStatus = .syncStatusSyncing → resp.MsgType = .MsgSyncResp →
      resp.Index = s.sync.syncingLogIndex →
      s.setMsgSyncResp resp =
        { s with sync := { s.sync with resp := resp, syncStatus := .syncStatusSynced } } ∧
      (s.setMsgSyncResp resp).getAndResetMsgSyncResp.2 = (resp, true) ∧
      (s.setMsgSyncResp resp).getAndResetMsgSyncResp.1.getAndResetMsgSyncResp.2 =
        (EmptyMessage, false)) ∧
    (∀ m : Message, ¬ (s.sync.syncStatus = .syncStatusSyncing ∧ m.MsgType = .MsgSyncResp ∧
        m.Index = s.sync.syncingLogIndex) → s.setMsgSyncResp m = s) ∧
    (s.sync.syncStatus = .syncStatusSynced →
      s.getAndResetMsgSyncResp =
        ({ s with sync := { s.sync with syncStatus := .syncStatusNone } }, s.sync.resp, true) ∧
      s.getAndResetMsgSyncResp.1.getAndResetMsgSyncResp =
        (s.getAndResetMsgSyncResp.1, EmptyMessage, false)) ∧
    (s.sync.syncStatus ≠ .syncStatusSynced →
      s.getAndResetMsgSyncResp = (s, EmptyMessage, false)) ∧
    (∀ (msg : Message) (now : Int), msg.MsgType = .MsgSync →
      s.sync.syncStatus = .syncStatusNone →
      (slot.sendMessage true now s msg).2 = some msg ∧
      (slot.sendMessage true now s msg).1.sync.syncStatus = .syncStatusSyncing ∧
      (slot.sendMessage true now s msg).1.sync.syncingLogIndex = msg.Index) ∧
    (∀ (msg : Message) (now : Int), msg.MsgType = .MsgSync →
      s.sync.syncStatus = .syncStatusSyncing →
      now - s.sync.startSyncTime > s.sync.syncTimeout →
      (slot.sendMessage true now s msg).2 = some msg ∧
      (slot.sendMessage true now s msg).1.sync.startSyncTime = now) ∧
    (∀ slotId : Nat, (newSlot slotId).sync.syncTimeout = 5000000000 ∧
      (newSlot slotId).sync.syncStatus = .syncStatusNone) := by
  refine ⟨?_, ?_, ?_, ?_, ?_, ?_, ?_⟩
  · intro resp h1 h2 h3
    have hset : s.setMsgSyncResp resp =
        { s with sync := { s.sync with resp := resp, syncStatus := .syncStatusSynced } } := by
      simp [slot.setMsgSyncResp, h1, h2, h3]
    refine ⟨hset, ?_, ?_⟩
    · rw [hset]
      simp [slot.getAndResetMsgSyncResp]
    · rw [hset]
      simp [slot.getAndResetMsgSyncResp]
  · intro m hm
    unfold slot.setMsgSyncResp
    by_cases h1 : s.sync.syncStatus = .syncStatusSyncing
    · by_cases h2 : m.MsgType = .MsgSyncResp
      · have h3 : m.Index ≠ s.sync.syncingLogIndex := fun h3 => hm ⟨h1, h2, h3⟩
        simp [h1, h2, h3]
      · simp [h1, h2]
    · simp [h1]
  · intro h
    simp [slot.getAndResetMsgSyncResp, h]
  · intro h
    unfold slot.getAndResetMsgSyncResp
    cases hs : s.sync.syncStatus <;> simp_all
  · intro msg now hsync h
    simp [slot.sendMessage, hsync, h]
  · intro msg now hsync h ht
    simp [slot.sendMessage, hsync, h, ht]
  · intro slotId
    exact ⟨by simp [newSlot, timeSecond], rfl⟩

/-- C26, on an input: the slot that sent the `Sync` for index 5 accepts the
`SyncResp` for index 5, hands it over once, and a second call returns false;
six seconds after the `Sync` was sent it is sent again. -/
theorem slot_sync_handoff_witness :
    syncingSlot.setMsgSyncResp (syncRespMsg 5) =
      { syncingSlot with
        sync := { syncingSlot.sync with resp := syncRespMsg 5,
                                        syncStatus := .syncStatusSynced } } ∧
    (syncingSlot.setMsgSyncResp (syncRespMsg 5)).getAndResetMsgSyncResp.2
      = (syncRespMsg 5, true) ∧
    (syncingSlot.setMsgSyncResp (syncRespMsg 5)).getAndResetMsgSyncResp.1.getAndResetMsgSyncResp.2
      = (EmptyMessage, false) ∧
    (slot.sendMessage true 6000000000 syncingSlot (syncMsg 5)).2 = some (syncMsg 5) :=
  ⟨((slot_sync_handoff syncingSlot).1 (syncRespMsg 5) rfl rfl rfl).1,
    ((slot_sync_handoff syncingSlot).1 (syncRespMsg 5) rfl rfl rfl).2.1,
    ((slot_sync_handoff syncingSlot).1 (syncRespMsg 5) rfl rfl rfl).2.2,
    ((slot_sync_handoff syncingSlot).2.2.2.2.2.1 (syncMsg 5) 6000000000 rfl rfl
      (by decide)).1⟩

/-! ## Lemmas on the log storage of messages -/

theorem messagesOfLogs_ok (db : clusterstore.DB) :
    ∀ (logs : List clusterstore.Log) (msgs : List clusterstore.Message),
    clusterstore.messagesOfLogs db logs = .ok msgs →
    List.Forall₂ (fun log msg => ∃ m0, db.Unmarshal log.Data = .ok m0 ∧
      msg = clusterstore.messageOfLog m0 log) logs msgs
  | [], msgs, h => by
    simp only [clusterstore.messagesOfLogs, Except.ok.injEq] at h
    subst h
    exact List.Forall₂.nil
  | log :: rest, msgs, h => by
    simp only [clusterstore.messagesOfLogs] at h
    cases hu : db.Unmarshal log.Data with
    | error err => simp [hu] at h
    | ok m0 =>
      cases hr : clusterstore.messagesOfLogs db rest with
      | error err => simp [hu, hr] at h
      | ok tail =>
        simp only [hu, hr, Except.ok.injEq] at h
        subst h
        exact List.Forall₂.cons ⟨m0, hu, rfl⟩ (messagesOfLogs_ok db rest tail hr)

theorem messagesOfLogs_total (db : clusterstore.DB) :
    ∀ logs : List clusterstore.Log, (∀ log ∈ logs, ∃ m, db.Unmarshal log.Data = .ok m) →
    ∃ msgs, clusterstore.messagesOfLogs db logs = .ok msgs
  | [], _ => ⟨[], rfl⟩
  | log :: rest, h => by
    obtain ⟨m, hm⟩ := h log (List.mem_cons_self _ _)
    obtain ⟨tail, ht⟩ := messagesOfLogs_total db rest
      (fun l hl => h l (List.mem_cons_of_mem _ hl))
    exact ⟨clusterstore.messageOfLog m log :: tail, by
      simp [clusterstore.messagesOfLogs, hm, ht]⟩

theorem dbReqsOf_ok (db : clusterstore.DB) :
    ∀ (reqs : List clusterstore.AppendLogReq) (dbReqs : List clusterstore.AppendMessagesReq),
    clusterstore.dbReqsOf db reqs = .ok dbReqs →
    List.Forall₂ (fun req dbReq =>
      dbReq.ChannelId = (db.ChannelFromlKey req.HandleKey).1 ∧
      dbReq.ChannelType = (db.ChannelFromlKey req.HandleKey).2 ∧
      clusterstore.messagesOfLogs db req.Logs = .ok dbReq.Messages) reqs dbReqs
  | [], dbReqs, h => by
    simp only [clusterstore.dbReqsOf, Except.ok.injEq] at h
    subst h
    exact List.Forall₂.nil
  | req :: rest, dbReqs, h => by
    simp only [clusterstore.dbReqsOf] at h
    cases hm : clusterstore.messagesOfLogs db req.Logs with
    | error err => simp [hm] at h
    | ok msgs =>
      cases hr : clusterstore.dbReqsOf db rest with
      | error err => simp [hm, hr] at h
      | ok tail =>
        simp only [hm, hr, Except.ok.injEq] at h
        subst h
        exact List.Forall₂.cons ⟨rfl, rfl, hm⟩ (dbReqsOf_ok db rest tail hr)

theorem dbReqsOf_total (db : clusterstore.DB) :
    ∀ reqs : List clusterstore.AppendLogReq,
    (∀ req ∈ reqs, ∀ log ∈ req.Logs, ∃ m, db.Unmarshal log.Data = .ok m) →
    ∃ dbReqs, clusterstore.dbReqsOf db reqs = .ok dbReqs ∧ dbReqs.length = reqs.length
  | [], _ => ⟨[], rfl, rfl⟩
  | req :: rest, h => by
    obtain ⟨msgs, hm⟩ := messagesOfLogs_total db req.Logs (h req (List.mem_cons_self _ _))
    obtain ⟨tail, ht, hl⟩ := dbReqsOf_total db rest
      (fun r hr => h r (List.mem_cons_of_mem _ hr))
    refine ⟨{ ChannelId := (db.ChannelFromlKey req.HandleKey).1,
              ChannelType := (db.ChannelFromlKey req.HandleKey).2,
              Messages := msgs } :: tail, ?_, ?_⟩
    · simp [clusterstore.dbReqsOf, hm, ht]
    · simp [hl]

theorem logsOfMessages_ok (db : clusterstore.DB) :
    ∀ (messages : List clusterstore.Message) (logs : List clusterstore.Log),
    clusterstore.logsOfMessages db messages = .ok logs →
    List.Forall₂ (fun msg log => ∃ data, db.Marshal msg = .ok data ∧
      log = clusterstore.logOfMessage msg data) messages logs
  | [], logs, h => by
    simp only [clusterstore.logsOfMessages, Except.ok.injEq] at h
    subst h
    exact List.Forall₂.nil
  | msg :: rest, logs, h => by
    simp only [clusterstore.logsOfMessages] at h
    cases hu : db.Marshal msg with
    | error err => simp [hu] at h
    | ok data =>
      cases hr : clusterstore.logsOfMessages db rest with
      | error err => simp [hu, hr] at h
      | ok tail =>
        simp only [hu, hr, Except.ok.injEq] at h
        subst h
        exact List.Forall₂.cons ⟨data, hu, rfl⟩ (logsOfMessages_ok db rest tail hr)

theorem lastIndexAndTermLoop_found (db : clusterstore.DB) (channelId : String)
    (channelType : Nat) (k : Nat) (hk : 0 < k)
    (hfound : (db.LoadMsg channelId channelType k).2 ≠ some .ErrNotFound) :
    ∀ (q : Nat) (m0 : clusterstore.Message), k ≤ q →
    (∀ j, k < j → j ≤ q → (db.LoadMsg channelId channelType j).2 = some .ErrNotFound) →
    clusterstore.lastIndexAndTermLoop db channelId channelType q m0 =
      db.LoadMsg channelId channelType k
  | 0, m0, hq, _ => by omega
  | q + 1, m0, hq, hmiss => by
    unfold clusterstore.lastIndexAndTermLoop
    by_cases hkq : k = q + 1
    · subst hkq
      rcases hl : db.LoadMsg channelId channelType (q + 1) with ⟨m, e⟩
      rw [hl] at hfound
      cases e with
      | none => rfl
      | some err =>
        have hne : err ≠ .ErrNotFound := fun h => hfound (by simp [h])
        simp [hne]
    · have hn := hmiss (q + 1) (by omega) (le_refl _)
      rcases hl : db.LoadMsg channelId channelType (q + 1) with ⟨m, e⟩
      rw [hl] at hn
      simp only at hn
      subst hn
      simp only [if_true]
      exact lastIndexAndTermLoop_found db channelId channelType k hk hfound q m (by omega)
        (fun j h1 h2 => hmiss j h1 (by omega))

theorem lastIndexAndTermLoop_missing (db : clusterstore.DB) (channelId : String)
    (channelType : Nat)
    (hzero : ∀ j, (db.LoadMsg channelId channelType j).2 = some .ErrNotFound →
      (db.LoadMsg channelId channelType j).1 = clusterstore.emptyMessage) :
    ∀ (q : Nat) (m0 : clusterstore.Message), m0 = clusterstore.emptyMessage →
    (∀ j, 0 < j → j ≤ q → (db.LoadMsg channelId channelType j).2 = some .ErrNotFound) →
    clusterstore.lastIndexAndTermLoop db channelId channelType q m0 =
      (clusterstore.emptyMessage, none)
  | 0, m0, h0, _ => by
    subst h0
    rfl
  | q + 1, m0, _, hmiss => by
    unfold clusterstore.lastIndexAndTermLoop
    have hn := hmiss (q + 1) (by omega) (le_refl _)
    have hz := hzero (q + 1) hn
    rcases hl : db.LoadMsg channelId channelType (q + 1) with ⟨m, e⟩
    rw [hl] at hn hz
    simp only at hn hz
    subst hn
    simp only [if_true]
    exact lastIndexAndTermLoop_missing db channelId channelType hzero q m hz
      (fun j h1 h2 => hmiss j h1 (by omega))

/-- C24 as stated fails: a log appended at the index 2^32 + 5 with the term 2
is handed to the database as a message of sequence 5, and `Logs` reads the
message of sequence 5 back as a log of index 5. -/
theorem AppendLogBatch_truncates_index :
    (clusterstore.AppendLogBatch (memoryDB 0 [] none) [appendReqAt 4294967301]).2 =
      some [{ ChannelId := "g1", ChannelType := 2, Messages := [storedMsg 5 2] }] ∧
    clusterstore.Logs (memoryDB 5 [storedMsg 5 2] none) "g1" 5 0 0 =
      .ok [{ Id := 7, Index := 5, Term := 2, Data := [7, 1] }] ∧
    (5 : Nat) ≠ 4294967301 :=
  ⟨by decide, rfl, by decide⟩

/-- C24, amended: `AppendLogBatch` hands to the database, for every request and
every log in order, the decoded message with the sequence `index mod 2^32`,
which is the index when the index is below 2^32, and with the term of the
log, and it does so whenever every log decodes; `Logs` returns for each message
loaded a log whose index is the sequence of the message, whose term is the
term of the message mod 2^32 and whose id is the message id; so a log
appended at an index below 2^32 with a 32-bit term is read back at the same
index and term. -/
theorem AppendLogBatch_Logs (db : clusterstore.DB) :
    (∀ reqs err dbReqs, clusterstore.AppendLogBatch db reqs = (err, some dbReqs) →
      err = db.AppendMessagesBatch dbReqs ∧
      List.Forall₂ (fun req dbReq =>
        List.Forall₂ (fun log msg =>
          msg.MessageSeq = log.Index % 2 ^ 32 ∧ msg.Term = log.Term ∧
          (log.Index < 2 ^ 32 → msg.MessageSeq = log.Index) ∧
          ∃ m0, db.Unmarshal log.Data = .ok m0 ∧ msg.MessageID = m0.MessageID ∧
            msg.Payload = m0.Payload) req.Logs dbReq.Messages) reqs dbReqs) ∧
    (∀ reqs, reqs ≠ [] →
      (∀ req ∈ reqs, ∀ log ∈ req.Logs, ∃ m, db.Unmarshal log.Data = .ok m) →
      ∃ dbReqs, clusterstore.AppendLogBatch db reqs =
        (db.AppendMessagesBatch dbReqs, some dbReqs)) ∧
    (∀ shardNo startLogIndex endLogIndex limitSize logs,
      clusterstore.Logs db shardNo startLogIndex endLogIndex limitSize = .ok logs →
      ∃ endIndex messages,
        db.LoadNextRangeMsgsForSize (db.ChannelFromlKey shardNo).1
          (db.ChannelFromlKey shardNo).2 startLogIndex endIndex limitSize = .ok messages ∧
        List.Forall₂ (fun msg log =>
          log.Index = msg.MessageSeq ∧ log.Term = msg.Term % 2 ^ 32 ∧
          log.Id = toUint64 msg.MessageID ∧ db.Marshal msg = .ok log.Data) messages logs) ∧
    (∀ (m0 : clusterstore.Message) (log : clusterstore.Log) (data : List Nat),
      log.Index < 2 ^ 32 → log.Term < 2 ^ 32 →
      (clusterstore.logOfMessage (clusterstore.messageOfLog m0 log) data).Index = log.Index ∧
      (clusterstore.logOfMessage (clusterstore.messageOfLog m0 log) data).Term = log.Term) := by
  refine ⟨?_, ?_, ?_, ?_⟩
  · intro reqs err dbReqs h
    unfold clusterstore.AppendLogBatch at h
    cases hd : clusterstore.dbReqsOf db reqs with
    | error e => simp [hd] at h
    | ok ds =>
      simp only [hd] at h
      by_cases hlen : ds.length = 0
      · simp [hlen] at h
      · simp only [hlen, if_false, Prod.mk.injEq, Option.some.injEq] at h
        obtain ⟨h1, h2⟩ := h
        subst h2
        refine ⟨h1.symm, ?_⟩
        refine (dbReqsOf_ok db reqs ds hd).imp ?_
        intro req dbReq hreq
        refine (messagesOfLogs_ok db req.Logs dbReq.Messages hreq.2.2).imp ?_
        rintro log msg ⟨m0, hm0, rfl⟩
        refine ⟨rfl, rfl, ?_, m0, hm0, rfl, rfl⟩
        intro hlt
        exact Nat.mod_eq_of_lt hlt
  · intro reqs hne hall
    obtain ⟨ds, hd, hl⟩ := dbReqsOf_total db reqs hall
    have hlen : ds.length ≠ 0 := by
      rw [hl]
      exact fun h => hne (List.length_eq_zero.mp h)
    exact ⟨ds, by simp [clusterstore.AppendLogBatch, hd, hlen]⟩
  · intro shardNo startLogIndex endLogIndex limitSize logs h
    unfold clusterstore.Logs at h
    cases hl : clusterstore.LastIndex db shardNo with
    | error e => simp [hl] at h
    | ok lastIdx =>
      simp only [hl] at h
      generalize hend : (if endLogIndex = 0 ∨ endLogIndex > (lastIdx + 1) % 2 ^ 64
        then (lastIdx + 1) % 2 ^ 64 else endLogIndex) = endIndex at h
      cases hm : db.LoadNextRangeMsgsForSize (db.ChannelFromlKey shardNo).1
          (db.ChannelFromlKey shardNo).2 startLogIndex endIndex limitSize with
      | error e => simp [hm] at h
      | ok messages =>
        simp only [hm] at h
        refine ⟨endIndex, messages, hm, ?_⟩
        by_cases hlen : messages.length = 0
        · simp only [hlen, if_true, Except.ok.injEq] at h
          subst h
          rw [List.length_eq_zero.mp hlen]
          exact List.Forall₂.nil
        · simp only [hlen, if_false] at h
          refine (logsOfMessages_ok db messages logs h).imp ?_
          rintro msg log ⟨data, hdata, rfl⟩
          exact ⟨rfl, rfl, rfl, hdata⟩
  · intro m0 log data h1 h2
    exact ⟨Nat.mod_eq_of_lt h1, Nat.mod_eq_of_lt h2⟩

/-- C24, amended, on an input: a log appended at the index 5 with the term 2 is
stored as the message of sequence 5 and term 2. -/
theorem AppendLogBatch_Logs_witness :
    clusterstore.AppendLogBatch (memoryDB 0 [] none) [appendReqAt 5] =
      (none, some [{ ChannelId := "g1", ChannelType := 2, Messages := [storedMsg 5 2] }]) ∧
    (storedMsg 5 2).MessageSeq = (5 : Nat) % 2 ^ 32 :=
  ⟨by decide,
    (List.forall₂_cons.mp (List.forall₂_cons.mp
      ((AppendLogBatch_Logs (memoryDB 0 [] none)).1 [appendReqAt 5] none
        [{ ChannelId := "g1", ChannelType := 2, Messages := [storedMsg 5 2] }]
        (by decide)).2).1).1.1⟩

/-- C30: `LastIndexAndTerm` is a total function; it returns the error of
`LastIndex`; it returns (0, 0) without error when the last index is 0; when
`k` is the greatest index at or below the last index whose load is not answered
with not-found, it returns the sequence and the term of the message loaded at
`k` (the term mod 2^32, which is the term for a 32-bit term), or the error of
that load; and when every load from the last index down to 1 is answered with
not-found and the zero message, it returns (0, 0) without error. -/
theorem LastIndexAndTerm_spec (db : clusterstore.DB) (shardNo : String) :
    (∀ err, clusterstore.LastIndex db shardNo = .error err →
      clusterstore.LastIndexAndTerm db shardNo = (0, 0, some err)) ∧
    (clusterstore.LastIndex db shardNo = .ok 0 →
      clusterstore.LastIndexAndTerm db shardNo = (0, 0, none)) ∧
    (∀ lastIndex k, clusterstore.LastIndex db shardNo = .ok lastIndex →
      0 < k → k ≤ lastIndex →
      (∀ j, k < j → j ≤ lastIndex →
        (db.LoadMsg (db.ChannelFromlKey shardNo).1 (db.ChannelFromlKey shardNo).2 j).2 =
          some .ErrNotFound) →
      (∀ msg, db.LoadMsg (db.ChannelFromlKey shardNo).1 (db.ChannelFromlKey shardNo).2 k =
          (msg, none) →
        clusterstore.LastIndexAndTerm db shardNo = (msg.MessageSeq, msg.Term % 2 ^ 32, none) ∧
        (msg.Term < 2 ^ 32 →
          clusterstore.LastIndexAndTerm db shardNo = (msg.MessageSeq, msg.Term, none))) ∧
      (∀ msg err, db.LoadMsg (db.ChannelFromlKey shardNo).1 (db.ChannelFromlKey shardNo).2 k =
          (msg, some err) → err ≠ .ErrNotFound →
        clusterstore.LastIndexAndTerm db shardNo = (0, 0, some err))) ∧
    (∀ lastIndex, clusterstore.LastIndex db shardNo = .ok lastIndex →
      (∀ j, (db.LoadMsg (db.ChannelFromlKey shardNo).1 (db.ChannelFromlKey shardNo).2 j).2 =
          some .ErrNotFound →
        (db.LoadMsg (db.ChannelFromlKey shardNo).1 (db.ChannelFromlKey shardNo).2 j).1 =
          clusterstore.emptyMessage) →
      (∀ j, 0 < j → j ≤ lastIndex →
        (db.LoadMsg (db.ChannelFromlKey shardNo).1 (db.ChannelFromlKey shardNo).2 j).2 =
          some .ErrNotFound) →
      clusterstore.LastIndexAndTerm db shardNo = (0, 0, none)) := by
  refine ⟨?_, ?_, ?_, ?_⟩
  · intro err h
    simp [clusterstore.LastIndexAndTerm, h]
  · intro h
    simp [clusterstore.LastIndexAndTerm, h]
  · intro lastIndex k hl hk hkl hmiss
    have hne : lastIndex ≠ 0 := by omega
    refine ⟨?_, ?_⟩
    · intro msg hmsg
      have hloop := lastIndexAndTermLoop_found db _ _ k hk (by rw [hmsg]; simp) lastIndex
        clusterstore.emptyMessage hkl hmiss
      have hres : clusterstore.LastIndexAndTerm db shardNo =
          (msg.MessageSeq, msg.Term % 2 ^ 32, none) := by
        simp [clusterstore.LastIndexAndTerm, hl, hne, hloop, hmsg, uint64ToUint32]
      refine ⟨hres, ?_⟩
      intro hlt
      rw [hres, Nat.mod_eq_of_lt hlt]
    · intro msg err hmsg herr
      have hloop := lastIndexAndTermLoop_found db _ _ k hk
        (by rw [hmsg]; simpa using herr) lastIndex clusterstore.emptyMessage hkl hmiss
      simp [clusterstore.LastIndexAndTerm, hl, hne, hloop, hmsg]
  · intro lastIndex hl hzero hmiss
    by_cases h0 : lastIndex = 0
    · simp [clusterstore.LastIndexAndTerm, hl, h0]
    · have hloop := lastIndexAndTermLoop_missing db _ _ hzero lastIndex
        clusterstore.emptyMessage rfl hmiss
      unfold clusterstore.LastIndexAndTerm
      simp only [hl, h0, if_false, hloop]
      rfl

/-- C30, on an input: with the last index 5 and the messages 1 and 3 stored,
the loads of 5 and 4 are answered with not-found and the call returns the
sequence 3 and the term 2. -/
theorem LastIndexAndTerm_spec_witness :
    clusterstore.LastIndexAndTerm (memoryDB 5 [storedMsg 1 1, storedMsg 3 2] none) "g1" =
      (3, 2, none) :=
  (((LastIndexAndTerm_spec (memoryDB 5 [storedMsg 1 1, storedMsg 3 2] none) "g1").2.2.1 5 3
    rfl (by decide) (by decide)
    (by
      intro j h1 h2
      have hj : j = 4 ∨ j = 5 := by omega
      rcases hj with rfl | rfl <;> rfl)).1 (storedMsg 3 2) (by decide)).2 (by decide)

/-! ## The leader terms and the logs of a `SyncGet` -/

/-- C29, the defect: after a single `SetLeaderTermStartIndex("slot-1", 3, 10)`
on an empty database `LeaderLastTerm` returns 0, and with the terms 1, 2 and 3
recorded it returns 2, the term before the greatest. -/
theorem LeaderLastTerm_skips_last :
    (emptyWukongDB.SetLeaderTermStartIndex "slot-1" 3 10).LeaderLastTerm "slot-1" = (0, none) ∧
    (((emptyWukongDB.SetLeaderTermStartIndex "slot-1" 1 1).SetLeaderTermStartIndex "slot-1" 2
      5).SetLeaderTermStartIndex "slot-1" 3 10).LeaderLastTerm "slot-1" = (2, none) := by
  decide

/-- C27, the defect: with the logs 1 to 5 stored, a `SyncGet` for the index 3
that carries the unstable log 3 is answered with the logs 4, 5, 3, by the slot
and by the channel, and a `SyncGet` for the index 5 that carries the unstable
log 5 is answered with no log. -/
theorem getAndMergeLogs_unstable_order :
    indexesOf (slot.getAndMergeLogs (filledStorage 5) 0 (newSlot 1)
      (syncGetMsg 3 [logAt 3])) = some [4, 5, 3] ∧
    indexesOf (clusterChannel.getAndMergeLogs (filledStorage 5) 0 "2:g1"
      (syncGetMsg 3 [logAt 3])) = some [4, 5, 3] ∧
    indexesOf (slot.getAndMergeLogs (filledStorage 5) 0 (newSlot 1)
      (syncGetMsg 5 [logAt 5])) = some [] ∧
    indexesOf (clusterChannel.getAndMergeLogs (filledStorage 5) 0 "2:g1"
      (syncGetMsg 5 [logAt 5])) = some [] ∧
    indexesOf (slot.getAndMergeLogs (filledStorage 5) 0 (newSlot 1) (syncGetMsg 3 []))
      = some [3, 4, 5] := by
  decide

/-! ## Lemmas on `ready` -/

theorem readyPayloadDecrypt_block (sliceWithSize : Nat → Nat → Nat → List ReactorChannelMessage) :
    stageBlock .ChannelActionPayloadDecrypt (channel.readyPayloadDecrypt sliceWithSize) := by
  intro c
  by_cases he : c.hasPayloadUnDecrypt = true
  · have hfl : c.payloadDecrypting = false := by
      cases hf : c.payloadDecrypting
      · rfl
      · simp [channel.hasPayloadUnDecrypt, hf] at he
    by_cases hm : (sliceWithSize ((c.msgQueue.payloadDecryptingIndex + 1) % 2 ^ 64)
        ((c.msgQueue.lastIndex + 1) % 2 ^ 64) 0).length > 0
    · have hact : (channel.readyPayloadDecrypt sliceWithSize c).actions = c.actions ++
          [⟨.ChannelActionPayloadDecrypt, 0, sliceWithSize ((c.msgQueue.payloadDecryptingIndex + 1) % 2 ^ 64)
            ((c.msgQueue.lastIndex + 1) % 2 ^ 64) 0⟩] := by
        simp only [channel.readyPayloadDecrypt, he, hm, if_true, channel.exec]
      refine ⟨?_, ?_, ?_, Or.inr ⟨_, hact, rfl, ?_, ?_⟩⟩
      · intro t1 ht
        cases t1 <;> first
          | exact absurd rfl ht
          | simp only [channel.readyPayloadDecrypt, he, hm, if_true, channel.exec, channel.stageFlag]
      · simp only [channel.readyPayloadDecrypt, he, hm, if_true, channel.exec]
      · simp only [channel.readyPayloadDecrypt, he, hm, if_true, channel.exec]
      · simp only [channel.stageFlag, hfl]
      · simp only [channel.readyPayloadDecrypt, he, hm, if_true, channel.exec, channel.stageFlag]
    · refine ⟨?_, ?_, ?_, Or.inl ?_⟩
      · intro t1 ht
        cases t1 <;> first
          | exact absurd rfl ht
          | simp only [channel.readyPayloadDecrypt, he, hm, if_true, if_false, channel.stageFlag]
      · simp only [channel.readyPayloadDecrypt, he, hm, if_true, if_false]
      · simp only [channel.readyPayloadDecrypt, he, hm, if_true, if_false]
      · simp only [channel.readyPayloadDecrypt, he, hm, if_true, if_false]
  · have he2 : c.hasPayloadUnDecrypt = false := by simpa using he
    refine ⟨?_, ?_, ?_, Or.inl ?_⟩ <;>
      simp only [channel.readyPayloadDecrypt, he2, Bool.false_eq_true, if_false, implies_true]

theorem readyPermissionCheck_block (sliceWithSize : Nat → Nat → Nat → List ReactorChannelMessage) :
    stageBlock .ChannelActionPermissionCheck (channel.readyPermissionCheck sliceWithSize) := by
  intro c
  by_cases he : c.hasPermissionUnCheck = true
  · have hfl : c.permissionChecking = false := by
      cases hf : c.permissionChecking
      · rfl
      · simp [channel.hasPermissionUnCheck, hf] at he
    by_cases hm : (sliceWithSize ((c.msgQueue.permissionCheckingIndex + 1) % 2 ^ 64)
        ((c.msgQueue.payloadDecryptingIndex + 1) % 2 ^ 64) 0).length > 0
    · have hact : (channel.readyPermissionCheck sliceWithSize c).actions = c.actions ++
          [⟨.ChannelActionPermissionCheck, 0, sliceWithSize ((c.msgQueue.permissionCheckingIndex + 1) % 2 ^ 64)
            ((c.msgQueue.payloadDecryptingIndex + 1) % 2 ^ 64) 0⟩] := by
        simp only [channel.readyPermissionCheck, he, hm, if_true, channel.exec]
      refine ⟨?_, ?_, ?_, Or.inr ⟨_, hact, rfl, ?_, ?_⟩⟩
      · intro t1 ht
        cases t1 <;> first
          | exact absurd rfl ht
          | simp only [channel.readyPermissionCheck, he, hm, if_true, channel.exec, channel.stageFlag]
      · simp only [channel.readyPermissionCheck, he, hm, if_true, channel.exec]
      · simp only [channel.readyPermissionCheck, he, hm, if_true, channel.exec]
      · simp only [channel.stageFlag, hfl]
      · simp only [channel.readyPermissionCheck, he, hm, if_true, channel.exec, channel.stageFlag]
    · refine ⟨?_, ?_, ?_, Or.inl ?_⟩
      · intro t1 ht
        cases t1 <;> first
          | exact absurd rfl ht
          | simp only [channel.readyPermissionCheck, he, hm, if_true, if_false, channel.stageFlag]
      · simp only [channel.readyPermissionCheck, he, hm, if_true, if_false]
      · simp only [channel.readyPermissionCheck, he, hm, if_true, if_false]
      · simp only [channel.readyPermissionCheck, he, hm, if_true, if_false]
  · have he2 : c.hasPermissionUnCheck = false := by simpa using he
    refine ⟨?_, ?_, ?_, Or.inl ?_⟩ <;>
      simp only [channel.readyPermissionCheck, he2, Bool.false_eq_true, if_false, implies_true]

theorem readyStorage_block (sliceWithSize : Nat → Nat → Nat → List ReactorChannelMessage) :
    stageBlock .ChannelActionStorage (channel.readyStorage sliceWithSize) := by
  intro c
  by_cases he : c.hasUnstorage = true
  · have hfl : c.storaging = false := by
      cases hf : c.storaging
      · rfl
      · simp [channel.hasUnstorage, hf] at he
    by_cases hm : (sliceWithSize ((c.msgQueue.storagingIndex + 1) % 2 ^ 64)
        ((c.msgQueue.permissionCheckingIndex + 1) % 2 ^ 64) c.stroageMaxSize).length > 0
    · have hact : (channel.readyStorage sliceWithSize c).actions = c.actions ++
          [⟨.ChannelActionStorage, 0, sliceWithSize ((c.msgQueue.storagingIndex + 1) % 2 ^ 64)
            ((c.msgQueue.permissionCheckingIndex + 1) % 2 ^ 64) c.stroageMaxSize⟩] := by
        simp only [channel.readyStorage, he, hm, if_true, channel.exec]
      refine ⟨?_, ?_, ?_, Or.inr ⟨_, hact, rfl, ?_, ?_⟩⟩
      · intro t1 ht
        cases t1 <;> first
          | exact absurd rfl ht
          | simp only [channel.readyStorage, he, hm, if_true, channel.exec, channel.stageFlag]
      · simp only [channel.readyStorage, he, hm, if_true, channel.exec]
      · simp only [channel.readyStorage, he, hm, if_true, channel.exec]
      · simp only [channel.stageFlag, hfl]
      · simp only [channel.readyStorage, he, hm, if_true, channel.exec, channel.stageFlag]
    · refine ⟨?_, ?_, ?_, Or.inl ?_⟩
      · intro t1 ht
        cases t1 <;> first
          | exact absurd rfl ht
          | simp only [channel.readyStorage, he, hm, if_true, if_false, channel.stageFlag]
      · simp only [channel.readyStorage, he, hm, if_true, if_false]
      · simp only [channel.readyStorage, he, hm, if_true, if_false]
      · simp only [channel.readyStorage, he, hm, if_true, if_false]
  · have he2 : c.hasUnstorage = false := by simpa using he
    refine ⟨?_, ?_, ?_, Or.inl ?_⟩ <;>
      simp only [channel.readyStorage, he2, Bool.false_eq_true, if_false, implies_true]

theorem readySendack_block (sliceWithSize : Nat → Nat → Nat → List ReactorChannelMessage) :
    stageBlock .ChannelActionSendack (channel.readySendack sliceWithSize) := by
  intro c
  by_cases he : c.hasSendack = true
  · have hfl : c.sendacking = false := by
      cases hf : c.sendacking
      · rfl
      · simp [channel.hasSendack, hf] at he
    by_cases hm : (sliceWithSize ((c.msgQueue.sendackingIndex + 1) % 2 ^ 64)
        ((c.msgQueue.storagingIndex + 1) % 2 ^ 64) 0).length > 0
    · have hact : (channel.readySendack sliceWithSize c).actions = c.actions ++
          [⟨.ChannelActionSendack, 0, sliceWithSize ((c.msgQueue.sendackingIndex + 1) % 2 ^ 64)
            ((c.msgQueue.storagingIndex + 1) % 2 ^ 64) 0⟩] := by
        simp only [channel.readySendack, he, hm, if_true, channel.exec]
      refine ⟨?_, ?_, ?_, Or.inr ⟨_, hact, rfl, ?_, ?_⟩⟩
      · intro t1 ht
        cases t1 <;> first
          | exact absurd rfl ht
          | simp only [channel.readySendack, he, hm, if_true, channel.exec, channel.stageFlag]
      · simp only [channel.readySendack, he, hm, if_true, channel.exec]
      · simp only [channel.readySendack, he, hm, if_true, channel.exec]
      · simp only [channel.stageFlag, hfl]
      · simp only [channel.readySendack, he, hm, if_true, channel.exec, channel.stageFlag]
    · refine ⟨?_, ?_, ?_, Or.inl ?_⟩
      · intro t1 ht
        cases t1 <;> first
          | exact absurd rfl ht
          | simp only [channel.readySendack, he, hm, if_true, if_false, channel.stageFlag]
      · simp only [channel.readySendack, he, hm, if_true, if_false]
      · simp only [channel.readySendack, he, hm, if_true, if_false]
      · simp only [channel.readySendack, he, hm, if_true, if_false]
  · have he2 : c.hasSendack = false := by simpa using he
    refine ⟨?_, ?_, ?_, Or.inl ?_⟩ <;>
      simp only [channel.readySendack, he2, Bool.false_eq_true, if_false, implies_true]

theorem readyDeliver_block (sliceWithSize : Nat → Nat → Nat → List ReactorChannelMessage) :
    stageBlock .ChannelActionDeliver (channel.readyDeliver sliceWithSize) := by
  intro c
  by_cases he : c.hasUnDeliver = true
  · have hfl : c.delivering = false := by
      cases hf : c.delivering
      · rfl
      · simp [channel.hasUnDeliver, hf] at he
    by_cases hm : (sliceWithSize ((c.msgQueue.deliveringIndex + 1) % 2 ^ 64)
        ((c.msgQueue.storagingIndex + 1) % 2 ^ 64) c.deliverMaxSize).length > 0
    · have hact : (channel.readyDeliver sliceWithSize c).actions = c.actions ++
          [⟨.ChannelActionDeliver, 0, sliceWithSize ((c.msgQueue.deliveringIndex + 1) % 2 ^ 64)
            ((c.msgQueue.storagingIndex + 1) % 2 ^ 64) c.deliverMaxSize⟩] := by
        simp only [channel.readyDeliver, he, hm, if_true, channel.exec]
      refine ⟨?_, ?_, ?_, Or.inr ⟨_, hact, rfl, ?_, ?_⟩⟩
      · intro t1 ht
        cases t1 <;> first
          | exact absurd rfl ht
          | simp only [channel.readyDeliver, he, hm, if_true, channel.exec, channel.stageFlag]
      · simp only [channel.readyDeliver, he, hm, if_true, channel.exec]
      · simp only [channel.readyDeliver, he, hm, if_true, channel.exec]
      · simp only [channel.stageFlag, hfl]
      · simp only [channel.readyDeliver, he, hm, if_true, channel.exec, channel.stageFlag]
    · refine ⟨?_, ?_, ?_, Or.inl ?_⟩
      · intro t1 ht
        cases t1 <;> first
          | exact absurd rfl ht
          | simp only [channel.readyDeliver, he, hm, if_true, if_false, channel.stageFlag]
      · simp only [channel.readyDeliver, he, hm, if_true, if_false]
      · simp only [channel.readyDeliver, he, hm, if_true, if_false]
      · simp only [channel.readyDeliver, he, hm, if_true, if_false]
  · have he2 : c.hasUnDeliver = false := by simpa using he
    refine ⟨?_, ?_, ?_, Or.inl ?_⟩ <;>
      simp only [channel.readyDeliver, he2, Bool.false_eq_true, if_false, implies_true]

theorem readyForward_block (sliceWithSize : Nat → Nat → Nat → List ReactorChannelMessage) :
    stageBlock .ChannelActionForward (channel.readyForward sliceWithSize) := by
  intro c
  by_cases he : c.hasUnforward = true
  · have hfl : c.forwarding = false := by
      cases hf : c.forwarding
      · rfl
      · simp [channel.hasUnforward, hf] at he
    by_cases hm : (sliceWithSize ((c.msgQueue.forwardingIndex + 1) % 2 ^ 64)
        ((c.msgQueue.payloadDecryptingIndex + 1) % 2 ^ 64) c.deliverMaxSize).length > 0
    · have hact : (channel.readyForward sliceWithSize c).actions = c.actions ++
          [⟨.ChannelActionForward, c.leaderId, sliceWithSize ((c.msgQueue.forwardingIndex + 1) % 2 ^ 64)
            ((c.msgQueue.payloadDecryptingIndex + 1) % 2 ^ 64) c.deliverMaxSize⟩] := by
        simp only [channel.readyForward, he, hm, if_true, channel.exec]
      refine ⟨?_, ?_, ?_, Or.inr ⟨_, hact, rfl, ?_, ?_⟩⟩
      · intro t1 ht
        cases t1 <;> first
          | exact absurd rfl ht
          | simp only [channel.readyForward, he, hm, if_true, channel.exec, channel.stageFlag]
      · simp only [channel.readyForward, he, hm, if_true, channel.exec]
      · simp only [channel.readyForward, he, hm, if_true, channel.exec]
      · simp only [channel.stageFlag, hfl]
      · simp only [channel.readyForward, he, hm, if_true, channel.exec, channel.stageFlag]
    · refine ⟨?_, ?_, ?_, Or.inl ?_⟩
      · intro t1 ht
        cases t1 <;> first
          | exact absurd rfl ht
          | simp only [channel.readyForward, he, hm, if_true, if_false, channel.stageFlag]
      · simp only [channel.readyForward, he, hm, if_true, if_false]
      · simp only [channel.readyForward, he, hm, if_true, if_false]
      · simp only [channel.readyForward, he, hm, if_true, if_false]
  · have he2 : c.hasUnforward = false := by simpa using he
    refine ⟨?_, ?_, ?_, Or.inl ?_⟩ <;>
      simp only [channel.readyForward, he2, Bool.false_eq_true, if_false, implies_true]

theorem emitsStages_refl (c : channel) : emitsStages c c [] :=
  ⟨[], by simp, by simp, by simp, fun _ _ => rfl, rfl, rfl⟩

theorem emitsStages_step (c0 c : channel) (done : List ChannelActionType)
    (t : ChannelActionType) (f : channel → channel) (hf : stageBlock t f) (ht : t ∉ done)
    (h : emitsStages c0 c done) : emitsStages c0 (f c) (t :: done) := by
  obtain ⟨emitted, hact, hnd, hem, hrest, hrole, hstatus⟩ := h
  obtain ⟨fother, frole, fstatus, fact⟩ := hf c
  have hne : ∀ a ∈ emitted, a.ActionType ≠ t := fun a ha h1 => ht (h1 ▸ (hem a ha).1)
  rcases fact with fact | ⟨a, fact, hat, hbefore, hafter⟩
  · refine ⟨emitted, by rw [fact, hact], hnd, ?_, ?_, by rw [frole, hrole],
      by rw [fstatus, hstatus]⟩
    · intro b hb
      obtain ⟨h1, h2, h3⟩ := hem b hb
      exact ⟨List.mem_cons_of_mem _ h1, h2, by rw [fother _ (hne b hb)]; exact h3⟩
    · intro t1 ht1
      have h1 : t1 ≠ t := fun h => ht1 (h ▸ List.mem_cons_self _ _)
      have h2 : t1 ∉ done := fun h => ht1 (List.mem_cons_of_mem _ h)
      rw [fother t1 h1, hrest t1 h2]
  · refine ⟨emitted ++ [a], by rw [fact, hact, List.append_assoc], ?_, ?_, ?_,
      by rw [frole, hrole], by rw [fstatus, hstatus]⟩
    · rw [List.map_append, List.nodup_append]
      refine ⟨hnd, by simp, ?_⟩
      intro t1 h1 h2
      simp only [List.map_cons, List.map_nil, List.mem_singleton] at h2
      obtain ⟨b, hb, hbt⟩ := List.mem_map.mp h1
      exact hne b hb (by rw [hbt, h2, hat])
    · intro b hb
      rcases List.mem_append.mp hb with hb | hb
      · obtain ⟨h1, h2, h3⟩ := hem b hb
        exact ⟨List.mem_cons_of_mem _ h1, h2, by rw [fother _ (hne b hb)]; exact h3⟩
      · have hba : b = a := by simpa using hb
        subst hba
        rw [hat]
        refine ⟨List.mem_cons_self _ _, ?_, hafter⟩
        rw [← hrest t ht]
        exact hbefore
    · intro t1 ht1
      have h1 : t1 ≠ t := fun h => ht1 (h ▸ List.mem_cons_self _ _)
      have h2 : t1 ∉ done := fun h => ht1 (List.mem_cons_of_mem _ h)
      rw [fother t1 h1, hrest t1 h2]

theorem ready_run (sliceWithSize : Nat → Nat → Nat → List ReactorChannelMessage) (c : channel)
    (hinit : c.status = .channelStatusInitialized) :
    ∃ (c2 : channel) (done : List ChannelActionType),
      c.ready sliceWithSize = ({ c2 with actions := [] }, c2.actions) ∧
      emitsStages c c2 done ∧
      (c.role = .channelRoleProxy → ∀ t ∈ done,
        t = .ChannelActionPayloadDecrypt ∨ t = .ChannelActionForward) ∧
      (c.role = .channelRoleLeader → .ChannelActionForward ∉ done) := by
  have h1 := emitsStages_step c c [] _ _ (readyPayloadDecrypt_block sliceWithSize)
    (by simp) (emitsStages_refl c)
  have hrole1 : (c.readyPayloadDecrypt sliceWithSize).role = c.role := h1.choose_spec.2.2.2.2.1
  have hi : c.isInitialized = true := by simp [channel.isInitialized, hinit]
  by_cases hl : c.role = .channelRoleLeader
  · have h2 := emitsStages_step c _ _ _ _ (readyPermissionCheck_block sliceWithSize)
      (by simp) h1
    have h3 := emitsStages_step c _ _ _ _ (readyStorage_block sliceWithSize) (by simp) h2
    have h4 := emitsStages_step c _ _ _ _ (readySendack_block sliceWithSize) (by simp) h3
    have h5 := emitsStages_step c _ _ _ _ (readyDeliver_block sliceWithSize) (by simp) h4
    refine ⟨_, _, ?_, h5, ?_, ?_⟩
    · simp only [channel.ready, hi, Bool.not_true, Bool.false_eq_true, if_false, hrole1, hl,
        if_true]
    · intro hp
      rw [hl] at hp
      cases hp
    · intro _
      simp
  · by_cases hp : c.role = .channelRoleProxy
    · have h2 := emitsStages_step c _ _ _ _ (readyForward_block sliceWithSize) (by simp) h1
      refine ⟨_, _, ?_, h2, ?_, ?_⟩
      · have hnl : ¬ (channelRole.channelRoleProxy = channelRole.channelRoleLeader) := by
          decide
        simp only [channel.ready, hi, Bool.not_true, Bool.false_eq_true, if_false, hrole1, hp,
          hnl, if_true]
      · intro _ t ht
        simp only [List.mem_cons, List.mem_singleton, List.not_mem_nil, or_false] at ht
        rcases ht with h | h
        · exact Or.inr h
        · exact Or.inl h
      · intro h
        exact absurd h hl
    · refine ⟨_, _, ?_, h1, ?_, ?_⟩
      · simp only [channel.ready, hi, Bool.not_true, Bool.false_eq_true, if_false, hrole1, hl,
          hp]
      · intro h
        exact absurd h hp
      · intro h
        exact absurd h hl

theorem stageFlag_clear_actions (c : channel) (t : ChannelActionType) :
    channel.stageFlag { c with actions := [] } t = c.stageFlag t := by
  cases t <;> rfl

/-- C22: on an initialized channel, `ready` hands out the pending actions
followed by the actions it emits and leaves no action pending; every action
emitted is for a stage whose in-flight flag was false when `ready` was entered
and is true afterwards; no two actions emitted are for the same stage; on a
proxy channel only payload-decrypt and forward actions are emitted, and on a
leader channel no forward action is emitted. -/
theorem ready_one_action_per_stage
    (sliceWithSize : Nat → Nat → Nat → List ReactorChannelMessage) (c : channel)
    (hinit : c.status = .channelStatusInitialized) :
    (c.ready sliceWithSize).1.actions = [] ∧
    (c.ready sliceWithSize).2 =
      c.actions ++ (c.ready sliceWithSize).2.drop c.actions.length ∧
    (∀ a ∈ (c.ready sliceWithSize).2.drop c.actions.length,
      c.stageFlag a.ActionType = some false ∧
      (c.ready sliceWithSize).1.stageFlag a.ActionType = some true) ∧
    (((c.ready sliceWithSize).2.drop c.actions.length).map fun a => a.ActionType).Nodup ∧
    (c.role = .channelRoleProxy → ∀ a ∈ (c.ready sliceWithSize).2.drop c.actions.length,
      a.ActionType = .ChannelActionPayloadDecrypt ∨ a.ActionType = .ChannelActionForward) ∧
    (c.role = .channelRoleLeader → ∀ a ∈ (c.ready sliceWithSize).2.drop c.actions.length,
      a.ActionType ≠ .ChannelActionForward) := by
  obtain ⟨c2, done, hready, ⟨emitted, hact, hnd, hem, _, _, _⟩, hproxy, hleader⟩ :=
    ready_run sliceWithSize c hinit
  have hdrop : (c.ready sliceWithSize).2.drop c.actions.length = emitted := by
    rw [hready]
    simp only
    rw [hact, List.drop_left]
  rw [hdrop]
  refine ⟨by rw [hready], by rw [hready]; exact hact, ?_, hnd, ?_, ?_⟩
  · intro a ha
    obtain ⟨_, h2, h3⟩ := hem a ha
    refine ⟨h2, ?_⟩
    rw [hready]
    simp only
    rw [stageFlag_clear_actions]
    exact h3
  · intro hp a ha
    exact hproxy hp _ (hem a ha).1
  · intro hl a ha h
    exact hleader hl (h ▸ (hem a ha).1)

/-- C22, on an input: the leader channel `busyChannel`, with work at every
stage, gets one action for each of the five stages of a leader, in the order
of the stages, and every flag but `forwarding` is set. -/
theorem ready_one_action_per_stage_witness :
    (busyChannel.ready sizedSlice).2.map (fun a => a.ActionType) =
      [.ChannelActionPayloadDecrypt, .ChannelActionPermissionCheck, .ChannelActionStorage,
       .ChannelActionSendack, .ChannelActionDeliver] ∧
    (busyChannel.ready sizedSlice).1.forwarding = false ∧
    (((busyChannel.ready sizedSlice).2.drop busyChannel.actions.length).map
      fun a => a.ActionType).Nodup :=
  ⟨by decide, by decide, (ready_one_action_per_stage sizedSlice busyChannel rfl).2.2.2.1⟩

/-- C23, the defect: on the proxy channel `proxyChannel`, whose forward budget
is 40 bytes and whose deliver budget is 100 bytes, the forward batch of `ready`
is sliced with the budget 100 and holds two messages of 40 bytes, where the
budget 40 gives one; `newChannel` sets each of the three budgets to 2097152. -/
theorem ready_forward_uses_deliverMaxSize :
    proxyChannel.forwardMaxSize = 40 ∧
    proxyChannel.deliverMaxSize = 100 ∧
    (proxyChannel.ready sizedSlice).2 =
      [⟨.ChannelActionForward, 2, sizedSlice 1 6 proxyChannel.deliverMaxSize⟩] ∧
    (sizedSlice 1 6 proxyChannel.deliverMaxSize).length = 2 ∧
    (sizedSlice 1 6 proxyChannel.forwardMaxSize).length = 1 ∧
    ∀ (ChannelToKey : String → Nat → String) (channelId : String) (channelType : Nat),
      (newChannel ChannelToKey channelId channelType).stroageMaxSize = 2097152 ∧
      (newChannel ChannelToKey channelId channelType).deliverMaxSize = 2097152 ∧
      (newChannel ChannelToKey channelId channelType).forwardMaxSize = 2097152 := by
  refine ⟨by decide, by decide, by decide, by decide, by decide, ?_⟩
  intro _ _ _
  exact ⟨rfl, rfl, rfl⟩

/-- C28, the defect: the initialized leader channel `unackedChannel`, whose
only outstanding work is two stored messages that are not acknowledged, is not
reported ready by `hasReady`, while `ready` emits the sendack action for these
two messages. -/
theorem hasReady_misses_sendack :
    unackedChannel.status = .channelStatusInitialized ∧
    unackedChannel.role = .channelRoleLeader ∧
    unackedChannel.actions = [] ∧
    unackedChannel.hasSendack = true ∧
    unackedChannel.hasReady = false ∧
    (unackedChannel.ready sizedSlice).2 = [⟨.ChannelActionSendack, 0, sizedSlice 4 6 0⟩] ∧
    (sizedSlice 4 6 0).length = 2 := by
  decide

/-! ## syncUserConversation: the whole run -/

theorem mergedRows_eq (persisted cache : List Conversation) :
    mergedRows persisted cache = mergeCacheConversations persisted cache := by
  rw [mergeCacheConversations_eq_reference]
  unfold mergedRows mergeReference newCacheEntries
  congr 2
  apply List.filter_congr
  intro p _
  by_cases h : existsIn (persisted ++ p.1) p.2 = true
  · have h2 := (existsIn_iff _ _).1 h
    obtain ⟨a, ha, h3, h4⟩ := h2
    have hno : ¬ ∀ row ∈ persisted ++ p.1,
        ¬ (row.ChannelId = p.2.ChannelId ∧ row.ChannelType = p.2.ChannelType) :=
      fun hall => hall a ha ⟨h3.symm, h4.symm⟩
    show decide (∀ row ∈ persisted ++ p.1,
        ¬ (row.ChannelId = p.2.ChannelId ∧ row.ChannelType = p.2.ChannelType)) =
      !existsIn (persisted ++ p.1) p.2
    rw [h, decide_eq_false hno]
    rfl
  · have hf : existsIn (persisted ++ p.1) p.2 = false := by simpa using h
    have hall : ∀ row ∈ persisted ++ p.1,
        ¬ (row.ChannelId = p.2.ChannelId ∧ row.ChannelType = p.2.ChannelType) := by
      intro row hrow hsame
      exact h ((existsIn_iff _ _).2 ⟨row, hrow, hsame.1.symm, hsame.2.symm⟩)
    show decide (∀ row ∈ persisted ++ p.1,
        ¬ (row.ChannelId = p.2.ChannelId ∧ row.ChannelType = p.2.ChannelType)) =
      !existsIn (persisted ++ p.1) p.2
    rw [hf, decide_eq_true hall]
    rfl

theorem maxReadSeq_eq (env : Env) (req : syncUserConversationReq)
    (conversation : Conversation) :
    effectiveMsgSeq env req.UID (getChannelLastMsgSeqMap req.LastMsgSeqs)
        (cacheConversationMapOf (env.GetUserConversationFromCache req.UID)) conversation =
      maxReadSeq env req conversation :=
  effectiveMsgSeq_eq_max _ _ _ _ _

theorem syncReqs_eq (env : Env) (req : syncUserConversationReq)
    (persisted : List Conversation) :
    syncReqs env req persisted = mergedRecentReqs env req persisted := by
  unfold syncReqs syncMerged mergedRecentReqs
  rw [mergedRows_eq]
  apply List.map_congr_left
  intro conversation _
  simp only [recentMessageReqOf, maxReadSeq_eq]

theorem syncBuilt_eq (env : Env) (req : syncUserConversationReq)
    (persisted : List Conversation) :
    (syncMerged env req persisted).map (syncBuilt env req) = mergedResps env req persisted := by
  unfold syncMerged mergedResps
  rw [mergedRows_eq]
  apply List.map_congr_left
  intro conversation _
  simp only [syncBuilt, conversationRespOf, maxReadSeq_eq]

/-- The effects of `syncUserConversation` once the request is decoded, the
request is not forwarded and the rows are read. -/
theorem syncUserConversation_run (env : Env) (c : Context)
    (decode : List Nat → Except GoError syncUserConversationReq)
    (req : syncUserConversationReq) (persisted : List Conversation)
    (hdec : decode c.Body = .ok req)
    (hgate : (slotLeaderGate env c req.UID c.Body).2 = false)
    (hget : env.GetLastConversations req.UID (toUint64 req.Version) env.UserMaxCount =
      .ok persisted) :
    (∀ crms, req.MsgCount > 0 →
      (fetchRecent env req.UID req.MsgCount (mergedRecentReqs env req persisted)).2 = .ok crms →
      syncUserConversation env c decode =
        (slotLeaderGate env c req.UID c.Body).1 ++
          [.storeGetLastConversations req.UID (toUint64 req.Version) env.UserMaxCount,
           .cacheGet req.UID] ++
          (fetchRecent env req.UID req.MsgCount (mergedRecentReqs env req persisted)).1 ++
          [.responseConversations (attachRecents (mergedResps env req persisted) crms)]) ∧
    (∀ err, req.MsgCount > 0 →
      (fetchRecent env req.UID req.MsgCount (mergedRecentReqs env req persisted)).2 =
        .error err →
      syncUserConversation env c decode =
        (slotLeaderGate env c req.UID c.Body).1 ++
          [.storeGetLastConversations req.UID (toUint64 req.Version) env.UserMaxCount,
           .cacheGet req.UID] ++
          (fetchRecent env req.UID req.MsgCount (mergedRecentReqs env req persisted)).1 ++
          [.responseError (.other "获取最近消息失败！")]) ∧
    (¬ req.MsgCount > 0 →
      syncUserConversation env c decode =
        (slotLeaderGate env c req.UID c.Body).1 ++
          [.storeGetLastConversations req.UID (toUint64 req.Version) env.UserMaxCount,
           .cacheGet req.UID] ++
          [.responseConversations (mergedResps env req persisted)]) := by
  rw [← syncReqs_eq, ← syncBuilt_eq]
  have hrun : syncUserConversation env c decode =
      (slotLeaderGate env c req.UID c.Body).1 ++
        [.storeGetLastConversations req.UID (toUint64 req.Version) env.UserMaxCount,
         .cacheGet req.UID] ++
        (if req.MsgCount > 0 then
          (fetchRecent env req.UID req.MsgCount (syncReqs env req persisted)).1 ++
            [match (fetchRecent env req.UID req.MsgCount (syncReqs env req persisted)).2 with
              | .error _ => Effect.responseError (.other "获取最近消息失败！")
              | .ok crms => Effect.responseConversations
                  (attachRecents ((syncMerged env req persisted).map (syncBuilt env req)) crms)]
        else [.responseConversations ((syncMerged env req persisted).map (syncBuilt env req))]) := by
    unfold syncUserConversation BindJSON
    simp only [hdec, hgate, Bool.false_eq_true, if_false, hget]
    by_cases hcount : req.MsgCount > 0
    · simp only [hcount, if_true]
      unfold syncReqs syncMerged
      cases hres : (fetchRecent env req.UID req.MsgCount
          (List.map (recentMessageReqOf env req.UID (getChannelLastMsgSeqMap req.LastMsgSeqs)
            (cacheConversationMapOf (env.GetUserConversationFromCache req.UID)))
            (mergeCacheConversations persisted (env.GetUserConversationFromCache req.UID)))).2 with
      | error err => simp
      | ok crms =>
        simp
        rfl
    · simp only [hcount, if_false]
      simp [syncMerged, syncBuilt]
  refine ⟨?_, ?_, ?_⟩
  · intro crms hcount hres
    rw [hrun, if_pos hcount, hres]
    simp
  · intro err hcount hres
    rw [hrun, if_pos hcount, hres]
    simp
  · intro hcount
    rw [hrun, if_neg hcount]

theorem attachRecents_readed (resps : List syncUserConversationResp)
    (crms : List channelRecentMessage) :
    (attachRecents resps crms).map (fun resp => resp.ReadedToMsgSeq) =
      resps.map fun resp => resp.ReadedToMsgSeq := by
  unfold attachRecents
  rw [List.map_map]
  apply List.map_congr_left
  intro resp _
  exact foldl_attachRecent_readed crms resp

theorem attachRecents_channelType (resps : List syncUserConversationResp)
    (crms : List channelRecentMessage) :
    (attachRecents resps crms).map (fun resp => resp.ChannelType) =
      resps.map fun resp => resp.ChannelType := by
  unfold attachRecents
  rw [List.map_map]
  apply List.map_congr_left
  intro resp _
  exact foldl_attachRecent_channel crms resp

theorem mergedRows_take (persisted cache : List Conversation) (i : Nat)
    (hi : i < persisted.length) : (mergedRows persisted cache)[i]? = persisted[i]? := by
  unfold mergedRows
  exact List.getElem?_append_left hi

/-- C6: `syncUserConversation`, once the request is decoded, not forwarded and
the rows are read, asks the reader of the recent messages for the channels of
the merged list from the sequence `max(c, k, p)` of each conversation and
answers with one response per conversation whose `readed_to_msg_seq` is that
same sequence: `c` the client-supplied sequence of the conversation's real
channel, `k` the read position the cache holds for the channel, both 0 if
absent, and `p` the row's own `readed_to_msg_seq`, the persisted one for a
persisted row.  With a positive `msg_count` the requests go to the reader and
the response follows when the reader succeeds; otherwise no request is made
and the response is sent at once. -/
theorem syncUserConversation_effective_seq (env : Env) (c : Context)
    (decode : List Nat → Except GoError syncUserConversationReq)
    (req : syncUserConversationReq) (persisted : List Conversation)
    (hdec : decode c.Body = .ok req)
    (hgate : (slotLeaderGate env c req.UID c.Body).2 = false)
    (hget : env.GetLastConversations req.UID (toUint64 req.Version) env.UserMaxCount =
      .ok persisted) :
    (∀ crms, req.MsgCount > 0 →
      (fetchRecent env req.UID req.MsgCount (mergedRecentReqs env req persisted)).2 = .ok crms →
      syncUserConversation env c decode =
        (slotLeaderGate env c req.UID c.Body).1 ++
          [.storeGetLastConversations req.UID (toUint64 req.Version) env.UserMaxCount,
           .cacheGet req.UID] ++
          (fetchRecent env req.UID req.MsgCount (mergedRecentReqs env req persisted)).1 ++
          [.responseConversations (attachRecents (mergedResps env req persisted) crms)]) ∧
    (¬ req.MsgCount > 0 →
      syncUserConversation env c decode =
        (slotLeaderGate env c req.UID c.Body).1 ++
          [.storeGetLastConversations req.UID (toUint64 req.Version) env.UserMaxCount,
           .cacheGet req.UID] ++
          [.responseConversations (mergedResps env req persisted)]) ∧
    (mergedRecentReqs env req persisted).map (fun r => r.LastMsgSeq) =
      (mergedRows persisted (env.GetUserConversationFromCache req.UID)).map
        (maxReadSeq env req) ∧
    (mergedResps env req persisted).map (fun resp => resp.ReadedToMsgSeq) =
      (mergedRows persisted (env.GetUserConversationFromCache req.UID)).map
        (maxReadSeq env req) ∧
    (∀ crms, (attachRecents (mergedResps env req persisted) crms).map
        (fun resp => resp.ReadedToMsgSeq) =
      (mergedRows persisted (env.GetUserConversationFromCache req.UID)).map
        (maxReadSeq env req)) ∧
    ∀ i, i < persisted.length →
      (mergedRows persisted (env.GetUserConversationFromCache req.UID))[i]? = persisted[i]? := by
  have hrun := syncUserConversation_run env c decode req persisted hdec hgate hget
  have hresps : (mergedResps env req persisted).map (fun resp => resp.ReadedToMsgSeq) =
      (mergedRows persisted (env.GetUserConversationFromCache req.UID)).map
        (maxReadSeq env req) := by
    unfold mergedResps
    rw [List.map_map]
    rfl
  refine ⟨hrun.1, hrun.2.2, ?_, hresps, ?_, ?_⟩
  · unfold mergedRecentReqs
    rw [List.map_map]
    rfl
  · intro crms
    rw [attachRecents_readed, hresps]
  · intro i hi
    exact mergedRows_take _ _ i hi

/-- C6, on the input of the spec with `msg_count` 1: the client sends
`bob:1:42`, the persisted row is read up to 40 and the cache up to 45, and the
channel holds message 50.  The handler reads the store for the channel with
the request sequence 45 and answers with `readed_to_msg_seq` 45. -/
theorem syncUserConversation_effective_seq_witness :
    syncUserConversation (sampleRecentEnv [aliceRow 0 40] [aliceRow 0 45] [sampleMsg 50])
        ⟨"/conversation/sync", []⟩ (sampleSync "bob:1:42" 1) =
      [.storeGetLastConversations "alice" 100 100, .cacheGet "alice",
       .storeLoadLastMsgsWithEnd "alice@bob" 1 44 1,
       .responseConversations [bobResp 5 50 45 [sampleMsg 50]]] ∧
    mergedRecentReqs (sampleRecentEnv [aliceRow 0 40] [aliceRow 0 45] [sampleMsg 50])
        ⟨"alice", 100, "bob:1:42", 1⟩ [aliceRow 0 40] =
      [⟨"bob", 1, 45⟩] ∧
    max (max 42 45) 40 = 45 :=
  ⟨((syncUserConversation_effective_seq
      (sampleRecentEnv [aliceRow 0 40] [aliceRow 0 45] [sampleMsg 50])
      ⟨"/conversation/sync", []⟩ (sampleSync "bob:1:42" 1)
      ⟨"alice", 100, "bob:1:42", 1⟩ [aliceRow 0 40] rfl rfl rfl).1
        [⟨"bob", 1, [sampleMsg 50]⟩] (by decide) rfl).trans (by decide),
   by decide, by decide⟩

theorem mergeStep_new (rest : List Conversation) :
    ∀ acc : List Conversation,
      ∃ new : List Conversation, rest.foldl mergeStep acc = acc ++ new ∧
        new.Pairwise distinctChannel ∧ ∀ a ∈ acc, ∀ b ∈ new, distinctChannel a b := by
  induction rest with
  | nil =>
    intro acc
    exact ⟨[], by simp, List.Pairwise.nil, fun _ _ b hb => by cases hb⟩
  | cons cc r ih =>
    intro acc
    rw [List.foldl_cons]
    by_cases hex : existsIn acc cc = true
    · have hstep : mergeStep acc cc = acc := by
        unfold mergeStep
        rw [if_pos hex]
      rw [hstep]
      exact ih acc
    · have hstep : mergeStep acc cc = acc ++ [cc] := by
        unfold mergeStep
        rw [if_neg hex]
      rw [hstep]
      obtain ⟨new, hnew, hpair, hdist⟩ := ih (acc ++ [cc])
      refine ⟨cc :: new, by rw [hnew]; simp, ?_, ?_⟩
      · rw [List.pairwise_cons]
        exact ⟨fun b hb => hdist cc (by simp) b hb, hpair⟩
      · intro a ha b hb
        rcases List.mem_cons.1 hb with h | h
        · subst h
          intro hsame
          apply hex
          rw [existsIn_iff]
          exact ⟨a, ha, hsame.1.symm, hsame.2.symm⟩
        · exact hdist a (by simp [ha]) b h

/-- C7: `syncUserConversation`, once the request is decoded, not forwarded and
the rows are read, works on the merged list `mergedRows`: the persisted rows
in their order, followed by the cached conversations whose
`(channel_id, channel_type)` is that of no row already in the list, each once
and in cache order.  The requests for the recent messages and the responses
are made of that list, one per conversation and in its order, whatever the
recent messages are.  The added conversations are a sublist of the cache, of
pairwise different channels and of channels no persisted row has; every
cached channel has a row in the list; and persisted rows of pairwise
different channels give a list, and so a response, of pairwise different
channels. -/
theorem syncUserConversation_merge (env : Env) (c : Context)
    (decode : List Nat → Except GoError syncUserConversationReq)
    (req : syncUserConversationReq) (persisted : List Conversation)
    (hdec : decode c.Body = .ok req)
    (hgate : (slotLeaderGate env c req.UID c.Body).2 = false)
    (hget : env.GetLastConversations req.UID (toUint64 req.Version) env.UserMaxCount =
      .ok persisted) :
    (∀ crms, req.MsgCount > 0 →
      (fetchRecent env req.UID req.MsgCount (mergedRecentReqs env req persisted)).2 = .ok crms →
      syncUserConversation env c decode =
        (slotLeaderGate env c req.UID c.Body).1 ++
          [.storeGetLastConversations req.UID (toUint64 req.Version) env.UserMaxCount,
           .cacheGet req.UID] ++
          (fetchRecent env req.UID req.MsgCount (mergedRecentReqs env req persisted)).1 ++
          [.responseConversations (attachRecents (mergedResps env req persisted) crms)]) ∧
    (¬ req.MsgCount > 0 →
      syncUserConversation env c decode =
        (slotLeaderGate env c req.UID c.Body).1 ++
          [.storeGetLastConversations req.UID (toUint64 req.Version) env.UserMaxCount,
           .cacheGet req.UID] ++
          [.responseConversations (mergedResps env req persisted)]) ∧
    (mergedRecentReqs env req persisted).map (fun r => r.ChannelType) =
      (mergedRows persisted (env.GetUserConversationFromCache req.UID)).map
        (fun conversation => conversation.ChannelType) ∧
    (∀ crms, (attachRecents (mergedResps env req persisted) crms).map
        (fun resp => resp.ChannelType) =
      (mergedRows persisted (env.GetUserConversationFromCache req.UID)).map
        (fun conversation => conversation.ChannelType)) ∧
    (∃ new : List Conversation,
      mergedRows persisted (env.GetUserConversationFromCache req.UID) = persisted ++ new ∧
      new.Sublist (env.GetUserConversationFromCache req.UID) ∧
      new.Pairwise distinctChannel ∧
      ∀ row ∈ persisted, ∀ cc ∈ new, distinctChannel row cc) ∧
    (∀ cc ∈ env.GetUserConversationFromCache req.UID,
      ∃ row ∈ mergedRows persisted (env.GetUserConversationFromCache req.UID),
        row.ChannelId = cc.ChannelId ∧ row.ChannelType = cc.ChannelType) ∧
    (persisted.Pairwise distinctChannel →
      (mergedRows persisted
        (env.GetUserConversationFromCache req.UID)).Pairwise distinctChannel) := by
  have hrun := syncUserConversation_run env c decode req persisted hdec hgate hget
  refine ⟨hrun.1, hrun.2.2, ?_, ?_, ?_, ?_, ?_⟩
  · unfold mergedRecentReqs
    rw [List.map_map]
    rfl
  · intro crms
    rw [attachRecents_channelType]
    unfold mergedResps
    rw [List.map_map]
    rfl
  · obtain ⟨new, hnew, hpair, hdist⟩ :=
      mergeStep_new (env.GetUserConversationFromCache req.UID) persisted
    have hm := mergedRows_eq persisted (env.GetUserConversationFromCache req.UID)
    have hr := mergeCacheConversations_eq_reference persisted
      (env.GetUserConversationFromCache req.UID)
    have hsub := newCacheEntries_sublist persisted (env.GetUserConversationFromCache req.UID)
    unfold mergeCacheConversations at hm hr
    rw [hnew] at hm hr
    unfold mergeReference at hr
    rw [← List.append_cancel_left hr] at hsub
    exact ⟨new, hm, hsub, hpair, hdist⟩
  · intro cc hcc
    have h := (existsIn_foldl_mergeStep (env.GetUserConversationFromCache req.UID) persisted).2
      cc hcc
    rw [mergedRows_eq]
    obtain ⟨row, hrow, h1, h2⟩ := (existsIn_iff _ _).1 h
    exact ⟨row, hrow, h1.symm, h2.symm⟩
  · intro hp
    rw [mergedRows_eq]
    exact pairwise_foldl_mergeStep _ persisted hp

/-- C7, on an input with `msg_count` 1: one persisted row of the channel with
bob; the cache holds a conversation of that channel and two of the group
`g1`.  The merged list is the persisted row and the first conversation of the
group; the handler reads the store for these two channels and answers with
one response for each. -/
theorem syncUserConversation_merge_witness :
    syncUserConversation
        (sampleRecentEnv [aliceRow 0 40] [aliceRow 0 45, groupRow 7, groupRow 9] [sampleMsg 50])
        ⟨"/conversation/sync", []⟩ (sampleSync "bob:1:42" 1) =
      [.storeGetLastConversations "alice" 100 100, .cacheGet "alice",
       .storeLoadLastMsgsWithEnd "alice@bob" 1 44 1,
       .storeLoadLastMsgsWithEnd "g1" 2 8 1,
       .responseConversations
         [bobResp 5 50 45 [sampleMsg 50],
          ⟨"g1", 2, 41, 0, 50, "", 9, [sampleMsg 50]⟩]] ∧
    mergedRows [aliceRow 0 40] [aliceRow 0 45, groupRow 7, groupRow 9] =
      [aliceRow 0 40, groupRow 7] :=
  ⟨((syncUserConversation_merge
      (sampleRecentEnv [aliceRow 0 40] [aliceRow 0 45, groupRow 7, groupRow 9] [sampleMsg 50])
      ⟨"/conversation/sync", []⟩ (sampleSync "bob:1:42" 1)
      ⟨"alice", 100, "bob:1:42", 1⟩ [aliceRow 0 40] rfl rfl rfl).1
        [⟨"bob", 1, [sampleMsg 50]⟩, ⟨"g1", 2, [sampleMsg 50]⟩]
        (by decide) rfl).trans (by decide),
   by decide⟩

end WuKongIM
